import Mathlib

/-!
Shallow embedding of the Clio invoice-approval app's API client
(`src/services/clio.ts`) and sync reconciler (`src/services/sync.ts`).
Machine time is modelled as milliseconds-since-epoch natural numbers, the
remote HTTP service as explicit oracles (functions from call index or
identifier to an `Except`-typed outcome), and thrown JS exceptions as
`Except.error` values.  Monetary `Prisma.Decimal` values are modelled as
exact integers (the source never uses binary floating point for them).
-/

namespace Clio

/-- Rate limiting configuration, `clio.ts` lines 21-25. -/
def RATE_LIMIT_REQUESTS_PER_SECOND : Nat := 4

/-- `RATE_LIMIT_DELAY_MS = 1000 / RATE_LIMIT_REQUESTS_PER_SECOND` (= 250). -/
def RATE_LIMIT_DELAY_MS : Nat := 1000 / RATE_LIMIT_REQUESTS_PER_SECOND

/-- `MAX_RETRIES = 3`, `clio.ts` line 24. -/
def MAX_RETRIES : Nat := 3

/-- `RETRY_DELAY_MS = 1000`, `clio.ts` line 25. -/
def RETRY_DELAY_MS : Nat := 1000

/-- OAuth token endpoint response (`TokenResponse` interface, `clio.ts`
lines 27-32); `expires_in` is in seconds. -/
structure TokenResponse where
  access_token : String
  refresh_token : String
  expires_in : Nat
deriving Repr, DecidableEq

/-- JS `x || null` on an optional string: the empty string is falsy. -/
def jsStrOrNull : Option String → Option String
  | none => none
  | some s => if s = "" then none else some s

/-- The private mutable fields of a `ClioClient` instance
(`clio.ts` lines 50-54).  `tokenExpiry` is a millisecond timestamp. -/
structure ClientState where
  accessToken : Option String
  refreshToken : Option String
  tokenExpiry : Option Nat
  lastRequestTime : Nat
deriving Repr, DecidableEq

/-- The `ClioClient` constructor (`clio.ts` lines 56-60):
`this.accessToken = accessToken || null` etc., `tokenExpiry` left `null`,
`lastRequestTime` initialized to `0`. -/
def ClioClient.construct (accessToken refreshToken : Option String) : ClientState :=
  { accessToken := jsStrOrNull accessToken
    refreshToken := jsStrOrNull refreshToken
    tokenExpiry := none
    lastRequestTime := 0 }

/-- `createClioClient` factory (`clio.ts` lines 658-664): passes its
arguments straight to the constructor. -/
def createClioClient (accessToken : String) (refreshToken : Option String) : ClientState :=
  ClioClient.construct (some accessToken) refreshToken

/-- `ClioClient.isTokenExpired` (`clio.ts` lines 154-158): `false` when no
expiry is cached, otherwise true iff the expiry is less than 5 minutes
past `now`.  The JS subtraction is signed, hence the `Int` cast. -/
def isTokenExpired (c : ClientState) (now : Nat) : Bool :=
  match c.tokenExpiry with
  | none => false
  | some e => (e : Int) - (now : Int) < 5 * 60 * 1000

/-- Outcome of one `ClioClient.refreshAccessToken` call
(`clio.ts` lines 111-149). `callbackCalls` lists the invocations of the
caller-supplied `onTokenUpdate` callback, each carrying
(accessToken, refreshToken, expiresAt). -/
structure RefreshOutcome where
  state : ClientState
  result : Except String TokenResponse
  callbackCalls : List (String × String × Nat)
deriving Repr

/-- `ClioClient.refreshAccessToken` (`clio.ts` lines 111-149): fails if no
refresh token is cached; otherwise POSTs to the token endpoint (modelled
by the `server` outcome), and on success stores the new tokens, sets
`tokenExpiry := now + expires_in * 1000`, and invokes `onTokenUpdate`
exactly once (when a callback was supplied, modelled by `hasCallback`). -/
def refreshAccessToken (c : ClientState) (hasCallback : Bool) (now : Nat)
    (server : Except String TokenResponse) : RefreshOutcome :=
  match c.refreshToken with
  | none => ⟨c, .error "No refresh token available", []⟩
  | some _ =>
    match server with
    | .error e => ⟨c, .error ("Failed to refresh token: " ++ e), []⟩
    | .ok tokens =>
      let expiry := now + tokens.expires_in * 1000
      ⟨{ c with
          accessToken := some tokens.access_token
          refreshToken := some tokens.refresh_token
          tokenExpiry := some expiry },
       .ok tokens,
       if hasCallback then [(tokens.access_token, tokens.refresh_token, expiry)] else []⟩

/-- `ClioClient.applyRateLimit` (`clio.ts` lines 167-176): given the cached
`lastRequestTime` and the current clock `now`, returns
(milliseconds slept, new `lastRequestTime`).  The new `lastRequestTime` is
`Date.now()` after the sleep, i.e. the instant the request is issued
(modelling `sleep ms` as advancing the clock by exactly `ms`). -/
def applyRateLimit (lastRequestTime now : Nat) : Nat × Nat :=
  let timeSinceLastRequest := now - lastRequestTime
  if timeSinceLastRequest < RATE_LIMIT_DELAY_MS then
    let w := RATE_LIMIT_DELAY_MS - timeSinceLastRequest
    (w, now + w)
  else
    (0, now)

/-- A JS exception as seen by the `catch` block of `ClioClient.request`:
either a `TypeError` whose message contains `fetch` (a low-level network
error, the only retryable kind) or any other `Error`. -/
inductive JsError where
  | fetchTypeError (msg : String)
  | error (msg : String)
deriving Repr, DecidableEq

/-- An HTTP response as consumed by `ClioClient.request`: status code,
body text, and the optional parsed `Retry-After` header (seconds). -/
structure HttpResponse where
  status : Nat
  body : String
  retryAfter : Option Nat
deriving Repr, DecidableEq

/-- The remote side of one logical `ClioClient.request`: `fetch k` is the
outcome of the k-th `fetch` issued for this logical request (counting from
0), and `refresh k` is the outcome of the reactive `refreshAccessToken`
performed when the k-th fetch returned HTTP 401. -/
structure RequestEnv where
  fetch : Nat → Except JsError HttpResponse
  refresh : Nat → Except JsError Unit

mutual

/-- The retry dispatch of `ClioClient.request` (`clio.ts` lines 185-266)
at a given `retryCount`, started at the k-th fetch slot (`idx`).
Returns the surfaced result (response body, or `{}` for 204) and the
number of fetches issued.  Mirrors the source's control flow exactly:
`requestTryBlock` is the `try` block (the 429/401/5xx recursive retries
happen inside it), and `requestGo` wraps it in the `catch` block, which
retries once more on a network `TypeError` while
`retryCount < MAX_RETRIES` and rethrows every other error.  Token-state
mutation inside the 401 branch is irrelevant to the control flow and is
absorbed into `env.refresh`. -/
def requestTryBlock (env : RequestEnv) (idx retryCount : Nat) :
    Except JsError String × Nat :=
  match env.fetch idx with
  | .error e => (.error e, 1)
  | .ok resp =>
    if resp.status = 429 then
      if _h429 : retryCount < MAX_RETRIES then
        let inner := requestGo env (idx + 1) (retryCount + 1)
        (inner.1, inner.2 + 1)
      else
        (.error (.error "Rate limit exceeded after maximum retries"), 1)
    else if resp.status = 401 then
      match env.refresh idx with
      | .error e => (.error e, 1)
      | .ok _ =>
        if _h401 : retryCount < MAX_RETRIES then
          let inner := requestGo env (idx + 1) (retryCount + 1)
          (inner.1, inner.2 + 1)
        else
          (.error (.error "Authentication failed after token refresh"), 1)
    else if _h5xx : 500 ≤ resp.status ∧ retryCount < MAX_RETRIES then
      let inner := requestGo env (idx + 1) (retryCount + 1)
      (inner.1, inner.2 + 1)
    else if ¬(200 ≤ resp.status ∧ resp.status < 300) then
      (.error (.error ("Clio API error: " ++ toString resp.status ++ " - " ++ resp.body)), 1)
    else if resp.status = 204 then
      (.ok "{}", 1)
    else
      (.ok resp.body, 1)
termination_by (MAX_RETRIES + 1 - retryCount, 0)
decreasing_by
  all_goals (apply Prod.Lex.left; omega)

/-- The `try`/`catch` of `ClioClient.request`: run the `try` block; on a
network `TypeError` retry (from the `catch`) while under the cap,
otherwise rethrow. -/
def requestGo (env : RequestEnv) (idx retryCount : Nat) :
    Except JsError String × Nat :=
  match requestTryBlock env idx retryCount with
  | (.error (.fetchTypeError m), n) =>
    if _hc : retryCount < MAX_RETRIES then
      let retried := requestGo env (idx + n) (retryCount + 1)
      (retried.1, n + retried.2)
    else
      (.error (.fetchTypeError m), n)
  | r => r
termination_by (MAX_RETRIES + 1 - retryCount, 1)
decreasing_by
  all_goals first
    | (apply Prod.Lex.left; omega)
    | (apply Prod.Lex.right; omega)

end

/-- Result of one logical `ClioClient.request` including the pre-request
steps (`clio.ts` lines 190-200). -/
structure RequestResult where
  state : ClientState
  result : Except JsError String
  attempts : Nat
  callbackCalls : List (String × String × Nat)
  refreshedBeforeSend : Bool
deriving Repr

/-- `ClioClient.request` (`clio.ts` lines 185-266): throws immediately if
no access token is cached; performs a proactive token refresh when
`isTokenExpired` holds (aborting if that refresh throws); applies the
rate limit; then runs the fetch/retry dispatch `requestGo` with
`retryCount = 0`. -/
def request (c : ClientState) (hasCallback : Bool) (now : Nat)
    (refreshServer : Except String TokenResponse) (env : RequestEnv) :
    RequestResult :=
  match c.accessToken with
  | none =>
    ⟨c, .error (.error "No access token available"), 0, [], false⟩
  | some _ =>
    if isTokenExpired c now then
      let ro := refreshAccessToken c hasCallback now refreshServer
      match ro.result with
      | .error e => ⟨ro.state, .error (.error e), 0, ro.callbackCalls, true⟩
      | .ok _ =>
        let issuedAt := (applyRateLimit ro.state.lastRequestTime now).2
        let c' := { ro.state with lastRequestTime := issuedAt }
        let r := requestGo env 0 0
        ⟨c', r.1, r.2, ro.callbackCalls, true⟩
    else
      let issuedAt := (applyRateLimit c.lastRequestTime now).2
      let c' := { c with lastRequestTime := issuedAt }
      let r := requestGo env 0 0
      ⟨c', r.1, r.2, [], false⟩

/-- One page of a paginated list response as consumed by
`ClioClient.fetchAllPages`: the `data` array (absent when the response
carries none) and `meta.paging.next`. -/
structure PageResponse (α : Type) where
  data : Option (List α)
  next : Option String
deriving Repr, DecidableEq

/-- `pageToken = response.meta?.paging?.next || null`: the empty string
is falsy in JS, so it also ends the loop. -/
def nextToken (p : PageResponse α) : Option String :=
  jsStrOrNull p.next

/-- The items contributed by one page: `if (response.data)
allData.push(...response.data)` — an absent `data` contributes nothing. -/
def pageData (p : PageResponse α) : List α :=
  match p.data with
  | some d => d
  | none => []

/-- The `do`/`while` loop of `ClioClient.fetchAllPages` (`clio.ts` lines
275-299), with the remote service modelled as a map from the request's
`page_token` (none on the first iteration) to the page returned, and an
explicit `fuel` bound on the number of iterations (the source would loop
forever on a cyclic token chain; all theorems supply sufficient fuel). -/
def fetchAllPagesGo (server : Option String → PageResponse α) :
    Nat → Option String → List α
  | 0, _ => []
  | fuel + 1, tok =>
    let response := server tok
    match nextToken response with
    | none => pageData response
    | some t => pageData response ++ fetchAllPagesGo server fuel (some t)

/-- `ClioClient.fetchAllPages`: starts with no `page_token` and
accumulates every page's `data` array in received order. -/
def fetchAllPages (server : Option String → PageResponse α) (fuel : Nat) : List α :=
  fetchAllPagesGo server fuel none

/-- A request arrival sequence is admissible when the requests are
sequential: each call to `applyRateLimit` happens no earlier than the
cached `lastRequestTime` left by the previous one (the clock is
monotone, and request k+1 starts only after request k was issued). -/
def admissibleArrivals (last : Nat) : List Nat → Bool
  | [] => true
  | a :: rest => last ≤ a && admissibleArrivals (applyRateLimit last a).2 rest

/-- The instants at which successive requests are actually issued: each
request arrives at its clock time, waits out `applyRateLimit`, and the
post-sleep instant becomes the next `lastRequestTime`. -/
def issueTimes (last : Nat) : List Nat → List Nat
  | [] => []
  | a :: rest =>
    let t := (applyRateLimit last a).2
    t :: issueTimes t rest

/-- A remote that replies HTTP 500 with the same body to every attempt
(retry-cap fixture). -/
def env500 : RequestEnv :=
  ⟨fun _ => .ok ⟨500, "remote exploded", none⟩, fun _ => .ok ()⟩

/-- 3-page pagination fixture: the first request (no `page_token`)
returns items 0-9 and cursor `p2`; `p2` returns items 10-19 and cursor
`p3`; `p3` returns items 20-23 and no next cursor. -/
def fixtureServer : Option String → PageResponse Nat :=
  fun tok =>
    match tok with
    | none => ⟨some (List.range 10), some "p2"⟩
    | some "p2" => ⟨some ((List.range 10).map (· + 10)), some "p3"⟩
    | some "p3" => ⟨some ((List.range 4).map (· + 20)), none⟩
    | some _ => ⟨none, none⟩

/-- Token-refresh fixture: a client whose cached expiry
(500200000 ms) is 200 s — under 5 minutes — past `now = 500000000`. -/
def staleClient : ClientState :=
  ⟨some "tokA", some "tokR", some 500200000, 0⟩

/-- Token-refresh fixture: a refresh response granting only 100 seconds
of lifetime. -/
def shortTokens : TokenResponse :=
  ⟨"tokA2", "tokR2", 100⟩

/-- Token-refresh fixture: a refresh response granting a 30-day
lifetime. -/
def longTokens : TokenResponse :=
  ⟨"tokA3", "tokR3", 2592000⟩

end Clio

namespace Sync

/-! Shallow embedding of `src/services/sync.ts`.  The Prisma store is an
explicit record of per-table row lists; generated local primary keys are
modelled as naturals drawn from a single fresh counter `nextId` (the
source uses cuid strings, which are never falsy, so `x?.id || null`
reduces to an absence check).  Remote `Prisma.Decimal` amounts are exact
integers; remote monetary fields arrive as strings, so their JS
falsiness is emptiness/absence, modelled as `none` (the non-empty string
"0" is truthy and maps to `some 0`).  A ghost `logEvents` trace records
every write to the `syncLog` table so that bracketing claims can be
stated. -/

/-- `SyncStatus` enum of the Prisma schema. -/
inductive SyncStatus where
  | RUNNING
  | COMPLETED
  | FAILED
deriving Repr, DecidableEq

/-- `SyncType` enum of the Prisma schema (the values used by the sync
service). -/
inductive SyncType where
  | USERS
  | BILLS
deriving Repr, DecidableEq

/-- `WorkflowStatus` enum values used by the sync service. -/
inductive WorkflowStatus where
  | PENDING
  | APPROVED
  | VOIDED
deriving Repr, DecidableEq

/-- `ActivityType` enum. -/
inductive ActivityType where
  | TIME_ENTRY
  | EXPENSE
deriving Repr, DecidableEq

/-- `ActivityStatus` enum values used by the sync service. -/
inductive ActivityStatus where
  | ACTIVE
  | HELD
  | DELETED
deriving Repr, DecidableEq

/-- A `user` row (the fields the sync service reads/writes). -/
structure UserRec where
  id : Nat
  clioId : String
  name : String
  email : String
  isActive : Bool
  role : String
deriving Repr, DecidableEq

/-- A `client` row. -/
structure ClientRec where
  id : Nat
  clioId : String
  name : String
  email : Option String
deriving Repr, DecidableEq

/-- A `matter` row. -/
structure MatterRec where
  id : Nat
  clioId : String
  displayNumber : Option String
  description : Option String
  clientId : Option Nat
  responsibleAttorneyId : Option Nat
deriving Repr, DecidableEq

/-- A `bill` row. -/
structure BillRec where
  id : Nat
  clioId : String
  billNumber : String
  matterId : Option Nat
  clientId : Option Nat
  totalServices : Int
  totalExpenses : Int
  totalAmount : Int
  discount : Int
  issueDate : Option Nat
  dueDate : Option Nat
  billingThroughDate : Option Nat
  clioStatus : String
  syncedAt : Nat
  workflowStatus : WorkflowStatus
  approvedAt : Option Nat
deriving Repr, DecidableEq

/-- An `activity` row. -/
structure ActivityRec where
  id : Nat
  clioId : String
  billId : Option Nat
  type : ActivityType
  date : Nat
  timekeeperId : Option Nat
  activityCategory : Option String
  utbmsTaskCode : Option String
  utbmsActivityCode : Option String
  description : Option String
  quantity : Option Int
  rate : Option Int
  total : Option Int
  isBillable : Bool
  vendor : Option String
  expenseCode : Option String
  syncedAt : Nat
  status : ActivityStatus
  approvedByTimekeeper : Bool
deriving Repr, DecidableEq

/-- A `syncLog` row. -/
structure SyncLogRec where
  id : Nat
  syncType : SyncType
  status : SyncStatus
  recordCount : Nat
  errorMessage : Option String
  completedAt : Option Nat
deriving Repr, DecidableEq

/-- Ghost trace entry: one write to the `syncLog` table. -/
inductive LogEvent where
  | created (logId : Nat) (syncType : SyncType) (status : SyncStatus)
  | closed (logId : Nat) (status : SyncStatus) (recordCount : Nat)
      (errorMessage : Option String)
deriving Repr, DecidableEq

/-- The local Prisma store plus the ghost log-write trace and the fresh
primary-key counter. -/
structure DB where
  users : List UserRec
  clients : List ClientRec
  matters : List MatterRec
  bills : List BillRec
  activities : List ActivityRec
  syncLogs : List SyncLogRec
  logEvents : List LogEvent
  nextId : Nat
deriving Repr, DecidableEq

/-- Remote payload of `getAllUsers` (fields read by `syncUsers`). -/
structure ClioUserData where
  id : Nat
  name : String
  email : String
  enabled : Bool
deriving Repr, DecidableEq

/-- Remote payload of `getContact` (fields read by `syncClient`);
`email` models `primary_email_address?.address`. -/
structure ClioContactData where
  id : Nat
  name : String
  email : Option String
deriving Repr, DecidableEq

/-- Remote payload of `getMatter` (fields read by `syncMatter`);
`client_id`/`responsible_attorney_id` model `client?.id` and
`responsible_attorney?.id`. -/
structure ClioMatterData where
  id : Nat
  display_number : Option String
  description : Option String
  client_id : Option Nat
  responsible_attorney_id : Option Nat
deriving Repr, DecidableEq

/-- Remote payload of `getBill` (fields read by `syncBill`); monetary
strings are `none` when absent/empty. -/
structure ClioBillData where
  id : Nat
  etag : String
  number : Option String
  services_sub_total : Option Int
  sub_total : Option Int
  expenses_sub_total : Option Int
  total : Option Int
  discount_rate : Option Int
  issued_at : Option Nat
  due_at : Option Nat
  end_at : Option Nat
  state : String
  matter_id : Option Nat
  client_id : Option Nat
deriving Repr, DecidableEq

/-- Remote payload of one line item from `getAllBillLineItems`;
`user_id` models `user?.id`, `activity_id` models `activity?.id`. -/
structure ClioLineItemData where
  id : Nat
  type : String
  user_id : Option Nat
  activity_id : Option Nat
  date : Option Nat
  description : Option String
  quantity : Option Int
  price : Option Int
  total : Option Int
deriving Repr, DecidableEq

/-- `SyncResult` interface (`sync.ts` lines 15-21). -/
structure SyncResult where
  success : Bool
  recordsProcessed : Nat
  recordsCreated : Nat
  recordsUpdated : Nat
  errors : List String
deriving Repr, DecidableEq

/-- `BillSyncResult` interface (`sync.ts` lines 23-26). -/
structure BillSyncResult where
  success : Bool
  recordsProcessed : Nat
  recordsCreated : Nat
  recordsUpdated : Nat
  errors : List String
  billId : Option Nat
  clioId : Option String
deriving Repr, DecidableEq

/-- The remote side of a reconciliation pass: each Clio client call is an
oracle; a thrown JS error is `Except.error` carrying its `String(error)`
rendering.  `clientAvailable` models whether
`getClioClientForUser`/`getAnyActiveClioClient` found a user with
tokens. -/
structure SyncEnv where
  clientAvailable : Bool
  getAllUsers : Except String (List ClioUserData)
  getContact : Nat → Except String ClioContactData
  getMatter : Nat → Except String ClioMatterData
  getBill : Nat → Except String ClioBillData
  getAllBillLineItems : Nat → Except String (List ClioLineItemData)
  getAllBillsAwaitingApproval : Except String (List ClioBillData)

/-- JS `x ? y : null` on an optional number: `0` is falsy. -/
def jsNumOrNull : Option Int → Option Int
  | none => none
  | some v => if v = 0 then none else some v

/-- Remote well-formedness: the contact payload is determined by its
remote id — two successful contact fetches rendering the same remote id
carry the same payload (true of any real remote store, where the
payload is a projection of the record the id names). -/
def contactsConsistent (env : SyncEnv) : Prop :=
  ∀ cid cid' c c', env.getContact cid = .ok c → env.getContact cid' = .ok c' →
    toString c.id = toString c'.id → c = c'

/-- The `findUnique`-by-`clioId`-then-`update`-or-`create` pattern shared
by every entity sync in `sync.ts`: look the row up by its remote id
(`key`); if present, update it (by its local primary key) with the
entity's update data; otherwise create a new row with the next fresh
local id.  Returns (store, local id of the row, whether a row was
created, next fresh id). -/
def upsertRow {α : Type} (getId : α → Nat) (getKey : α → String)
    (store : List α) (nid : Nat) (key : String)
    (upd : α → α) (mk : Nat → α) : List α × Nat × Bool × Nat :=
  match store.find? (fun r => getKey r == key) with
  | some r =>
    (store.map (fun x => if getId x = getId r then upd x else x), getId r, false, nid)
  | none =>
    (store ++ [mk nid], nid, true, nid + 1)

/-- The shape every per-item sync loop shares (`syncUsers` lines 149-184,
`syncBillLineItems` lines 424-492): upsert one row per remote item.
Returns (store, next fresh id, processed, created, updated).  The
concrete loops below are proved equal to instances of this function. -/
def upsertLoop {α ι : Type} (getId : α → Nat) (getKey : α → String)
    (keyOf : ι → String) (updOf : ι → α → α) (mkOf : ι → Nat → α) :
    List α → Nat → List ι → List α × Nat × Nat × Nat × Nat
  | store, nid, [] => (store, nid, 0, 0, 0)
  | store, nid, it :: rest =>
    let s := upsertRow getId getKey store nid (keyOf it) (updOf it) (mkOf it)
    let l := upsertLoop getId getKey keyOf updOf mkOf s.1 s.2.2.2 rest
    (l.1, l.2.1, l.2.2.1 + 1, (if s.2.2.1 then 1 else 0) + l.2.2.2.1,
     (if s.2.2.1 then 0 else 1) + l.2.2.2.2)

/-- Per-table sanity invariant maintained by the Prisma store: generated
primary keys are below the fresh counter and unique, and remote ids
(`clioId`, the upsert key) are unique. -/
def tableInv {α : Type} (getId : α → Nat) (getKey : α → String)
    (store : List α) (nid : Nat) : Prop :=
  (∀ x ∈ store, getId x < nid) ∧ (store.map getId).Nodup ∧ (store.map getKey).Nodup

instance {α : Type} [DecidableEq α] (getId : α → Nat) (getKey : α → String)
    (store : List α) (nid : Nat) : Decidable (tableInv getId getKey store nid) := by
  unfold tableInv
  infer_instance

/-- `createSyncLog` (`sync.ts` lines 97-106): insert a `RUNNING` log row
with `recordCount 0` and return its id. -/
def createSyncLog (db : DB) (syncType : SyncType) : DB × Nat :=
  let log : SyncLogRec := ⟨db.nextId, syncType, SyncStatus.RUNNING, 0, none, none⟩
  ({ db with
      syncLogs := db.syncLogs ++ [log]
      logEvents := db.logEvents ++ [LogEvent.created db.nextId syncType SyncStatus.RUNNING]
      nextId := db.nextId + 1 },
   db.nextId)

/-- `updateSyncLog` (`sync.ts` lines 111-126): set the log row's final
status, record count, optional error message, and `completedAt`. -/
def updateSyncLog (db : DB) (logId : Nat) (status : SyncStatus)
    (recordCount : Nat) (errorMessage : Option String) (now : Nat) : DB :=
  { db with
      syncLogs := db.syncLogs.map (fun l =>
        if l.id = logId then
          { l with
              status := status
              recordCount := recordCount
              errorMessage := errorMessage
              completedAt := some now }
        else l)
      logEvents := db.logEvents ++ [LogEvent.closed logId status recordCount errorMessage] }

/-- Update data of the `syncUsers` per-user branch
(`sync.ts` lines 159-166). -/
def userUpd (u : ClioUserData) (r : UserRec) : UserRec :=
  { r with name := u.name, email := u.email, isActive := u.enabled }

/-- Create data of the `syncUsers` per-user branch
(`sync.ts` lines 170-178): default role `TIMEKEEPER`. -/
def userMk (u : ClioUserData) (n : Nat) : UserRec :=
  ⟨n, toString u.id, u.name, u.email, u.enabled, "TIMEKEEPER"⟩

/-- The `for` loop of `syncUsers` (`sync.ts` lines 149-184): upsert each
remote user by `clioId`; returns (db, processed, created, updated). -/
def syncUsersLoop (db : DB) : List ClioUserData → DB × Nat × Nat × Nat
  | [] => (db, 0, 0, 0)
  | u :: rest =>
    let s :=
      upsertRow (·.id) (·.clioId) db.users db.nextId (toString u.id)
        (userUpd u) (userMk u)
    let created := s.2.2.1
    let db' := { db with users := s.1, nextId := s.2.2.2 }
    let l := syncUsersLoop db' rest
    (l.1, l.2.1 + 1, (if created then 1 else 0) + l.2.2.1,
     (if created then 0 else 1) + l.2.2.2)

/-- `syncUsers` (`sync.ts` lines 135-194): bracket the pass in a sync
log; fetch all enabled users; upsert each; close the log `COMPLETED`
with the processed count, or `FAILED` with `String(error)` when the
fetch throws. -/
def syncUsers (env : SyncEnv) (now : Nat) (db : DB) : DB × SyncResult :=
  let cl := createSyncLog db SyncType.USERS
  let db1 := cl.1
  let logId := cl.2
  match env.getAllUsers with
  | .error e =>
    (updateSyncLog db1 logId SyncStatus.FAILED 0 (some e) now,
     ⟨false, 0, 0, 0, ["Sync failed: " ++ e]⟩)
  | .ok clioUsers =>
    let l := syncUsersLoop db1 clioUsers
    (updateSyncLog l.1 logId SyncStatus.COMPLETED l.2.1 none now,
     ⟨true, l.2.1, l.2.2.1, l.2.2.2, []⟩)

/-- Update data of `syncClient` (`sync.ts` lines 216-222). -/
def clientUpd (contact : ClioContactData) (r : ClientRec) : ClientRec :=
  { r with name := contact.name, email := Clio.jsStrOrNull contact.email }

/-- Create data of `syncClient` (`sync.ts` lines 226-232). -/
def clientMk (contact : ClioContactData) (n : Nat) : ClientRec :=
  ⟨n, toString contact.id, contact.name, Clio.jsStrOrNull contact.email⟩

/-- `syncClient` (`sync.ts` lines 203-239): fetch the contact and upsert
it by `clioId`, returning the local client id; any thrown error is
caught and `null` returned (the store untouched). -/
def syncClient (env : SyncEnv) (db : DB) (clioContactId : Nat) : DB × Option Nat :=
  match env.getContact clioContactId with
  | .error _ => (db, none)
  | .ok contact =>
    let s :=
      upsertRow (·.id) (·.clioId) db.clients db.nextId (toString contact.id)
        (clientUpd contact) (clientMk contact)
    ({ db with clients := s.1, nextId := s.2.2.2 }, some s.2.1)

/-- Update data of `syncMatter` (`sync.ts` lines 276-284). -/
def matterUpd (matter : ClioMatterData) (clientId responsibleAttorneyId : Option Nat)
    (r : MatterRec) : MatterRec :=
  { r with
      displayNumber := Clio.jsStrOrNull matter.display_number
      description := Clio.jsStrOrNull matter.description
      clientId := clientId
      responsibleAttorneyId := responsibleAttorneyId }

/-- Create data of `syncMatter` (`sync.ts` lines 288-296). -/
def matterMk (matter : ClioMatterData) (clientId responsibleAttorneyId : Option Nat)
    (n : Nat) : MatterRec :=
  ⟨n, toString matter.id, Clio.jsStrOrNull matter.display_number,
   Clio.jsStrOrNull matter.description, clientId, responsibleAttorneyId⟩

/-- `syncMatter` (`sync.ts` lines 248-303): fetch the matter; sync its
client first (when present); resolve the responsible attorney by remote
id against the local user table; upsert the matter by `clioId`.  Any
thrown error is caught and `null` returned. -/
def syncMatter (env : SyncEnv) (db : DB) (clioMatterId : Nat) : DB × Option Nat :=
  match env.getMatter clioMatterId with
  | .error _ => (db, none)
  | .ok matter =>
    let sc :=
      match matter.client_id with
      | some cid => syncClient env db cid
      | none => (db, none)
    let db1 := sc.1
    let clientId := sc.2
    let responsibleAttorneyId :=
      match matter.responsible_attorney_id with
      | some aid => (db1.users.find? (fun u => u.clioId == toString aid)).map (·.id)
      | none => none
    let s :=
      upsertRow (·.id) (·.clioId) db1.matters db1.nextId (toString matter.id)
        (matterUpd matter clientId responsibleAttorneyId)
        (matterMk matter clientId responsibleAttorneyId)
    ({ db1 with matters := s.1, nextId := s.2.2.2 }, some s.2.1)

/-- The `billData` object of `syncBill` (`sync.ts` lines 349-362) applied
as update data; `number || BILL-id` and the `|| 0` money fallbacks follow
JS falsiness on the remote strings. -/
def billUpd (clioBill : ClioBillData) (matterId clientId : Option Nat) (now : Nat)
    (r : BillRec) : BillRec :=
  { r with
      billNumber := (Clio.jsStrOrNull clioBill.number).getD ("BILL-" ++ toString clioBill.id)
      matterId := matterId
      clientId := clientId
      totalServices := (clioBill.services_sub_total <|> clioBill.sub_total).getD 0
      totalExpenses := clioBill.expenses_sub_total.getD 0
      totalAmount := clioBill.total.getD 0
      discount := clioBill.discount_rate.getD 0
      issueDate := clioBill.issued_at
      dueDate := clioBill.due_at
      billingThroughDate := clioBill.end_at
      clioStatus := clioBill.state
      syncedAt := now }

/-- Create data of `syncBill` (`sync.ts` lines 376-381): the `billData`
fields plus `workflowStatus: PENDING` (and the store's default `null`
`approvedAt`). -/
def billMk (clioBill : ClioBillData) (matterId clientId : Option Nat) (now : Nat)
    (n : Nat) : BillRec :=
  ⟨n, toString clioBill.id,
   (Clio.jsStrOrNull clioBill.number).getD ("BILL-" ++ toString clioBill.id),
   matterId, clientId,
   (clioBill.services_sub_total <|> clioBill.sub_total).getD 0,
   clioBill.expenses_sub_total.getD 0,
   clioBill.total.getD 0,
   clioBill.discount_rate.getD 0,
   clioBill.issued_at, clioBill.due_at, clioBill.end_at,
   clioBill.state, now, WorkflowStatus.PENDING, none⟩

/-- Update data of the `syncBillLineItems` per-item branch
(`sync.ts` lines 454-470); `users` is the local user table the
timekeeper is resolved against. -/
def lineItemUpd (users : List UserRec) (localBillId now : Nat)
    (lineItem : ClioLineItemData) (r : ActivityRec) : ActivityRec :=
  { r with
      billId := some localBillId
      type := if lineItem.type = "TimeEntry" then ActivityType.TIME_ENTRY else ActivityType.EXPENSE
      date := lineItem.date.getD now
      timekeeperId :=
        match lineItem.user_id with
        | some uid => (users.find? (fun u => u.clioId == toString uid)).map (·.id)
        | none => none
      activityCategory := none
      utbmsTaskCode := none
      utbmsActivityCode := none
      description := Clio.jsStrOrNull lineItem.description
      quantity := jsNumOrNull lineItem.quantity
      rate := jsNumOrNull lineItem.price
      total := jsNumOrNull lineItem.total
      isBillable := true
      vendor := none
      expenseCode := none
      syncedAt := now }

/-- The dedup key of a line item (`sync.ts` line 444): the nested
activity id when present, else the line-item id. -/
def lineItemKey (lineItem : ClioLineItemData) : String :=
  match lineItem.activity_id with
  | some aid => toString aid
  | none => toString lineItem.id

/-- Create data of the `syncBillLineItems` per-item branch
(`sync.ts` lines 479-487): the update fields plus `status: ACTIVE` and
`approvedByTimekeeper: false`. -/
def lineItemMk (users : List UserRec) (localBillId now : Nat)
    (lineItem : ClioLineItemData) (n : Nat) : ActivityRec :=
  lineItemUpd users localBillId now lineItem
    ⟨n, lineItemKey lineItem, none, ActivityType.EXPENSE, 0, none, none, none, none,
     none, none, none, none, true, none, none, 0, ActivityStatus.ACTIVE, false⟩

/-- The `for` loop of `syncBillLineItems` (`sync.ts` lines 424-492):
upsert one activity per line item, keyed by `lineItemKey`; returns
(db, processed, created, updated). -/
def lineItemsLoop (localBillId now : Nat) (db : DB) :
    List ClioLineItemData → DB × Nat × Nat × Nat
  | [] => (db, 0, 0, 0)
  | lineItem :: rest =>
    let s :=
      upsertRow (·.id) (·.clioId) db.activities db.nextId (lineItemKey lineItem)
        (lineItemUpd db.users localBillId now lineItem)
        (lineItemMk db.users localBillId now lineItem)
    let created := s.2.2.1
    let db' := { db with activities := s.1, nextId := s.2.2.2 }
    let l := lineItemsLoop localBillId now db' rest
    (l.1, l.2.1 + 1, (if created then 1 else 0) + l.2.2.1,
     (if created then 0 else 1) + l.2.2.2)

/-- `syncBillLineItems` (`sync.ts` lines 408-500): fetch every line item
of the bill (paginated) and upsert one local activity per item; a fetch
failure is caught and recorded in the error list. -/
def syncBillLineItems (env : SyncEnv) (now : Nat) (db : DB)
    (clioBillId localBillId : Nat) : DB × SyncResult :=
  match env.getAllBillLineItems clioBillId with
  | .error e => (db, ⟨false, 0, 0, 0, ["Error fetching line items: " ++ e]⟩)
  | .ok lineItems =>
    let l := lineItemsLoop localBillId now db lineItems
    (l.1, ⟨true, l.2.1, l.2.2.1, l.2.2.2, []⟩)

/-- The tail of `syncBill` (`sync.ts` lines 343-397) once the bill
payload and the resolved matter/client local ids are at hand: upsert the
bill by `clioId`, then sync its line items, merging counts and
errors. -/
def syncBillUpsert (env : SyncEnv) (now : Nat) (clioBill : ClioBillData)
    (matterId clientId : Option Nat) (clioBillId : Nat) (db2 : DB) :
    DB × BillSyncResult :=
  let s :=
    upsertRow (·.id) (·.clioId) db2.bills db2.nextId (toString clioBill.id)
      (billUpd clioBill matterId clientId now)
      (billMk clioBill matterId clientId now)
  let billId := s.2.1
  let created := s.2.2.1
  let db3 := { db2 with bills := s.1, nextId := s.2.2.2 }
  let li := syncBillLineItems env now db3 clioBillId billId
  (li.1, ⟨true,
          1 + li.2.recordsProcessed,
          (if created then 1 else 0) + li.2.recordsCreated,
          (if created then 0 else 1) + li.2.recordsUpdated,
          li.2.errors,
          some billId, some (toString clioBill.id)⟩)

/-- `syncBillLineItems` repeated `n` times over the same bill (the shape
of "any number of reconciliation passes"). -/
def syncPassIter (env : SyncEnv) (now cbid lbid : Nat) : Nat → DB → DB
  | 0, db => db
  | n + 1, db => syncPassIter env now cbid lbid n (syncBillLineItems env now db cbid lbid).1

/-- `syncBill` (`sync.ts` lines 312-403): fetch the bill; sync its matter
and client first (null local foreign keys when those fail); then the
bill upsert and line-item sync (`syncBillUpsert`).  A thrown error (only
the bill fetch can throw here) is caught and recorded as an error string
carrying the bill's remote id. -/
def syncBill (env : SyncEnv) (now : Nat) (db : DB) (clioBillId : Nat) :
    DB × BillSyncResult :=
  match env.getBill clioBillId with
  | .error e =>
    (db, ⟨false, 0, 0, 0,
          ["Error syncing bill " ++ toString clioBillId ++ ": " ++ e], none, none⟩)
  | .ok clioBill =>
    let sm :=
      match clioBill.matter_id with
      | some mid => syncMatter env db mid
      | none => (db, none)
    let db1 := sm.1
    let matterId := sm.2
    let sc :=
      match clioBill.client_id with
      | some cid => syncClient env db1 cid
      | none => (db1, none)
    syncBillUpsert env now clioBill matterId sc.2 clioBillId sc.1

/-- The `for` loop of `syncAwaitingApprovalBills` (`sync.ts` lines
539-546): sync each remote bill serially, merging counts and errors. -/
def billsLoop (env : SyncEnv) (now : Nat) (db : DB) :
    List ClioBillData → DB × Nat × Nat × Nat × List String
  | [] => (db, 0, 0, 0, [])
  | b :: rest =>
    let sb := syncBill env now db b.id
    let r := sb.2
    let l := billsLoop env now sb.1 rest
    (l.1, r.recordsProcessed + l.2.1, r.recordsCreated + l.2.2.1,
     r.recordsUpdated + l.2.2.2.1, r.errors ++ l.2.2.2.2)

/-- `syncAwaitingApprovalBills` (`sync.ts` lines 509-556): bracket the
pass in a sync log; abort (`FAILED`) when no Clio client is available or
the paginated bill fetch throws; otherwise sync every fetched bill,
set `success` iff the error list is empty, and close the log
`COMPLETED` with the processed count.  The optional `userId` argument
only selects which stored credentials build the client, which the
`clientAvailable` oracle absorbs. -/
def syncAwaitingApprovalBills (env : SyncEnv) (now : Nat) (db : DB) :
    DB × SyncResult :=
  let cl := createSyncLog db SyncType.BILLS
  let db1 := cl.1
  let logId := cl.2
  if env.clientAvailable then
    match env.getAllBillsAwaitingApproval with
    | .error e =>
      (updateSyncLog db1 logId SyncStatus.FAILED 0 (some e) now,
       ⟨false, 0, 0, 0, ["Sync failed: " ++ e]⟩)
    | .ok clioBills =>
      let l := billsLoop env now db1 clioBills
      (updateSyncLog l.1 logId SyncStatus.COMPLETED l.2.1 none now,
       ⟨l.2.2.2.2.isEmpty, l.2.1, l.2.2.1, l.2.2.2.1, l.2.2.2.2⟩)
  else
    (updateSyncLog db1 logId SyncStatus.FAILED 0
       (some "Error: No valid Clio client available") now,
     ⟨false, 0, 0, 0, ["Sync failed: Error: No valid Clio client available"]⟩)

/-- The remote side of the push (write) operations: etag fetches and
mutating calls, each an oracle keyed by the remote id (and the etag /
state forwarded). -/
structure PushEnv where
  clientAvailable : Bool
  getActivityEtag : Nat → Except String String
  updateActivity : Nat → String → Except String Unit
  holdActivity : Nat → String → Except String Unit
  deleteActivity : Nat → String → Except String Unit
  getBillEtag : Nat → Except String String
  updateBillState : Nat → String → String → Except String Unit
  deleteBill : Nat → String → Except String Unit

/-- Ghost trace entry: one mutating remote call actually issued,
carrying the concurrency token it forwarded in its `If-Match` header. -/
inductive RemoteWrite where
  | updateActivity (id : Nat) (etag : String)
  | holdActivity (id : Nat) (etag : String)
  | deleteActivity (id : Nat) (etag : String)
  | updateBillState (id : Nat) (state : String) (etag : String)
  | deleteBill (id : Nat) (etag : String)
deriving Repr, DecidableEq

/-- The `{ success, error? }` result of the push operations. -/
structure PushResult where
  success : Bool
  error : Option String
deriving Repr, DecidableEq

/-- The `updates` argument of `pushActivityToClio`. -/
structure ActivityUpdates where
  date : Option Nat
  quantity : Option Int
  rate : Option Int
  note : Option String
  non_billable : Option Bool
deriving Repr, DecidableEq

/-- `parseInt` on a stored `clioId` (always the decimal rendering of the
remote id in this store). -/
def parseClioId (s : String) : Nat :=
  s.toNat?.getD 0

/-- The local write of `pushActivityToClio` (`sync.ts` lines 598-608):
falsy update fields leave the column unchanged (`undefined` in the
Prisma call), `note` is written whenever present, `non_billable` is
negated into `isBillable` only when explicitly given. -/
def pushActivityLocalUpdate (updates : ActivityUpdates) (now : Nat)
    (a : ActivityRec) : ActivityRec :=
  { a with
      date := updates.date.getD a.date
      quantity := match jsNumOrNull updates.quantity with
        | some q => some q
        | none => a.quantity
      rate := match jsNumOrNull updates.rate with
        | some q => some q
        | none => a.rate
      description := match updates.note with
        | some s => some s
        | none => a.description
      isBillable := match updates.non_billable with
        | some b => !b
        | none => a.isBillable
      syncedAt := now }

/-- `pushActivityToClio` (`sync.ts` lines 565-614): build a client, look
the local activity up, fetch the current etag from Clio, PATCH the
activity in Clio forwarding that etag, and only then update the local
row; any failure short-circuits with `{ success: false, error }` and the
store untouched.  Returns (db, result, remote writes issued). -/
def pushActivityToClio (env : PushEnv) (now : Nat) (db : DB) (activityId : Nat)
    (updates : ActivityUpdates) : DB × PushResult × List RemoteWrite :=
  if env.clientAvailable then
    match db.activities.find? (fun a => a.id == activityId) with
    | none => (db, ⟨false, some "Activity not found"⟩, [])
    | some activity =>
      match env.getActivityEtag (parseClioId activity.clioId) with
      | .error e => (db, ⟨false, some e⟩, [])
      | .ok etag =>
        match env.updateActivity (parseClioId activity.clioId) etag with
        | .error e =>
          (db, ⟨false, some e⟩,
           [RemoteWrite.updateActivity (parseClioId activity.clioId) etag])
        | .ok _ =>
          ({ db with
              activities := db.activities.map (fun a =>
                if a.id = activityId then pushActivityLocalUpdate updates now a else a) },
           ⟨true, none⟩,
           [RemoteWrite.updateActivity (parseClioId activity.clioId) etag])
  else
    (db, ⟨false, some "No valid Clio client"⟩, [])

/-- `holdActivityInClio` (`sync.ts` lines 619-658): PATCH the activity's
bill to null in Clio (with a freshly fetched etag), then mark the local
row `HELD` and detach it from its bill. -/
def holdActivityInClio (env : PushEnv) (now : Nat) (db : DB) (activityId : Nat) :
    DB × PushResult × List RemoteWrite :=
  if env.clientAvailable then
    match db.activities.find? (fun a => a.id == activityId) with
    | none => (db, ⟨false, some "Activity not found"⟩, [])
    | some activity =>
      match env.getActivityEtag (parseClioId activity.clioId) with
      | .error e => (db, ⟨false, some e⟩, [])
      | .ok etag =>
        match env.holdActivity (parseClioId activity.clioId) etag with
        | .error e =>
          (db, ⟨false, some e⟩,
           [RemoteWrite.holdActivity (parseClioId activity.clioId) etag])
        | .ok _ =>
          ({ db with
              activities := db.activities.map (fun a =>
                if a.id = activityId then
                  { a with status := ActivityStatus.HELD, billId := none, syncedAt := now }
                else a) },
           ⟨true, none⟩,
           [RemoteWrite.holdActivity (parseClioId activity.clioId) etag])
  else
    (db, ⟨false, some "No valid Clio client"⟩, [])

/-- `deleteActivityInClio` (`sync.ts` lines 663-701): DELETE the activity
in Clio (with a freshly fetched etag), then mark the local row
`DELETED` (no row removal). -/
def deleteActivityInClio (env : PushEnv) (now : Nat) (db : DB) (activityId : Nat) :
    DB × PushResult × List RemoteWrite :=
  if env.clientAvailable then
    match db.activities.find? (fun a => a.id == activityId) with
    | none => (db, ⟨false, some "Activity not found"⟩, [])
    | some activity =>
      match env.getActivityEtag (parseClioId activity.clioId) with
      | .error e => (db, ⟨false, some e⟩, [])
      | .ok etag =>
        match env.deleteActivity (parseClioId activity.clioId) etag with
        | .error e =>
          (db, ⟨false, some e⟩,
           [RemoteWrite.deleteActivity (parseClioId activity.clioId) etag])
        | .ok _ =>
          ({ db with
              activities := db.activities.map (fun a =>
                if a.id = activityId then
                  { a with status := ActivityStatus.DELETED, syncedAt := now }
                else a) },
           ⟨true, none⟩,
           [RemoteWrite.deleteActivity (parseClioId activity.clioId) etag])
  else
    (db, ⟨false, some "No valid Clio client"⟩, [])

/-- `approveBillInClio` (`sync.ts` lines 706-746): PATCH the bill's state
to `awaiting_payment` in Clio (with a freshly fetched etag), then mark
the local row `APPROVED`. -/
def approveBillInClio (env : PushEnv) (now : Nat) (db : DB) (billId : Nat) :
    DB × PushResult × List RemoteWrite :=
  if env.clientAvailable then
    match db.bills.find? (fun b => b.id == billId) with
    | none => (db, ⟨false, some "Bill not found"⟩, [])
    | some bill =>
      match env.getBillEtag (parseClioId bill.clioId) with
      | .error e => (db, ⟨false, some e⟩, [])
      | .ok etag =>
        match env.updateBillState (parseClioId bill.clioId) "awaiting_payment" etag with
        | .error e =>
          (db, ⟨false, some e⟩,
           [RemoteWrite.updateBillState (parseClioId bill.clioId) "awaiting_payment" etag])
        | .ok _ =>
          ({ db with
              bills := db.bills.map (fun b =>
                if b.id = billId then
                  { b with
                      clioStatus := "awaiting_payment"
                      workflowStatus := WorkflowStatus.APPROVED
                      approvedAt := some now
                      syncedAt := now }
                else b) },
           ⟨true, none⟩,
           [RemoteWrite.updateBillState (parseClioId bill.clioId) "awaiting_payment" etag])
  else
    (db, ⟨false, some "No valid Clio client"⟩, [])

/-- `voidBillInClio` (`sync.ts` lines 751-790): DELETE the bill in Clio
(with a freshly fetched etag), then mark the local row voided (status
flag, not row removal). -/
def voidBillInClio (env : PushEnv) (now : Nat) (db : DB) (billId : Nat) :
    DB × PushResult × List RemoteWrite :=
  if env.clientAvailable then
    match db.bills.find? (fun b => b.id == billId) with
    | none => (db, ⟨false, some "Bill not found"⟩, [])
    | some bill =>
      match env.getBillEtag (parseClioId bill.clioId) with
      | .error e => (db, ⟨false, some e⟩, [])
      | .ok etag =>
        match env.deleteBill (parseClioId bill.clioId) etag with
        | .error e =>
          (db, ⟨false, some e⟩,
           [RemoteWrite.deleteBill (parseClioId bill.clioId) etag])
        | .ok _ =>
          ({ db with
              bills := db.bills.map (fun b =>
                if b.id = billId then
                  { b with
                      clioStatus := "deleted"
                      workflowStatus := WorkflowStatus.VOIDED
                      syncedAt := now }
                else b) },
           ⟨true, none⟩,
           [RemoteWrite.deleteBill (parseClioId bill.clioId) etag])
  else
    (db, ⟨false, some "No valid Clio client"⟩, [])

/-- The empty local store. -/
def emptyDB : DB :=
  ⟨[], [], [], [], [], [], [], 0⟩

/-- Store sanity invariant maintained by Prisma: `tableInv` for each of
the five entity tables. -/
def dbInv (db : DB) : Prop :=
  tableInv (·.id) (·.clioId) db.users db.nextId ∧
  tableInv (·.id) (·.clioId) db.clients db.nextId ∧
  tableInv (·.id) (·.clioId) db.matters db.nextId ∧
  tableInv (·.id) (·.clioId) db.bills db.nextId ∧
  tableInv (·.id) (·.clioId) db.activities db.nextId

instance (db : DB) : Decidable (dbInv db) := by
  unfold dbInv
  infer_instance

/-- Sync-log primary keys are below the fresh counter. -/
def logIdsFresh (db : DB) : Prop :=
  ∀ l ∈ db.syncLogs, l.id < db.nextId

instance (db : DB) : Decidable (logIdsFresh db) := by
  unfold logIdsFresh
  infer_instance

/-- 5-bill fixture: remote bill `i` awaiting approval, with no related
matter/client. -/
def fixtureBill (i : Nat) : ClioBillData :=
  ⟨i, "e" ++ toString i, some ("INV-" ++ toString i), some 100, none, some 5,
   some 105, none, some 1000, some 2000, none, "awaiting_approval", none, none⟩

/-- Partial-failure fixture: five remote awaiting-approval bills where
only bill 3 throws on fetch; no bill has line items. -/
def envC6 : SyncEnv where
  clientAvailable := true
  getAllUsers := .ok []
  getContact := fun _ => .error "Error: unused"
  getMatter := fun _ => .error "Error: unused"
  getBill := fun i =>
    if i = 3 then .error "Error: fetch failed" else .ok (fixtureBill i)
  getAllBillLineItems := fun _ => .ok []
  getAllBillsAwaitingApproval :=
    .ok [fixtureBill 1, fixtureBill 2, fixtureBill 3, fixtureBill 4, fixtureBill 5]

/-- Single-bill fixture used for idempotence witnesses: one user, one
contact, one matter, one bill with two line items. -/
def bill41 : ClioBillData :=
  ⟨41, "etag41", some "INV-41", some 100, some 90, some 5, some 105, some 2,
   some 1000, some 2000, some 1500, "awaiting_approval", some 31, some 21⟩

/-- Idempotence-witness fixture environment. -/
def envC2 : SyncEnv where
  clientAvailable := true
  getAllUsers := .ok [⟨11, "Alice", "alice@firm.test", true⟩]
  getContact := fun c =>
    if c = 21 then .ok ⟨21, "Acme", some "billing@acme.test"⟩
    else .error "Error: no such contact"
  getMatter := fun m =>
    if m = 31 then .ok ⟨31, some "M-1", some "General matter", some 21, some 11⟩
    else .error "Error: no such matter"
  getBill := fun b =>
    if b = 41 then .ok bill41 else .error "Error: no such bill"
  getAllBillLineItems := fun b =>
    if b = 41 then
      .ok [⟨51, "TimeEntry", some 11, some 61, some 1200, some "Drafting", some 2, some 150, some 300⟩,
           ⟨52, "Expense", none, none, none, some "Filing fee", some 0, some 40, some 40⟩]
    else .error "Error: no such bill"
  getAllBillsAwaitingApproval := .ok [bill41]

/-- A store holding one already-approved activity (flag-preservation
witness). -/
def dbC7 : DB :=
  { emptyDB with
      activities :=
        [⟨0, "61", some 5, ActivityType.TIME_ENTRY, 1100, none, none, none, none,
          some "Old text", some 1, some 100, some 100, true, none, none, 900,
          ActivityStatus.ACTIVE, true⟩]
      nextId := 1 }

/-- Push-operation fixture: no user with stored credentials, so every
push fails before any remote call. -/
def pushEnvNoClient : PushEnv where
  clientAvailable := false
  getActivityEtag := fun _ => .error "Error: unused"
  updateActivity := fun _ _ => .error "Error: unused"
  holdActivity := fun _ _ => .error "Error: unused"
  deleteActivity := fun _ _ => .error "Error: unused"
  getBillEtag := fun _ => .error "Error: unused"
  updateBillState := fun _ _ _ => .error "Error: unused"
  deleteBill := fun _ _ => .error "Error: unused"

end Sync

namespace Sync

/-! ### Generic lemmas about the upsert-by-remote-id pattern -/

section UpsertLemmas

variable {α : Type} (getId : α → Nat) (getKey : α → String) (key : String)
  (upd : α → α) (mk : Nat → α)

/-- After an upsert, looking the key up finds the updated/created row,
which is a fixed point of the update. -/
theorem upsertRow_find_after
    (store : List α) (nid : Nat)
    (hK : ∀ x, getKey (upd x) = getKey x)
    (hII : ∀ x, upd (upd x) = upd x)
    (hMk : ∀ n, upd (mk n) = mk n)
    (hMkK : ∀ n, getKey (mk n) = key) :
    ∃ r, (upsertRow getId getKey store nid key upd mk).1.find?
            (fun x => getKey x == key) = some r ∧ upd r = r := by
  unfold upsertRow
  rcases h : store.find? (fun r => getKey r == key) with _ | r
  · refine ⟨mk nid, ?_, hMk nid⟩
    simp only
    rw [List.find?_append, h]
    simp [List.find?, hMkK]
  · refine ⟨upd r, ?_, hII r⟩
    simp only
    rw [List.find?_map]
    have hpf : (fun x => getKey x == key) ∘ (fun x => if getId x = getId r then upd x else x) =
        (fun x => getKey x == key) := by
      funext x
      by_cases hx : getId x = getId r <;> simp [hx, hK]
    rw [hpf, h]
    simp

end UpsertLemmas

section UpsertLemmas2

variable {α : Type} (getId : α → Nat) (getKey : α → String) (key : String)
  (upd : α → α) (mk : Nat → α)

/-- If the key is already present with a row the update would not
change, the whole upsert is a no-op. -/
theorem upsertRow_noop
    (store : List α) (nid : Nat) (r : α)
    (hfind : store.find? (fun x => getKey x == key) = some r)
    (hfix : upd r = r)
    (hNodup : (store.map getId).Nodup) :
    upsertRow getId getKey store nid key upd mk = (store, getId r, false, nid) := by
  unfold upsertRow
  rw [hfind]
  simp only
  have hmem : r ∈ store := List.mem_of_find?_eq_some hfind
  have hmap : store.map (fun x => if getId x = getId r then upd x else x) = store := by
    have : store.map (fun x => if getId x = getId r then upd x else x) = store.map id := by
      apply List.map_congr_left
      intro x hx
      by_cases hxr : getId x = getId r
      · have hxr2 : x = r := List.inj_on_of_nodup_map hNodup hx hmem hxr
        simp [hxr, hxr2, hfix]
      · simp [hxr]
    simpa using this
  rw [hmap]

/-- The fresh-id bound is preserved (and the counter is monotone). -/
theorem upsertRow_fresh
    (store : List α) (nid : Nat)
    (hI : ∀ x, getId (upd x) = getId x)
    (hMkI : ∀ n, getId (mk n) = n)
    (hfresh : ∀ x ∈ store, getId x < nid) :
    (∀ x ∈ (upsertRow getId getKey store nid key upd mk).1,
        getId x < (upsertRow getId getKey store nid key upd mk).2.2.2) ∧
    nid ≤ (upsertRow getId getKey store nid key upd mk).2.2.2 := by
  unfold upsertRow
  rcases h : store.find? (fun r => getKey r == key) with _ | r
  · simp only
    constructor
    · intro x hx
      rcases List.mem_append.1 hx with hx | hx
      · exact lt_trans (hfresh x hx) (by omega)
      · simp only [List.mem_singleton] at hx
        subst hx
        rw [hMkI]
        omega
    · omega
  · simp only
    constructor
    · intro x hx
      rcases List.mem_map.1 hx with ⟨y, hy, rfl⟩
      by_cases hyr : getId y = getId r
      · simpa [hyr, hI] using hfresh y hy
      · simpa [hyr] using hfresh y hy
    · omega

/-- Primary-key uniqueness is preserved. -/
theorem upsertRow_ids_nodup
    (store : List α) (nid : Nat)
    (hI : ∀ x, getId (upd x) = getId x)
    (hMkI : ∀ n, getId (mk n) = n)
    (hfresh : ∀ x ∈ store, getId x < nid)
    (hNodup : (store.map getId).Nodup) :
    ((upsertRow getId getKey store nid key upd mk).1.map getId).Nodup := by
  unfold upsertRow
  rcases h : store.find? (fun r => getKey r == key) with _ | r
  · simp only [List.map_append]
    rw [List.nodup_append]
    refine ⟨hNodup, by simp [hMkI], ?_⟩
    intro a ha hb
    simp only [List.map_singleton, List.mem_singleton, hMkI] at hb
    rcases List.mem_map.1 ha with ⟨y, hy, rfl⟩
    have := hfresh y hy
    omega
  · simp only [List.map_map]
    have : store.map (getId ∘ fun x => if getId x = getId r then upd x else x) =
        store.map getId := by
      apply List.map_congr_left
      intro x hx
      by_cases hxr : getId x = getId r <;> simp [hxr, hI]
    rw [this]
    exact hNodup

/-- Remote-id (clioId) uniqueness is preserved. -/
theorem upsertRow_keys_nodup
    (store : List α) (nid : Nat)
    (hK : ∀ x, getKey (upd x) = getKey x)
    (hMkK : ∀ n, getKey (mk n) = key)
    (hNodup : (store.map getKey).Nodup) :
    ((upsertRow getId getKey store nid key upd mk).1.map getKey).Nodup := by
  unfold upsertRow
  rcases h : store.find? (fun r => getKey r == key) with _ | r
  · simp only [List.map_append]
    rw [List.nodup_append]
    refine ⟨hNodup, by simp, ?_⟩
    intro a ha hb
    simp only [List.map_singleton, List.mem_singleton, hMkK] at hb
    subst hb
    rcases List.mem_map.1 ha with ⟨y, hy, hkey⟩
    have h2 := List.find?_eq_none.1 h y hy
    simp only [beq_iff_eq] at h2
    exact h2 hkey
  · simp only [List.map_map]
    have : store.map (getKey ∘ fun x => if getId x = getId r then upd x else x) =
        store.map getKey := by
      apply List.map_congr_left
      intro x hx
      by_cases hxr : getId x = getId r <;> simp [hxr, hK]
    rw [this]
    exact hNodup

end UpsertLemmas2

section UpsertLemmas3

variable {α : Type} (getId : α → Nat) (getKey : α → String)

/-- An upsert for a different key does not disturb the row a key lookup
finds. -/
theorem upsertRow_find_other
    (store : List α) (nid : Nat) (key key' : String) (upd' : α → α) (mk' : Nat → α)
    (r : α)
    (hne : key' ≠ key)
    (hfind : store.find? (fun x => getKey x == key) = some r)
    (hK' : ∀ x, getKey (upd' x) = getKey x)
    (hNodup : (store.map getId).Nodup) :
    (upsertRow getId getKey store nid key' upd' mk').1.find?
        (fun x => getKey x == key) = some r := by
  unfold upsertRow
  rcases h : store.find? (fun x => getKey x == key') with _ | r'
  · simp only
    rw [List.find?_append, hfind]
    rfl
  · simp only
    rw [List.find?_map]
    have hpf : (fun x => getKey x == key) ∘ (fun x => if getId x = getId r' then upd' x else x) =
        (fun x => getKey x == key) := by
      funext x
      by_cases hx : getId x = getId r' <;> simp [hx, hK']
    rw [hpf, hfind]
    have hrr : getId r ≠ getId r' := by
      intro heq
      have hmem : r ∈ store := List.mem_of_find?_eq_some hfind
      have hmem' : r' ∈ store := List.mem_of_find?_eq_some h
      have : r = r' := List.inj_on_of_nodup_map hNodup hmem hmem' heq
      subst this
      have h1 := List.find?_some hfind
      have h2 := List.find?_some h
      simp only [beq_iff_eq] at h1 h2
      exact hne (h2 ▸ h1)
    simp [hrr]

/-- Every row after an upsert either descends from an original row (as
itself or its update) or is the freshly created row. -/
theorem upsertRow_origin
    (store : List α) (nid : Nat) (key : String) (upd : α → α) (mk : Nat → α) :
    ∀ y ∈ (upsertRow getId getKey store nid key upd mk).1,
      (∃ x ∈ store, y = x ∨ y = upd x) ∨ y = mk nid := by
  unfold upsertRow
  rcases h : store.find? (fun x => getKey x == key) with _ | r
  · simp only
    intro y hy
    rcases List.mem_append.1 hy with hy | hy
    · exact Or.inl ⟨y, hy, Or.inl rfl⟩
    · simp only [List.mem_singleton] at hy
      exact Or.inr hy
  · simp only
    intro y hy
    rcases List.mem_map.1 hy with ⟨x, hx, rfl⟩
    by_cases hxr : getId x = getId r
    · exact Or.inl ⟨x, hx, Or.inr (by simp [hxr])⟩
    · exact Or.inl ⟨x, hx, Or.inl (by simp [hxr])⟩

/-- Any property preserved by the update survives the upsert for every
pre-existing row, along with its key. -/
theorem upsertRow_preserve
    (store : List α) (nid : Nat) (key : String) (upd : α → α) (mk : Nat → α)
    (P : α → Prop)
    (hP : ∀ x, P x → P (upd x))
    (hK : ∀ x, getKey (upd x) = getKey x) :
    ∀ x ∈ store, P x →
      ∃ y ∈ (upsertRow getId getKey store nid key upd mk).1,
        getKey y = getKey x ∧ P y := by
  unfold upsertRow
  rcases h : store.find? (fun x => getKey x == key) with _ | r
  · simp only
    intro x hx hPx
    exact ⟨x, List.mem_append.2 (Or.inl hx), rfl, hPx⟩
  · simp only
    intro x hx hPx
    refine ⟨if getId x = getId r then upd x else x, List.mem_map_of_mem _ hx, ?_, ?_⟩
    · by_cases hxr : getId x = getId r <;> simp [hxr, hK]
    · by_cases hxr : getId x = getId r <;> simp [hxr, hP x hPx, hPx]

end UpsertLemmas3

end Sync

namespace Sync

/-! ### Generic lemmas about the shared per-item sync loop -/

section LoopLemmas

variable {α ι : Type} (getId : α → Nat) (getKey : α → String)
  (keyOf : ι → String) (updOf : ι → α → α) (mkOf : ι → Nat → α)

/-- One upsert preserves the table invariant and grows the counter. -/
theorem upsertRow_tableInv
    (store : List α) (nid : Nat) (key : String) (upd : α → α) (mk : Nat → α)
    (hK : ∀ x, getKey (upd x) = getKey x)
    (hI : ∀ x, getId (upd x) = getId x)
    (hMkK : ∀ n, getKey (mk n) = key)
    (hMkI : ∀ n, getId (mk n) = n)
    (h : tableInv getId getKey store nid) :
    tableInv getId getKey (upsertRow getId getKey store nid key upd mk).1
      (upsertRow getId getKey store nid key upd mk).2.2.2 ∧
    nid ≤ (upsertRow getId getKey store nid key upd mk).2.2.2 := by
  obtain ⟨hf, hids, hkeys⟩ := h
  have h1 := upsertRow_fresh getId getKey key upd mk store nid hI hMkI hf
  refine ⟨⟨h1.1, ?_, ?_⟩, h1.2⟩
  · exact upsertRow_ids_nodup getId getKey key upd mk store nid hI hMkI hf hids
  · exact upsertRow_keys_nodup getId getKey key upd mk store nid hK hMkK hkeys

/-- The whole loop preserves the table invariant and grows the counter. -/
theorem upsertLoop_tableInv
    (hK : ∀ it x, getKey (updOf it x) = getKey x)
    (hI : ∀ it x, getId (updOf it x) = getId x)
    (hMkK : ∀ it n, getKey (mkOf it n) = keyOf it)
    (hMkI : ∀ it n, getId (mkOf it n) = n) :
    ∀ (L : List ι) (store : List α) (nid : Nat),
      tableInv getId getKey store nid →
      tableInv getId getKey (upsertLoop getId getKey keyOf updOf mkOf store nid L).1
        (upsertLoop getId getKey keyOf updOf mkOf store nid L).2.1 ∧
      nid ≤ (upsertLoop getId getKey keyOf updOf mkOf store nid L).2.1 := by
  intro L
  induction L with
  | nil => intro store nid h; exact ⟨h, le_refl _⟩
  | cons it rest ih =>
    intro store nid h
    have h1 := upsertRow_tableInv getId getKey store nid (keyOf it) (updOf it) (mkOf it)
      (hK it) (hI it) (hMkK it) (hMkI it) h
    have h2 := ih _ _ h1.1
    exact ⟨h2.1, le_trans h1.2 h2.2⟩

/-- A loop whose item keys all differ from `key` does not disturb the
row found for `key`. -/
theorem upsertLoop_find_other
    (hK : ∀ it x, getKey (updOf it x) = getKey x)
    (hI : ∀ it x, getId (updOf it x) = getId x)
    (hMkK : ∀ it n, getKey (mkOf it n) = keyOf it)
    (hMkI : ∀ it n, getId (mkOf it n) = n) :
    ∀ (L : List ι) (store : List α) (nid : Nat) (key : String) (r : α),
      tableInv getId getKey store nid →
      (∀ it ∈ L, keyOf it ≠ key) →
      store.find? (fun x => getKey x == key) = some r →
      (upsertLoop getId getKey keyOf updOf mkOf store nid L).1.find?
          (fun x => getKey x == key) = some r := by
  intro L
  induction L with
  | nil => intro store nid key r _ _ hfind; exact hfind
  | cons it rest ih =>
    intro store nid key r h hne hfind
    have h1 := upsertRow_tableInv getId getKey store nid (keyOf it) (updOf it) (mkOf it)
      (hK it) (hI it) (hMkK it) (hMkI it) h
    have hstep := upsertRow_find_other getId getKey store nid key (keyOf it)
      (updOf it) (mkOf it) r (hne it (by simp)) hfind (hK it) h.2.1
    exact ih _ _ _ _ h1.1 (fun j hj => hne j (by simp [hj])) hstep

/-- After the loop, every processed item's key finds a row the item's
update would not change (provided the item keys are pairwise distinct). -/
theorem upsertLoop_done
    (hK : ∀ it x, getKey (updOf it x) = getKey x)
    (hI : ∀ it x, getId (updOf it x) = getId x)
    (hII : ∀ it x, updOf it (updOf it x) = updOf it x)
    (hMk : ∀ it n, updOf it (mkOf it n) = mkOf it n)
    (hMkK : ∀ it n, getKey (mkOf it n) = keyOf it)
    (hMkI : ∀ it n, getId (mkOf it n) = n) :
    ∀ (L : List ι) (store : List α) (nid : Nat),
      tableInv getId getKey store nid →
      (L.map keyOf).Nodup →
      ∀ it ∈ L,
        ∃ r, (upsertLoop getId getKey keyOf updOf mkOf store nid L).1.find?
            (fun x => getKey x == keyOf it) = some r ∧ updOf it r = r := by
  intro L
  induction L with
  | nil => intro store nid _ _ it hit; cases hit
  | cons j rest ih =>
    intro store nid h hnod it hit
    have h1 := upsertRow_tableInv getId getKey store nid (keyOf j) (updOf j) (mkOf j)
      (hK j) (hI j) (hMkK j) (hMkI j) h
    rcases List.mem_cons.1 hit with rfl | hit'
    · obtain ⟨r, hr, hfix⟩ := upsertRow_find_after getId getKey (keyOf it) (updOf it)
        (mkOf it) store nid (hK it) (hII it) (hMk it) (hMkK it)
      refine ⟨r, ?_, hfix⟩
      have hne : ∀ i ∈ rest, keyOf i ≠ keyOf it := by
        intro i hi heq
        have := hnod
        simp only [List.map_cons, List.nodup_cons] at this
        exact this.1 (heq ▸ List.mem_map_of_mem keyOf hi)
      exact upsertLoop_find_other getId getKey keyOf updOf mkOf hK hI hMkK hMkI
        rest _ _ _ r h1.1 hne hr
    · have hnod' : (rest.map keyOf).Nodup := by
        simp only [List.map_cons, List.nodup_cons] at hnod
        exact hnod.2
      exact ih _ _ h1.1 hnod' it hit'

/-- A loop every one of whose items is already "done" in the store is a
no-op that creates nothing and updates every item. -/
theorem upsertLoop_noop :
    ∀ (L : List ι) (store : List α) (nid : Nat),
      (store.map getId).Nodup →
      (∀ it ∈ L, ∃ r, store.find? (fun x => getKey x == keyOf it) = some r ∧
          updOf it r = r) →
      upsertLoop getId getKey keyOf updOf mkOf store nid L =
        (store, nid, L.length, 0, L.length) := by
  intro L
  induction L with
  | nil => intro store nid _ _; rfl
  | cons it rest ih =>
    intro store nid hids hdone
    obtain ⟨r, hr, hfix⟩ := hdone it (by simp)
    have hstep := upsertRow_noop getId getKey (keyOf it) (updOf it) (mkOf it)
      store nid r hr hfix hids
    show (let s := upsertRow getId getKey store nid (keyOf it) (updOf it) (mkOf it);
          let l := upsertLoop getId getKey keyOf updOf mkOf s.1 s.2.2.2 rest;
          (l.1, l.2.1, l.2.2.1 + 1, (if s.2.2.1 then 1 else 0) + l.2.2.2.1,
           (if s.2.2.1 then 0 else 1) + l.2.2.2.2)) =
        (store, nid, rest.length + 1, 0, rest.length + 1)
    rw [hstep]
    have hrest := ih store nid hids (fun j hj => hdone j (by simp [hj]))
    simp [hrest]
    omega

end LoopLemmas

section LoopLemmas4

variable {α ι : Type} (getId : α → Nat) (getKey : α → String)
  (keyOf : ι → String) (updOf : ι → α → α) (mkOf : ι → Nat → α)
  (P : α → Prop)

/-- A property the update neither creates nor destroys, and which fresh
rows lack, can only reach a post-upsert row from a pre-existing row with
the same key. -/
theorem upsertRow_P_origin
    (store : List α) (nid : Nat) (key : String) (upd : α → α) (mk : Nat → α)
    (hP : ∀ x, P (upd x) ↔ P x)
    (hK : ∀ x, getKey (upd x) = getKey x)
    (hMkP : ∀ n, ¬ P (mk n)) :
    ∀ y ∈ (upsertRow getId getKey store nid key upd mk).1, P y →
      ∃ x ∈ store, getKey x = getKey y ∧ P x := by
  intro y hy hPy
  rcases upsertRow_origin getId getKey store nid key upd mk y hy with ⟨x, hx, hcase⟩ | hnew
  · rcases hcase with h1 | h1
    · exact ⟨x, hx, congrArg getKey h1.symm, h1 ▸ hPy⟩
    · exact ⟨x, hx, by rw [h1, hK], (hP x).1 (h1 ▸ hPy)⟩
  · exact absurd hPy (hnew ▸ hMkP nid)

/-- Loop version of `upsertRow_P_origin`. -/
theorem upsertLoop_P_origin
    (hP : ∀ it x, P (updOf it x) ↔ P x)
    (hK : ∀ it x, getKey (updOf it x) = getKey x)
    (hMkP : ∀ it n, ¬ P (mkOf it n)) :
    ∀ (L : List ι) (store : List α) (nid : Nat),
      ∀ y ∈ (upsertLoop getId getKey keyOf updOf mkOf store nid L).1, P y →
        ∃ x ∈ store, getKey x = getKey y ∧ P x := by
  intro L
  induction L with
  | nil => intro store nid y hy hPy; exact ⟨y, hy, rfl, hPy⟩
  | cons it rest ih =>
    intro store nid y hy hPy
    obtain ⟨x, hx, hkey, hPx⟩ := ih _ _ y hy hPy
    obtain ⟨x', hx', hkey', hPx'⟩ := upsertRow_P_origin getId getKey P store nid
      (keyOf it) (updOf it) (mkOf it) (hP it) (hK it) (hMkP it) x hx hPx
    exact ⟨x', hx', hkey'.trans hkey, hPx'⟩

/-- Loop version of `upsertRow_preserve`: pre-existing rows satisfying a
property the update preserves still have a representative (same key,
property intact) after the loop. -/
theorem upsertLoop_preserve
    (hP : ∀ it x, P x → P (updOf it x))
    (hK : ∀ it x, getKey (updOf it x) = getKey x) :
    ∀ (L : List ι) (store : List α) (nid : Nat),
      ∀ x ∈ store, P x →
        ∃ y ∈ (upsertLoop getId getKey keyOf updOf mkOf store nid L).1,
          getKey y = getKey x ∧ P y := by
  intro L
  induction L with
  | nil => intro store nid x hx hPx; exact ⟨x, hx, rfl, hPx⟩
  | cons it rest ih =>
    intro store nid x hx hPx
    obtain ⟨y, hy, hkey, hPy⟩ := upsertRow_preserve getId getKey store nid
      (keyOf it) (updOf it) (mkOf it) P (hP it) (hK it) x hx hPx
    obtain ⟨z, hz, hkey', hPz⟩ := ih _ _ y hy hPy
    exact ⟨z, hz, hkey'.trans hkey, hPz⟩

end LoopLemmas4

end Sync

/-! ### Loop characterizations and frame lemmas -/

namespace Sync

/-- `syncUsersLoop` is the generic loop on the `users` table. -/
theorem syncUsersLoop_eq (L : List ClioUserData) : ∀ (db : DB),
    syncUsersLoop db L =
      ({ db with
          users := (upsertLoop (·.id) (·.clioId) (fun u => toString u.id) userUpd
            userMk db.users db.nextId L).1
          nextId := (upsertLoop (·.id) (·.clioId) (fun u => toString u.id) userUpd
            userMk db.users db.nextId L).2.1 },
       (upsertLoop (·.id) (·.clioId) (fun u => toString u.id) userUpd
            userMk db.users db.nextId L).2.2.1,
       (upsertLoop (·.id) (·.clioId) (fun u => toString u.id) userUpd
            userMk db.users db.nextId L).2.2.2.1,
       (upsertLoop (·.id) (·.clioId) (fun u => toString u.id) userUpd
            userMk db.users db.nextId L).2.2.2.2) := by
  induction L with
  | nil => intro db; rfl
  | cons u rest ih =>
    intro db
    show syncUsersLoop db (u :: rest) = _
    simp only [syncUsersLoop, upsertLoop, ih]

/-- `lineItemsLoop` is the generic loop on the `activities` table (the
user table it resolves timekeepers against is never modified by it). -/
theorem lineItemsLoop_eq (localBillId now : Nat) (L : List ClioLineItemData) :
    ∀ (db : DB),
    lineItemsLoop localBillId now db L =
      ({ db with
          activities := (upsertLoop (·.id) (·.clioId) lineItemKey
            (lineItemUpd db.users localBillId now) (lineItemMk db.users localBillId now)
            db.activities db.nextId L).1
          nextId := (upsertLoop (·.id) (·.clioId) lineItemKey
            (lineItemUpd db.users localBillId now) (lineItemMk db.users localBillId now)
            db.activities db.nextId L).2.1 },
       (upsertLoop (·.id) (·.clioId) lineItemKey
            (lineItemUpd db.users localBillId now) (lineItemMk db.users localBillId now)
            db.activities db.nextId L).2.2.1,
       (upsertLoop (·.id) (·.clioId) lineItemKey
            (lineItemUpd db.users localBillId now) (lineItemMk db.users localBillId now)
            db.activities db.nextId L).2.2.2.1,
       (upsertLoop (·.id) (·.clioId) lineItemKey
            (lineItemUpd db.users localBillId now) (lineItemMk db.users localBillId now)
            db.activities db.nextId L).2.2.2.2) := by
  induction L with
  | nil => intro db; rfl
  | cons li rest ih =>
    intro db
    show lineItemsLoop localBillId now db (li :: rest) = _
    simp only [lineItemsLoop, upsertLoop, ih]

/-- The fresh-id counter never decreases across one upsert. -/
theorem upsertRow_nextId_mono {α : Type} (getId : α → Nat) (getKey : α → String)
    (store : List α) (nid : Nat) (key : String) (upd : α → α) (mk : Nat → α) :
    nid ≤ (upsertRow getId getKey store nid key upd mk).2.2.2 := by
  unfold upsertRow
  rcases h : store.find? (fun r => getKey r == key) with _ | r <;> simp [h]

/-- The fresh-id counter never decreases across the loop. -/
theorem upsertLoop_nextId_mono {α ι : Type} (getId : α → Nat) (getKey : α → String)
    (keyOf : ι → String) (updOf : ι → α → α) (mkOf : ι → Nat → α) :
    ∀ (L : List ι) (store : List α) (nid : Nat),
      nid ≤ (upsertLoop getId getKey keyOf updOf mkOf store nid L).2.1 := by
  intro L
  induction L with
  | nil => intro store nid; exact le_refl _
  | cons it rest ih =>
    intro store nid
    exact le_trans (upsertRow_nextId_mono getId getKey store nid (keyOf it)
      (updOf it) (mkOf it)) (ih _ _)

/-- `syncClient` only touches the `clients` table and the id counter. -/
theorem syncClient_frame (env : SyncEnv) (db : DB) (cid : Nat) :
    (syncClient env db cid).1.users = db.users ∧
    (syncClient env db cid).1.matters = db.matters ∧
    (syncClient env db cid).1.bills = db.bills ∧
    (syncClient env db cid).1.activities = db.activities ∧
    (syncClient env db cid).1.syncLogs = db.syncLogs ∧
    (syncClient env db cid).1.logEvents = db.logEvents ∧
    db.nextId ≤ (syncClient env db cid).1.nextId := by
  rcases h : env.getContact cid with e | contact
  · simp [syncClient, h]
  · simp only [syncClient, h]
    exact ⟨trivial, trivial, trivial, trivial, trivial, trivial,
      upsertRow_nextId_mono _ _ db.clients db.nextId _ _ _⟩

/-- `syncMatter` only touches `clients`, `matters` and the id counter. -/
theorem syncMatter_frame (env : SyncEnv) (db : DB) (mid : Nat) :
    (syncMatter env db mid).1.users = db.users ∧
    (syncMatter env db mid).1.bills = db.bills ∧
    (syncMatter env db mid).1.activities = db.activities ∧
    (syncMatter env db mid).1.syncLogs = db.syncLogs ∧
    (syncMatter env db mid).1.logEvents = db.logEvents ∧
    db.nextId ≤ (syncMatter env db mid).1.nextId := by
  rcases h : env.getMatter mid with e | matter
  · simp [syncMatter, h]
  · simp only [syncMatter, h]
    rcases hc : matter.client_id with _ | cid
    · simp only [hc]
      exact ⟨trivial, trivial, trivial, trivial, trivial,
        upsertRow_nextId_mono _ _ db.matters db.nextId _ _ _⟩
    · simp only [hc]
      have hf := syncClient_frame env db cid
      exact ⟨hf.1, hf.2.2.1, hf.2.2.2.1, hf.2.2.2.2.1, hf.2.2.2.2.2.1,
        le_trans hf.2.2.2.2.2.2 (upsertRow_nextId_mono _ _ _ _ _ _ _)⟩

/-- `syncBillLineItems` only touches `activities` and the id counter. -/
theorem syncBillLineItems_frame (env : SyncEnv) (now : Nat) (db : DB)
    (cbid lbid : Nat) :
    (syncBillLineItems env now db cbid lbid).1.users = db.users ∧
    (syncBillLineItems env now db cbid lbid).1.clients = db.clients ∧
    (syncBillLineItems env now db cbid lbid).1.matters = db.matters ∧
    (syncBillLineItems env now db cbid lbid).1.bills = db.bills ∧
    (syncBillLineItems env now db cbid lbid).1.syncLogs = db.syncLogs ∧
    (syncBillLineItems env now db cbid lbid).1.logEvents = db.logEvents ∧
    db.nextId ≤ (syncBillLineItems env now db cbid lbid).1.nextId := by
  rcases h : env.getAllBillLineItems cbid with e | items
  · simp [syncBillLineItems, h]
  · simp only [syncBillLineItems, h]
    rw [lineItemsLoop_eq]
    exact ⟨rfl, rfl, rfl, rfl, rfl, rfl,
      upsertLoop_nextId_mono _ _ _ _ _ items db.activities db.nextId⟩

/-- `syncBillUpsert` only touches `bills`, `activities` and the id
counter. -/
theorem syncBillUpsert_frame (env : SyncEnv) (now : Nat) (clioBill : ClioBillData)
    (matterId clientId : Option Nat) (cbid : Nat) (db2 : DB) :
    (syncBillUpsert env now clioBill matterId clientId cbid db2).1.users = db2.users ∧
    (syncBillUpsert env now clioBill matterId clientId cbid db2).1.clients = db2.clients ∧
    (syncBillUpsert env now clioBill matterId clientId cbid db2).1.matters = db2.matters ∧
    (syncBillUpsert env now clioBill matterId clientId cbid db2).1.syncLogs = db2.syncLogs ∧
    (syncBillUpsert env now clioBill matterId clientId cbid db2).1.logEvents = db2.logEvents ∧
    db2.nextId ≤ (syncBillUpsert env now clioBill matterId clientId cbid db2).1.nextId := by
  unfold syncBillUpsert
  have hf := syncBillLineItems_frame env now
    { db2 with
        bills := (upsertRow (·.id) (·.clioId) db2.bills db2.nextId (toString clioBill.id)
          (billUpd clioBill matterId clientId now) (billMk clioBill matterId clientId now)).1
        nextId := (upsertRow (·.id) (·.clioId) db2.bills db2.nextId (toString clioBill.id)
          (billUpd clioBill matterId clientId now) (billMk clioBill matterId clientId now)).2.2.2 }
    cbid
    (upsertRow (·.id) (·.clioId) db2.bills db2.nextId (toString clioBill.id)
      (billUpd clioBill matterId clientId now) (billMk clioBill matterId clientId now)).2.1
  exact ⟨hf.1, hf.2.1, hf.2.2.1, hf.2.2.2.2.1, hf.2.2.2.2.2.1,
    le_trans (upsertRow_nextId_mono _ _ _ _ _ _ _) hf.2.2.2.2.2.2⟩

/-- `syncBill` leaves `users`, the sync log and its trace untouched. -/
theorem syncBill_frame (env : SyncEnv) (now : Nat) (db : DB) (cbid : Nat) :
    (syncBill env now db cbid).1.users = db.users ∧
    (syncBill env now db cbid).1.syncLogs = db.syncLogs ∧
    (syncBill env now db cbid).1.logEvents = db.logEvents ∧
    db.nextId ≤ (syncBill env now db cbid).1.nextId := by
  rcases h : env.getBill cbid with e | clioBill
  · simp [syncBill, h]
  · simp only [syncBill, h]
    rcases hm : clioBill.matter_id with _ | mid <;>
    rcases hc : clioBill.client_id with _ | cid <;>
    simp only [hm, hc]
    · have hu := syncBillUpsert_frame env now clioBill none none cbid db
      exact ⟨hu.1, hu.2.2.2.1, hu.2.2.2.2.1, hu.2.2.2.2.2⟩
    · have hf := syncClient_frame env db cid
      have hu := syncBillUpsert_frame env now clioBill none (syncClient env db cid).2
        cbid (syncClient env db cid).1
      exact ⟨hu.1.trans hf.1, hu.2.2.2.1.trans hf.2.2.2.2.1,
        hu.2.2.2.2.1.trans hf.2.2.2.2.2.1,
        le_trans hf.2.2.2.2.2.2 hu.2.2.2.2.2⟩
    · have hf := syncMatter_frame env db mid
      have hu := syncBillUpsert_frame env now clioBill (syncMatter env db mid).2 none
        cbid (syncMatter env db mid).1
      exact ⟨hu.1.trans hf.1, hu.2.2.2.1.trans hf.2.2.2.1,
        hu.2.2.2.2.1.trans hf.2.2.2.2.1,
        le_trans hf.2.2.2.2.2 hu.2.2.2.2.2⟩
    · have hf := syncMatter_frame env db mid
      have hg := syncClient_frame env (syncMatter env db mid).1 cid
      have hu := syncBillUpsert_frame env now clioBill (syncMatter env db mid).2
        (syncClient env (syncMatter env db mid).1 cid).2 cbid
        (syncClient env (syncMatter env db mid).1 cid).1
      exact ⟨(hu.1.trans hg.1).trans hf.1,
        (hu.2.2.2.1.trans hg.2.2.2.2.1).trans hf.2.2.2.1,
        (hu.2.2.2.2.1.trans hg.2.2.2.2.2.1).trans hf.2.2.2.2.1,
        le_trans hf.2.2.2.2.2 (le_trans hg.2.2.2.2.2.2 hu.2.2.2.2.2)⟩

end Sync

/-! ### Sync-log bracketing lemmas -/

namespace Sync

/-- `billsLoop` leaves `users`, the sync log and its trace untouched. -/
theorem billsLoop_frame (env : SyncEnv) (now : Nat) :
    ∀ (L : List ClioBillData) (db : DB),
    (billsLoop env now db L).1.users = db.users ∧
    (billsLoop env now db L).1.syncLogs = db.syncLogs ∧
    (billsLoop env now db L).1.logEvents = db.logEvents ∧
    db.nextId ≤ (billsLoop env now db L).1.nextId := by
  intro L
  induction L with
  | nil => intro db; exact ⟨rfl, rfl, rfl, le_refl _⟩
  | cons b rest ih =>
    intro db
    have hb := syncBill_frame env now db b.id
    have hr := ih (syncBill env now db b.id).1
    exact ⟨hr.1.trans hb.1, hr.2.1.trans hb.2.1, hr.2.2.1.trans hb.2.2.1,
      le_trans hb.2.2.2 hr.2.2.2⟩

/-- Closing a log whose id only the last (freshly created) row carries
rewrites exactly that row and appends one closed-event. -/
theorem updateSyncLog_closed (db' : DB) (logId : Nat) (st : SyncStatus)
    (cnt : Nat) (msg : Option String) (now : Nat)
    (prefixLogs : List SyncLogRec) (runlog : SyncLogRec)
    (h : db'.syncLogs = prefixLogs ++ [runlog])
    (hrun : runlog.id = logId)
    (hfresh : ∀ l ∈ prefixLogs, l.id ≠ logId) :
    (updateSyncLog db' logId st cnt msg now).syncLogs =
      prefixLogs ++ [{ runlog with
        status := st, recordCount := cnt, errorMessage := msg, completedAt := some now }] ∧
    (updateSyncLog db' logId st cnt msg now).logEvents =
      db'.logEvents ++ [LogEvent.closed logId st cnt msg] ∧
    (updateSyncLog db' logId st cnt msg now).users = db'.users ∧
    (updateSyncLog db' logId st cnt msg now).bills = db'.bills ∧
    (updateSyncLog db' logId st cnt msg now).activities = db'.activities := by
  refine ⟨?_, rfl, rfl, rfl, rfl⟩
  show (db'.syncLogs.map _) = _
  rw [h, List.map_append]
  congr 1
  · have h2 : prefixLogs.map (fun l => if l.id = logId then
        { l with status := st, recordCount := cnt, errorMessage := msg, completedAt := some now }
      else l) = prefixLogs.map id := by
      apply List.map_congr_left
      intro l hl
      rw [if_neg (hfresh l hl)]
      rfl
    simpa using h2
  · simp [hrun]

end Sync
namespace Sync

theorem C1_users_part (env : SyncEnv) (now : Nat) (db : DB) (hfresh : logIdsFresh db) :
    ∃ st msg,
      (syncUsers env now db).1.logEvents =
        db.logEvents ++
          [LogEvent.created db.nextId SyncType.USERS SyncStatus.RUNNING,
           LogEvent.closed db.nextId st (syncUsers env now db).2.recordsProcessed msg] ∧
      (syncUsers env now db).1.syncLogs =
        db.syncLogs ++
          [⟨db.nextId, SyncType.USERS, st, (syncUsers env now db).2.recordsProcessed,
            msg, some now⟩] ∧
      ((∃ L, env.getAllUsers = .ok L) → st = SyncStatus.COMPLETED ∧ msg = none) ∧
      (∀ e, env.getAllUsers = .error e → st = SyncStatus.FAILED ∧ msg = some e) := by
  have hne : ∀ l ∈ db.syncLogs, l.id ≠ db.nextId :=
    fun l hl => Nat.ne_of_lt (hfresh l hl)
  have hcl2 : (createSyncLog db SyncType.USERS).2 = db.nextId := rfl
  rcases h : env.getAllUsers with e | L
  · have hc := updateSyncLog_closed (createSyncLog db SyncType.USERS).1
      db.nextId SyncStatus.FAILED 0 (some e) now db.syncLogs
      ⟨db.nextId, SyncType.USERS, SyncStatus.RUNNING, 0, none, none⟩ rfl rfl hne
    refine ⟨SyncStatus.FAILED, some e, ?_, ?_, ?_, ?_⟩
    · simp only [syncUsers, h, hcl2]
      rw [hc.2.1]
      simp [createSyncLog]
    · simp only [syncUsers, h, hcl2]
      rw [hc.1]
    · rintro ⟨L, hL⟩
      cases hL
    · intro e' he'
      cases he'
      exact ⟨rfl, rfl⟩
  · have hsl : (syncUsersLoop (createSyncLog db SyncType.USERS).1 L).1.syncLogs =
        db.syncLogs ++ [⟨db.nextId, SyncType.USERS, SyncStatus.RUNNING, 0, none, none⟩] := by
      rw [syncUsersLoop_eq]
      rfl
    have hle : (syncUsersLoop (createSyncLog db SyncType.USERS).1 L).1.logEvents =
        db.logEvents ++ [LogEvent.created db.nextId SyncType.USERS SyncStatus.RUNNING] := by
      rw [syncUsersLoop_eq]
      rfl
    have hc := updateSyncLog_closed (syncUsersLoop (createSyncLog db SyncType.USERS).1 L).1
      db.nextId SyncStatus.COMPLETED (syncUsersLoop (createSyncLog db SyncType.USERS).1 L).2.1
      none now db.syncLogs ⟨db.nextId, SyncType.USERS, SyncStatus.RUNNING, 0, none, none⟩
      hsl rfl hne
    refine ⟨SyncStatus.COMPLETED, none, ?_, ?_, ?_, ?_⟩
    · simp only [syncUsers, h, hcl2]
      rw [hc.2.1, hle]
      simp
    · simp only [syncUsers, h, hcl2]
      rw [hc.1]
    · intro _
      exact ⟨rfl, rfl⟩
    · intro e' he'
      cases he'

end Sync
namespace Sync

theorem C1_bills_part (env : SyncEnv) (now : Nat) (db : DB) (hfresh : logIdsFresh db) :
    ∃ st msg,
      (syncAwaitingApprovalBills env now db).1.logEvents =
        db.logEvents ++
          [LogEvent.created db.nextId SyncType.BILLS SyncStatus.RUNNING,
           LogEvent.closed db.nextId st
             (syncAwaitingApprovalBills env now db).2.recordsProcessed msg] ∧
      (syncAwaitingApprovalBills env now db).1.syncLogs =
        db.syncLogs ++
          [⟨db.nextId, SyncType.BILLS, st,
            (syncAwaitingApprovalBills env now db).2.recordsProcessed, msg, some now⟩] ∧
      ((env.clientAvailable = true ∧ ∃ L, env.getAllBillsAwaitingApproval = .ok L) →
        st = SyncStatus.COMPLETED ∧ msg = none) ∧
      (env.clientAvailable = false →
        st = SyncStatus.FAILED ∧ msg = some "Error: No valid Clio client available") ∧
      (∀ e, env.getAllBillsAwaitingApproval = .error e → env.clientAvailable = true →
        st = SyncStatus.FAILED ∧ msg = some e) := by
  have hne : ∀ l ∈ db.syncLogs, l.id ≠ db.nextId :=
    fun l hl => Nat.ne_of_lt (hfresh l hl)
  have hcl2 : (createSyncLog db SyncType.BILLS).2 = db.nextId := rfl
  rcases hav : env.clientAvailable with _ | _
  · have hc := updateSyncLog_closed (createSyncLog db SyncType.BILLS).1
      db.nextId SyncStatus.FAILED 0 (some "Error: No valid Clio client available") now
      db.syncLogs ⟨db.nextId, SyncType.BILLS, SyncStatus.RUNNING, 0, none, none⟩ rfl rfl hne
    refine ⟨SyncStatus.FAILED, some "Error: No valid Clio client available", ?_, ?_, ?_, ?_, ?_⟩
    · simp only [syncAwaitingApprovalBills, hav, hcl2, Bool.false_eq_true, if_false]
      rw [hc.2.1]
      simp [createSyncLog]
    · simp only [syncAwaitingApprovalBills, hav, hcl2, Bool.false_eq_true, if_false]
      rw [hc.1]
    · rintro ⟨hav2, -⟩
      cases hav2
    · intro _
      exact ⟨rfl, rfl⟩
    · intro e _ hav2
      cases hav2
  · rcases h : env.getAllBillsAwaitingApproval with e | L
    · have hc := updateSyncLog_closed (createSyncLog db SyncType.BILLS).1
        db.nextId SyncStatus.FAILED 0 (some e) now
        db.syncLogs ⟨db.nextId, SyncType.BILLS, SyncStatus.RUNNING, 0, none, none⟩ rfl rfl hne
      refine ⟨SyncStatus.FAILED, some e, ?_, ?_, ?_, ?_, ?_⟩
      · simp only [syncAwaitingApprovalBills, hav, h, hcl2, if_true]
        rw [hc.2.1]
        simp [createSyncLog]
      · simp only [syncAwaitingApprovalBills, hav, h, hcl2, if_true]
        rw [hc.1]
      · rintro ⟨-, L, hL⟩
        cases hL
      · intro hav2
        cases hav2
      · rintro e' he' -
        cases he'
        exact ⟨rfl, rfl⟩
    · have hbf := billsLoop_frame env now L (createSyncLog db SyncType.BILLS).1
      have hsl : (billsLoop env now (createSyncLog db SyncType.BILLS).1 L).1.syncLogs =
          db.syncLogs ++ [⟨db.nextId, SyncType.BILLS, SyncStatus.RUNNING, 0, none, none⟩] := by
        rw [hbf.2.1]
        rfl
      have hle : (billsLoop env now (createSyncLog db SyncType.BILLS).1 L).1.logEvents =
          db.logEvents ++ [LogEvent.created db.nextId SyncType.BILLS SyncStatus.RUNNING] := by
        rw [hbf.2.2.1]
        rfl
      have hc := updateSyncLog_closed (billsLoop env now (createSyncLog db SyncType.BILLS).1 L).1
        db.nextId SyncStatus.COMPLETED
        (billsLoop env now (createSyncLog db SyncType.BILLS).1 L).2.1 none now
        db.syncLogs ⟨db.nextId, SyncType.BILLS, SyncStatus.RUNNING, 0, none, none⟩ hsl rfl hne
      refine ⟨SyncStatus.COMPLETED, none, ?_, ?_, ?_, ?_, ?_⟩
      · simp only [syncAwaitingApprovalBills, hav, h, hcl2, if_true]
        rw [hc.2.1, hle]
        simp
      · simp only [syncAwaitingApprovalBills, hav, h, hcl2, if_true]
        rw [hc.1]
      · intro _
        exact ⟨rfl, rfl⟩
      · intro hav2
        cases hav2
      · rintro e' he' -
        cases he'

end Sync

/-! ### Approved-flag lemmas -/

namespace Sync

/-- One line-item pass keeps every already-approved activity approved
(same remote id). -/
theorem syncBillLineItems_approved_preserve (env : SyncEnv) (now : Nat) (db : DB)
    (cbid lbid : Nat) (a : ActivityRec) (ha : a ∈ db.activities)
    (hap : a.approvedByTimekeeper = true) :
    ∃ a' ∈ (syncBillLineItems env now db cbid lbid).1.activities,
      a'.clioId = a.clioId ∧ a'.approvedByTimekeeper = true := by
  rcases h : env.getAllBillLineItems cbid with e | items
  · simp only [syncBillLineItems, h]
    exact ⟨a, ha, rfl, hap⟩
  · simp only [syncBillLineItems, h]
    rw [lineItemsLoop_eq]
    obtain ⟨y, hy, hkey, hPy⟩ := upsertLoop_preserve (·.id) (·.clioId) lineItemKey
      (lineItemUpd db.users lbid now) (lineItemMk db.users lbid now)
      (fun x => x.approvedByTimekeeper = true)
      (fun it x hx => hx)
      (fun it x => (rfl : (lineItemUpd db.users lbid now it x).clioId = x.clioId))
      items db.activities db.nextId a ha hap
    exact ⟨y, hy, hkey, hPy⟩

/-- After one line-item pass, an approved activity can only descend from
an already-approved activity with the same remote id (new rows are
created unapproved and updates never write the flag). -/
theorem syncBillLineItems_approved_origin (env : SyncEnv) (now : Nat) (db : DB)
    (cbid lbid : Nat) :
    ∀ a' ∈ (syncBillLineItems env now db cbid lbid).1.activities,
      a'.approvedByTimekeeper = true →
      ∃ a ∈ db.activities, a.clioId = a'.clioId ∧ a.approvedByTimekeeper = true := by
  rcases h : env.getAllBillLineItems cbid with e | items
  · simp only [syncBillLineItems, h]
    intro a' ha' hap'
    exact ⟨a', ha', rfl, hap'⟩
  · simp only [syncBillLineItems, h]
    rw [lineItemsLoop_eq]
    intro a' ha' hap'
    obtain ⟨x, hx, hkey, hPx⟩ := upsertLoop_P_origin (·.id) (·.clioId) lineItemKey
      (lineItemUpd db.users lbid now) (lineItemMk db.users lbid now)
      (fun x => x.approvedByTimekeeper = true)
      (fun it x => Iff.rfl)
      (fun it x => (rfl : (lineItemUpd db.users lbid now it x).clioId = x.clioId))
      (fun it n h0 => by simp [lineItemMk, lineItemUpd] at h0)
      items db.activities db.nextId a' ha' hap'
    exact ⟨x, hx, hkey, hPx⟩

/-- Any number of passes keeps an approved activity approved. -/
theorem syncPassIter_approved_preserve (env : SyncEnv) (now cbid lbid : Nat) :
    ∀ (n : Nat) (db : DB) (a : ActivityRec), a ∈ db.activities →
      a.approvedByTimekeeper = true →
      ∃ a' ∈ (syncPassIter env now cbid lbid n db).activities,
        a'.clioId = a.clioId ∧ a'.approvedByTimekeeper = true := by
  intro n
  induction n with
  | zero => intro db a ha hap; exact ⟨a, ha, rfl, hap⟩
  | succ m ih =>
    intro db a ha hap
    obtain ⟨a1, ha1, hkey1, hap1⟩ :=
      syncBillLineItems_approved_preserve env now db cbid lbid a ha hap
    obtain ⟨a2, ha2, hkey2, hap2⟩ := ih (syncBillLineItems env now db cbid lbid).1 a1 ha1 hap1
    exact ⟨a2, ha2, hkey2.trans hkey1, hap2⟩

end Sync

/-! ### Push-operation characterizations -/

namespace Sync

theorem pushActivityToClio_spec (env : PushEnv) (now : Nat) (db : DB)
    (aid : Nat) (upds : ActivityUpdates) :
    ((pushActivityToClio env now db aid upds).2.1.success = false →
      (pushActivityToClio env now db aid upds).1 = db ∧
      (pushActivityToClio env now db aid upds).2.1.error ≠ none) ∧
    ((pushActivityToClio env now db aid upds).2.2 = [] ∨
      ∃ a etag, db.activities.find? (fun x => x.id == aid) = some a ∧
        env.getActivityEtag (parseClioId a.clioId) = .ok etag ∧
        (pushActivityToClio env now db aid upds).2.2 =
          [RemoteWrite.updateActivity (parseClioId a.clioId) etag]) ∧
    ((pushActivityToClio env now db aid upds).2.1.success = true →
      ∃ a etag, db.activities.find? (fun x => x.id == aid) = some a ∧
        env.getActivityEtag (parseClioId a.clioId) = .ok etag ∧
        env.updateActivity (parseClioId a.clioId) etag = .ok () ∧
        (pushActivityToClio env now db aid upds).1 =
          { db with activities := db.activities.map (fun x =>
              if x.id = aid then pushActivityLocalUpdate upds now x else x) }) := by
  rcases hav : env.clientAvailable with _ | _
  · simp [pushActivityToClio, hav]
  · rcases hfind : db.activities.find? (fun x => x.id == aid) with _ | a
    · simp [pushActivityToClio, hav, hfind]
    · rcases hetag : env.getActivityEtag (parseClioId a.clioId) with e | etag
      · simp [pushActivityToClio, hav, hfind, hetag]
      · rcases hupd : env.updateActivity (parseClioId a.clioId) etag with e | u
        · refine ⟨?_, ?_, ?_⟩
          · intro _
            simp [pushActivityToClio, hav, hfind, hetag, hupd]
          · right
            exact ⟨a, etag, hfind, hetag, by simp [pushActivityToClio, hav, hfind, hetag, hupd]⟩
          · intro hs
            simp [pushActivityToClio, hav, hfind, hetag, hupd] at hs
        · refine ⟨?_, ?_, ?_⟩
          · intro hs
            simp [pushActivityToClio, hav, hfind, hetag, hupd] at hs
          · right
            exact ⟨a, etag, hfind, hetag, by simp [pushActivityToClio, hav, hfind, hetag, hupd]⟩
          · intro _
            exact ⟨a, etag, hfind, hetag, hupd,
              by simp [pushActivityToClio, hav, hfind, hetag, hupd]⟩

end Sync
namespace Sync

theorem holdActivityInClio_spec (env : PushEnv) (now : Nat) (db : DB) (aid : Nat) :
    ((holdActivityInClio env now db aid).2.1.success = false →
      (holdActivityInClio env now db aid).1 = db ∧
      (holdActivityInClio env now db aid).2.1.error ≠ none) ∧
    ((holdActivityInClio env now db aid).2.2 = [] ∨
      ∃ a etag, db.activities.find? (fun x => x.id == aid) = some a ∧
        env.getActivityEtag (parseClioId a.clioId) = .ok etag ∧
        (holdActivityInClio env now db aid).2.2 =
          [RemoteWrite.holdActivity (parseClioId a.clioId) etag]) ∧
    ((holdActivityInClio env now db aid).2.1.success = true →
      ∃ a etag, db.activities.find? (fun x => x.id == aid) = some a ∧
        env.getActivityEtag (parseClioId a.clioId) = .ok etag ∧
        env.holdActivity (parseClioId a.clioId) etag = .ok () ∧
        (holdActivityInClio env now db aid).1 =
          { db with activities := db.activities.map (fun x =>
              if x.id = aid then
                { x with status := ActivityStatus.HELD, billId := none, syncedAt := now }
              else x) }) := by
  rcases hav : env.clientAvailable with _ | _
  · simp [holdActivityInClio, hav]
  · rcases hfind : db.activities.find? (fun x => x.id == aid) with _ | a
    · simp [holdActivityInClio, hav, hfind]
    · rcases hetag : env.getActivityEtag (parseClioId a.clioId) with e | etag
      · simp [holdActivityInClio, hav, hfind, hetag]
      · rcases hupd : env.holdActivity (parseClioId a.clioId) etag with e | u
        · refine ⟨?_, ?_, ?_⟩
          · intro _
            simp [holdActivityInClio, hav, hfind, hetag, hupd]
          · right
            exact ⟨a, etag, hfind, hetag, by simp [holdActivityInClio, hav, hfind, hetag, hupd]⟩
          · intro hs
            simp [holdActivityInClio, hav, hfind, hetag, hupd] at hs
        · refine ⟨?_, ?_, ?_⟩
          · intro hs
            simp [holdActivityInClio, hav, hfind, hetag, hupd] at hs
          · right
            exact ⟨a, etag, hfind, hetag, by simp [holdActivityInClio, hav, hfind, hetag, hupd]⟩
          · intro _
            exact ⟨a, etag, hfind, hetag, hupd,
              by simp [holdActivityInClio, hav, hfind, hetag, hupd]⟩

theorem deleteActivityInClio_spec (env : PushEnv) (now : Nat) (db : DB) (aid : Nat) :
    ((deleteActivityInClio env now db aid).2.1.success = false →
      (deleteActivityInClio env now db aid).1 = db ∧
      (deleteActivityInClio env now db aid).2.1.error ≠ none) ∧
    ((deleteActivityInClio env now db aid).2.2 = [] ∨
      ∃ a etag, db.activities.find? (fun x => x.id == aid) = some a ∧
        env.getActivityEtag (parseClioId a.clioId) = .ok etag ∧
        (deleteActivityInClio env now db aid).2.2 =
          [RemoteWrite.deleteActivity (parseClioId a.clioId) etag]) ∧
    ((deleteActivityInClio env now db aid).2.1.success = true →
      ∃ a etag, db.activities.find? (fun x => x.id == aid) = some a ∧
        env.getActivityEtag (parseClioId a.clioId) = .ok etag ∧
        env.deleteActivity (parseClioId a.clioId) etag = .ok () ∧
        (deleteActivityInClio env now db aid).1 =
          { db with activities := db.activities.map (fun x =>
              if x.id = aid then
                { x with status := ActivityStatus.DELETED, syncedAt := now }
              else x) }) := by
  rcases hav : env.clientAvailable with _ | _
  · simp [deleteActivityInClio, hav]
  · rcases hfind : db.activities.find? (fun x => x.id == aid) with _ | a
    · simp [deleteActivityInClio, hav, hfind]
    · rcases hetag : env.getActivityEtag (parseClioId a.clioId) with e | etag
      · simp [deleteActivityInClio, hav, hfind, hetag]
      · rcases hupd : env.deleteActivity (parseClioId a.clioId) etag with e | u
        · refine ⟨?_, ?_, ?_⟩
          · intro _
            simp [deleteActivityInClio, hav, hfind, hetag, hupd]
          · right
            exact ⟨a, etag, hfind, hetag, by simp [deleteActivityInClio, hav, hfind, hetag, hupd]⟩
          · intro hs
            simp [deleteActivityInClio, hav, hfind, hetag, hupd] at hs
        · refine ⟨?_, ?_, ?_⟩
          · intro hs
            simp [deleteActivityInClio, hav, hfind, hetag, hupd] at hs
          · right
            exact ⟨a, etag, hfind, hetag, by simp [deleteActivityInClio, hav, hfind, hetag, hupd]⟩
          · intro _
            exact ⟨a, etag, hfind, hetag, hupd,
              by simp [deleteActivityInClio, hav, hfind, hetag, hupd]⟩

theorem approveBillInClio_spec (env : PushEnv) (now : Nat) (db : DB) (bid : Nat) :
    ((approveBillInClio env now db bid).2.1.success = false →
      (approveBillInClio env now db bid).1 = db ∧
      (approveBillInClio env now db bid).2.1.error ≠ none) ∧
    ((approveBillInClio env now db bid).2.2 = [] ∨
      ∃ b etag, db.bills.find? (fun x => x.id == bid) = some b ∧
        env.getBillEtag (parseClioId b.clioId) = .ok etag ∧
        (approveBillInClio env now db bid).2.2 =
          [RemoteWrite.updateBillState (parseClioId b.clioId) "awaiting_payment" etag]) ∧
    ((approveBillInClio env now db bid).2.1.success = true →
      ∃ b etag, db.bills.find? (fun x => x.id == bid) = some b ∧
        env.getBillEtag (parseClioId b.clioId) = .ok etag ∧
        env.updateBillState (parseClioId b.clioId) "awaiting_payment" etag = .ok () ∧
        (approveBillInClio env now db bid).1 =
          { db with bills := db.bills.map (fun x =>
              if x.id = bid then
                { x with
                    clioStatus := "awaiting_payment"
                    workflowStatus := WorkflowStatus.APPROVED
                    approvedAt := some now
                    syncedAt := now }
              else x) }) := by
  rcases hav : env.clientAvailable with _ | _
  · simp [approveBillInClio, hav]
  · rcases hfind : db.bills.find? (fun x => x.id == bid) with _ | b
    · simp [approveBillInClio, hav, hfind]
    · rcases hetag : env.getBillEtag (parseClioId b.clioId) with e | etag
      · simp [approveBillInClio, hav, hfind, hetag]
      · rcases hupd : env.updateBillState (parseClioId b.clioId) "awaiting_payment" etag with e | u
        · refine ⟨?_, ?_, ?_⟩
          · intro _
            simp [approveBillInClio, hav, hfind, hetag, hupd]
          · right
            exact ⟨b, etag, hfind, hetag, by simp [approveBillInClio, hav, hfind, hetag, hupd]⟩
          · intro hs
            simp [approveBillInClio, hav, hfind, hetag, hupd] at hs
        · refine ⟨?_, ?_, ?_⟩
          · intro hs
            simp [approveBillInClio, hav, hfind, hetag, hupd] at hs
          · right
            exact ⟨b, etag, hfind, hetag, by simp [approveBillInClio, hav, hfind, hetag, hupd]⟩
          · intro _
            exact ⟨b, etag, hfind, hetag, hupd,
              by simp [approveBillInClio, hav, hfind, hetag, hupd]⟩

theorem voidBillInClio_spec (env : PushEnv) (now : Nat) (db : DB) (bid : Nat) :
    ((voidBillInClio env now db bid).2.1.success = false →
      (voidBillInClio env now db bid).1 = db ∧
      (voidBillInClio env now db bid).2.1.error ≠ none) ∧
    ((voidBillInClio env now db bid).2.2 = [] ∨
      ∃ b etag, db.bills.find? (fun x => x.id == bid) = some b ∧
        env.getBillEtag (parseClioId b.clioId) = .ok etag ∧
        (voidBillInClio env now db bid).2.2 =
          [RemoteWrite.deleteBill (parseClioId b.clioId) etag]) ∧
    ((voidBillInClio env now db bid).2.1.success = true →
      ∃ b etag, db.bills.find? (fun x => x.id == bid) = some b ∧
        env.getBillEtag (parseClioId b.clioId) = .ok etag ∧
        env.deleteBill (parseClioId b.clioId) etag = .ok () ∧
        (voidBillInClio env now db bid).1 =
          { db with bills := db.bills.map (fun x =>
              if x.id = bid then
                { x with
                    clioStatus := "deleted"
                    workflowStatus := WorkflowStatus.VOIDED
                    syncedAt := now }
              else x) }) := by
  rcases hav : env.clientAvailable with _ | _
  · simp [voidBillInClio, hav]
  · rcases hfind : db.bills.find? (fun x => x.id == bid) with _ | b
    · simp [voidBillInClio, hav, hfind]
    · rcases hetag : env.getBillEtag (parseClioId b.clioId) with e | etag
      · simp [voidBillInClio, hav, hfind, hetag]
      · rcases hupd : env.deleteBill (parseClioId b.clioId) etag with e | u
        · refine ⟨?_, ?_, ?_⟩
          · intro _
            simp [voidBillInClio, hav, hfind, hetag, hupd]
          · right
            exact ⟨b, etag, hfind, hetag, by simp [voidBillInClio, hav, hfind, hetag, hupd]⟩
          · intro hs
            simp [voidBillInClio, hav, hfind, hetag, hupd] at hs
        · refine ⟨?_, ?_, ?_⟩
          · intro hs
            simp [voidBillInClio, hav, hfind, hetag, hupd] at hs
          · right
            exact ⟨b, etag, hfind, hetag, by simp [voidBillInClio, hav, hfind, hetag, hupd]⟩
          · intro _
            exact ⟨b, etag, hfind, hetag, hupd,
              by simp [voidBillInClio, hav, hfind, hetag, hupd]⟩

end Sync

/-! ### Retry-dispatch lemmas -/

namespace Clio

theorem tryBlock_at_max (env : RequestEnv) (idx : Nat) :
    (requestTryBlock env idx MAX_RETRIES).2 = 1 := by
  rw [requestTryBlock.eq_def]
  rcases hf : env.fetch idx with e | resp
  · rfl
  · rcases hr : env.refresh idx with e' | u <;>
    · by_cases h429 : resp.status = 429 <;>
      by_cases h401 : resp.status = 401 <;>
      by_cases hok : 200 ≤ resp.status ∧ resp.status < 300 <;>
      by_cases h204 : resp.status = 204 <;>
      simp_all [MAX_RETRIES]

theorem requestGo_eq_try_of_max (env : RequestEnv) (idx : Nat) :
    requestGo env idx MAX_RETRIES = requestTryBlock env idx MAX_RETRIES := by
  rw [requestGo.eq_def]
  rcases h : requestTryBlock env idx MAX_RETRIES with ⟨r, n⟩
  rcases r with e | v
  · rcases e with m | m <;> simp [MAX_RETRIES]
  · simp

theorem requestGo_eq_try_of_plain (env : RequestEnv) (idx rc : Nat)
    (h : ∀ m n, requestTryBlock env idx rc ≠ (.error (.fetchTypeError m), n)) :
    requestGo env idx rc = requestTryBlock env idx rc := by
  rw [requestGo.eq_def]
  rcases heq : requestTryBlock env idx rc with ⟨r, n⟩
  rcases r with e | v
  · rcases e with m | m
    · exact absurd heq (h m n)
    · simp
  · simp

end Clio
namespace Clio

theorem tryBlock_500_max (env : RequestEnv) (body : String) (idx : Nat)
    (hf : env.fetch idx = .ok ⟨500, body, none⟩) :
    requestTryBlock env idx MAX_RETRIES =
      (.error (.error ("Clio API error: 500 - " ++ body)), 1) := by
  rw [requestTryBlock.eq_def, hf]
  norm_num [MAX_RETRIES]
  rfl

theorem tryBlock_500_lt (env : RequestEnv) (body : String) (idx rc : Nat)
    (hf : env.fetch idx = .ok ⟨500, body, none⟩) (hrc : rc < MAX_RETRIES) :
    requestTryBlock env idx rc =
      ((requestGo env (idx + 1) (rc + 1)).1, (requestGo env (idx + 1) (rc + 1)).2 + 1) := by
  rw [requestTryBlock.eq_def, hf]
  simp only [MAX_RETRIES] at hrc
  norm_num [MAX_RETRIES, hrc]

theorem requestGo_all500 (env : RequestEnv) (body : String)
    (h : ∀ k, env.fetch k = .ok ⟨500, body, none⟩) :
    ∀ rc idx, rc ≤ MAX_RETRIES →
    requestGo env idx rc =
      (.error (.error ("Clio API error: 500 - " ++ body)), MAX_RETRIES + 1 - rc) := by
  have key : ∀ d rc idx, rc ≤ MAX_RETRIES → MAX_RETRIES - rc ≤ d →
      requestGo env idx rc =
        (.error (.error ("Clio API error: 500 - " ++ body)), MAX_RETRIES + 1 - rc) := by
    intro d
    induction d with
    | zero =>
      intro rc idx h1 h2
      have : rc = MAX_RETRIES := by simp [MAX_RETRIES] at h1 h2 ⊢; omega
      subst this
      rw [requestGo_eq_try_of_max, tryBlock_500_max env body idx (h idx)]
      simp [MAX_RETRIES]
    | succ f ih =>
      intro rc idx h1 h2
      by_cases hrc : rc < MAX_RETRIES
      · have htry := tryBlock_500_lt env body idx rc (h idx) hrc
        have hnext := ih (rc + 1) (idx + 1) (by omega) (by omega)
        rw [requestGo_eq_try_of_plain env idx rc (by rw [htry, hnext]; intro m n hcontra; simp at hcontra),
            htry, hnext]
        simp [MAX_RETRIES] at hrc ⊢
        omega
      · have : rc = MAX_RETRIES := by omega
        subst this
        rw [requestGo_eq_try_of_max, tryBlock_500_max env body idx (h idx)]
        simp [MAX_RETRIES]
  intro rc idx h1
  exact key MAX_RETRIES rc idx h1 (by omega)

end Clio
namespace Clio

theorem tryBlock_attempts_le (env : RequestEnv) (idx rc : Nat) (hrc : rc < MAX_RETRIES)
    (hG : (requestGo env (idx + 1) (rc + 1)).2 ≤ 2 ^ (MAX_RETRIES - rc) - 1) :
    (requestTryBlock env idx rc).2 ≤ 2 ^ (MAX_RETRIES - rc) := by
  have hpow : 1 ≤ 2 ^ (MAX_RETRIES - rc) := Nat.one_le_two_pow
  rw [requestTryBlock.eq_def]
  rcases hf : env.fetch idx with e | resp
  · simpa using hpow
  · rcases hr : env.refresh idx with e' | u <;>
    · simp only
      split_ifs <;> simp only <;> omega

end Clio
namespace Clio

theorem requestGo_attempts_le (env : RequestEnv) :
    ∀ rc idx, rc ≤ MAX_RETRIES →
      (requestGo env idx rc).2 ≤ 2 ^ (MAX_RETRIES + 1 - rc) - 1 := by
  have key : ∀ d rc idx, rc ≤ MAX_RETRIES → MAX_RETRIES - rc ≤ d →
      (requestGo env idx rc).2 ≤ 2 ^ (MAX_RETRIES + 1 - rc) - 1 := by
    intro d
    induction d with
    | zero =>
      intro rc idx h1 h2
      have : rc = MAX_RETRIES := by omega
      subst this
      rw [requestGo_eq_try_of_max, tryBlock_at_max]
      simp
    | succ f ih =>
      intro rc idx h1 h2
      by_cases hrc : rc < MAX_RETRIES
      · have he : MAX_RETRIES + 1 - (rc + 1) = MAX_RETRIES - rc := by omega
        have ihG : ∀ j, (requestGo env j (rc + 1)).2 ≤ 2 ^ (MAX_RETRIES - rc) - 1 := by
          intro j
          have := ih (rc + 1) j (by omega) (by omega)
          rwa [he] at this
        have htry := tryBlock_attempts_le env idx rc hrc (ihG (idx + 1))
        have hpows : 2 ^ (MAX_RETRIES + 1 - rc) = 2 * 2 ^ (MAX_RETRIES - rc) := by
          rw [← pow_succ']
          congr 1
          omega
        rw [requestGo.eq_def]
        rcases heq : requestTryBlock env idx rc with ⟨r, n⟩
        have hn : n ≤ 2 ^ (MAX_RETRIES - rc) := by
          rw [heq] at htry
          exact htry
        rcases r with e | v
        · rcases e with m | m
          · simp only [hrc, dif_pos]
            have := ihG (idx + n)
            show n + (requestGo env (idx + n) (rc + 1)).2 ≤ 2 ^ (MAX_RETRIES + 1 - rc) - 1
            omega
          · show n ≤ 2 ^ (MAX_RETRIES + 1 - rc) - 1
            omega
        · show n ≤ 2 ^ (MAX_RETRIES + 1 - rc) - 1
          omega
      · have : rc = MAX_RETRIES := by omega
        subst this
        rw [requestGo_eq_try_of_max, tryBlock_at_max]
        simp
  intro rc idx h1
  exact key MAX_RETRIES rc idx h1 (by omega)

end Clio

/-! ### Rate-limit sequencing lemmas -/

namespace Clio

/-- With a monotone clock, the post-rate-limit issue instant is the
later of the arrival instant and 250 ms past the previous request. -/
theorem applyRateLimit_eq_max (last now : Nat) (h : last ≤ now) :
    (applyRateLimit last now).2 = max now (last + RATE_LIMIT_DELAY_MS) := by
  simp only [applyRateLimit, RATE_LIMIT_DELAY_MS, RATE_LIMIT_REQUESTS_PER_SECOND]
  split_ifs with h1 <;> omega

/-- Consecutive issue instants of an admissible arrival sequence are at
least one rate-limit interval apart. -/
theorem issueTimes_chain (arrivals : List Nat) : ∀ (last : Nat),
    admissibleArrivals last arrivals = true →
    ∀ i, i + 1 < (issueTimes last arrivals).length →
      (issueTimes last arrivals).getD i 0 + RATE_LIMIT_DELAY_MS ≤
        (issueTimes last arrivals).getD (i + 1) 0 := by
  induction arrivals with
  | nil =>
    intro last _ i hi
    simp only [issueTimes, List.length_nil] at hi
    omega
  | cons a rest ih =>
    intro last hadm i hi
    simp only [admissibleArrivals, Bool.and_eq_true, decide_eq_true_eq] at hadm
    rcases i with _ | j
    · rcases rest with _ | ⟨b, rest'⟩
      · simp [issueTimes] at hi
      · have hadm2 := hadm.2
        simp only [admissibleArrivals, Bool.and_eq_true, decide_eq_true_eq] at hadm2
        have h1 : (applyRateLimit last a).2 ≤ b := hadm2.1
        have h2 := applyRateLimit_eq_max (applyRateLimit last a).2 b h1
        show (issueTimes last (a :: b :: rest')).getD 0 0 + RATE_LIMIT_DELAY_MS ≤
          (issueTimes last (a :: b :: rest')).getD 1 0
        have e0 : (issueTimes last (a :: b :: rest')).getD 0 0 = (applyRateLimit last a).2 := rfl
        have e1 : (issueTimes last (a :: b :: rest')).getD 1 0 =
            (applyRateLimit (applyRateLimit last a).2 b).2 := rfl
        rw [e0, e1, h2]
        omega
    · have := ih (applyRateLimit last a).2 hadm.2 j
      simp only [issueTimes, List.length_cons] at hi ⊢
      simp only [List.getD_cons_succ]
      exact this (by omega)

/-- From consecutive gaps to the accumulated bound. -/
theorem getD_chain_accum (t : List Nat) (d : Nat)
    (h : ∀ i, i + 1 < t.length → t.getD i 0 + d ≤ t.getD (i + 1) 0) :
    ∀ (k i : Nat), i + k < t.length → t.getD i 0 + k * d ≤ t.getD (i + k) 0 := by
  intro k
  induction k with
  | zero => intro i _; simp
  | succ m ih =>
    intro i hik
    have h1 := ih i (by omega)
    have h2 := h (i + m) (by omega)
    calc t.getD i 0 + (m + 1) * d = (t.getD i 0 + m * d) + d := by ring
    _ ≤ t.getD (i + m) 0 + d := by omega
    _ ≤ t.getD (i + m + 1) 0 := h2
    _ = t.getD (i + (m + 1)) 0 := by ring_nf

/-- Issue-time lists have one entry per request. -/
theorem issueTimes_length (arrivals : List Nat) : ∀ (last : Nat),
    (issueTimes last arrivals).length = arrivals.length := by
  induction arrivals with
  | nil => intro last; rfl
  | cons a rest ih =>
    intro last
    simp only [issueTimes, List.length_cons, ih]

end Clio

namespace Sync

/-! ### Field-level facts about the per-entity update/create data -/

theorem userUpd_key (u : ClioUserData) (x : UserRec) : (userUpd u x).clioId = x.clioId := rfl

theorem userUpd_id (u : ClioUserData) (x : UserRec) : (userUpd u x).id = x.id := rfl

theorem userUpd_idem (u : ClioUserData) (x : UserRec) :
    userUpd u (userUpd u x) = userUpd u x := rfl

theorem userUpd_mk (u : ClioUserData) (n : Nat) : userUpd u (userMk u n) = userMk u n := rfl

theorem userMk_key (u : ClioUserData) (n : Nat) : (userMk u n).clioId = toString u.id := rfl

theorem userMk_id (u : ClioUserData) (n : Nat) : (userMk u n).id = n := rfl

theorem clientUpd_key (c : ClioContactData) (x : ClientRec) :
    (clientUpd c x).clioId = x.clioId := rfl

theorem clientUpd_id (c : ClioContactData) (x : ClientRec) : (clientUpd c x).id = x.id := rfl

theorem clientUpd_idem (c : ClioContactData) (x : ClientRec) :
    clientUpd c (clientUpd c x) = clientUpd c x := rfl

theorem clientUpd_mk (c : ClioContactData) (n : Nat) :
    clientUpd c (clientMk c n) = clientMk c n := rfl

theorem clientMk_key (c : ClioContactData) (n : Nat) :
    (clientMk c n).clioId = toString c.id := rfl

theorem clientMk_id (c : ClioContactData) (n : Nat) : (clientMk c n).id = n := rfl

theorem matterUpd_key (m : ClioMatterData) (a b : Option Nat) (x : MatterRec) :
    (matterUpd m a b x).clioId = x.clioId := rfl

theorem matterUpd_id (m : ClioMatterData) (a b : Option Nat) (x : MatterRec) :
    (matterUpd m a b x).id = x.id := rfl

theorem matterUpd_idem (m : ClioMatterData) (a b : Option Nat) (x : MatterRec) :
    matterUpd m a b (matterUpd m a b x) = matterUpd m a b x := rfl

theorem matterUpd_mk (m : ClioMatterData) (a b : Option Nat) (n : Nat) :
    matterUpd m a b (matterMk m a b n) = matterMk m a b n := rfl

theorem matterMk_key (m : ClioMatterData) (a b : Option Nat) (n : Nat) :
    (matterMk m a b n).clioId = toString m.id := rfl

theorem matterMk_id (m : ClioMatterData) (a b : Option Nat) (n : Nat) :
    (matterMk m a b n).id = n := rfl

theorem billUpd_key (b : ClioBillData) (x y : Option Nat) (t : Nat) (r : BillRec) :
    (billUpd b x y t r).clioId = r.clioId := rfl

theorem billUpd_id (b : ClioBillData) (x y : Option Nat) (t : Nat) (r : BillRec) :
    (billUpd b x y t r).id = r.id := rfl

theorem billUpd_idem (b : ClioBillData) (x y : Option Nat) (t : Nat) (r : BillRec) :
    billUpd b x y t (billUpd b x y t r) = billUpd b x y t r := rfl

theorem billUpd_mk (b : ClioBillData) (x y : Option Nat) (t n : Nat) :
    billUpd b x y t (billMk b x y t n) = billMk b x y t n := rfl

theorem billMk_key (b : ClioBillData) (x y : Option Nat) (t n : Nat) :
    (billMk b x y t n).clioId = toString b.id := rfl

theorem billMk_id (b : ClioBillData) (x y : Option Nat) (t n : Nat) :
    (billMk b x y t n).id = n := rfl

theorem lineItemUpd_key (us : List UserRec) (l t : Nat) (li : ClioLineItemData)
    (x : ActivityRec) : (lineItemUpd us l t li x).clioId = x.clioId := rfl

theorem lineItemUpd_id (us : List UserRec) (l t : Nat) (li : ClioLineItemData)
    (x : ActivityRec) : (lineItemUpd us l t li x).id = x.id := rfl

theorem lineItemUpd_idem (us : List UserRec) (l t : Nat) (li : ClioLineItemData)
    (x : ActivityRec) :
    lineItemUpd us l t li (lineItemUpd us l t li x) = lineItemUpd us l t li x := rfl

theorem lineItemUpd_mk (us : List UserRec) (l t : Nat) (li : ClioLineItemData) (n : Nat) :
    lineItemUpd us l t li (lineItemMk us l t li n) = lineItemMk us l t li n := rfl

theorem lineItemMk_key (us : List UserRec) (l t : Nat) (li : ClioLineItemData) (n : Nat) :
    (lineItemMk us l t li n).clioId = lineItemKey li := rfl

theorem lineItemMk_id (us : List UserRec) (l t : Nat) (li : ClioLineItemData) (n : Nat) :
    (lineItemMk us l t li n).id = n := rfl

end Sync

/-! ### Idempotent-upsert lemmas -/

namespace Sync

section UpsertTwice

variable {α : Type} (getId : α → Nat) (getKey : α → String) (key : String)
  (upd : α → α) (mk : Nat → α)

/-- After an upsert, the key finds a row that is a fixed point of the
update and whose local id is the one the upsert returned. -/
theorem upsertRow_state
    (store : List α) (nid : Nat)
    (hK : ∀ x, getKey (upd x) = getKey x)
    (hI : ∀ x, getId (upd x) = getId x)
    (hII : ∀ x, upd (upd x) = upd x)
    (hMk : ∀ n, upd (mk n) = mk n)
    (hMkK : ∀ n, getKey (mk n) = key)
    (hMkI : ∀ n, getId (mk n) = n) :
    ∃ r, (upsertRow getId getKey store nid key upd mk).1.find?
            (fun x => getKey x == key) = some r ∧ upd r = r ∧
          getId r = (upsertRow getId getKey store nid key upd mk).2.1 := by
  unfold upsertRow
  rcases h : store.find? (fun r => getKey r == key) with _ | r
  · refine ⟨mk nid, ?_, hMk nid, hMkI nid⟩
    simp only
    rw [List.find?_append, h]
    simp [List.find?, hMkK]
  · refine ⟨upd r, ?_, hII r, hI r⟩
    simp only
    rw [List.find?_map]
    have hpf : (fun x => getKey x == key) ∘ (fun x => if getId x = getId r then upd x else x) =
        (fun x => getKey x == key) := by
      funext x
      by_cases hx : getId x = getId r <;> simp [hx, hK]
    rw [hpf, h]
    simp

/-- The second identical upsert is a no-op: same store, same local id,
nothing created, counter unchanged. -/
theorem upsertRow_twice
    (store : List α) (nid : Nat)
    (hK : ∀ x, getKey (upd x) = getKey x)
    (hI : ∀ x, getId (upd x) = getId x)
    (hII : ∀ x, upd (upd x) = upd x)
    (hMk : ∀ n, upd (mk n) = mk n)
    (hMkK : ∀ n, getKey (mk n) = key)
    (hMkI : ∀ n, getId (mk n) = n)
    (hinv : tableInv getId getKey store nid) :
    upsertRow getId getKey
        (upsertRow getId getKey store nid key upd mk).1
        (upsertRow getId getKey store nid key upd mk).2.2.2 key upd mk =
      ((upsertRow getId getKey store nid key upd mk).1,
       (upsertRow getId getKey store nid key upd mk).2.1,
       false,
       (upsertRow getId getKey store nid key upd mk).2.2.2) := by
  obtain ⟨r, hr, hfix, hid⟩ :=
    upsertRow_state getId getKey key upd mk store nid hK hI hII hMk hMkK hMkI
  have hinv' := (upsertRow_tableInv getId getKey store nid key upd mk hK hI hMkK hMkI hinv).1
  rw [upsertRow_noop getId getKey key upd mk _ _ r hr hfix hinv'.2.1, hid]

end UpsertTwice

/-- A table invariant survives a counter increase. -/
theorem tableInv_mono {α : Type} (getId : α → Nat) (getKey : α → String)
    (store : List α) (n n' : Nat) (h : tableInv getId getKey store n) (hle : n ≤ n') :
    tableInv getId getKey store n' :=
  ⟨fun x hx => lt_of_lt_of_le (h.1 x hx) hle, h.2.1, h.2.2⟩

/-- `syncClient` preserves the store invariant. -/
theorem syncClient_inv (env : SyncEnv) (db : DB) (cid : Nat) (h : dbInv db) :
    dbInv (syncClient env db cid).1 := by
  rcases hc : env.getContact cid with e | contact
  · simpa [syncClient, hc] using h
  · obtain ⟨hu, hcl, hm, hb, ha⟩ := h
    have hup := upsertRow_tableInv (·.id) (·.clioId) db.clients db.nextId
      (toString contact.id) (clientUpd contact) (clientMk contact)
      (clientUpd_key contact) (clientUpd_id contact) (clientMk_key contact)
      (clientMk_id contact) hcl
    simp only [syncClient, hc]
    exact ⟨tableInv_mono _ _ _ _ _ hu hup.2, hup.1,
      tableInv_mono _ _ _ _ _ hm hup.2, tableInv_mono _ _ _ _ _ hb hup.2,
      tableInv_mono _ _ _ _ _ ha hup.2⟩

/-- `syncMatter` preserves the store invariant. -/
theorem syncMatter_inv (env : SyncEnv) (db : DB) (mid : Nat) (h : dbInv db) :
    dbInv (syncMatter env db mid).1 := by
  rcases hm : env.getMatter mid with e | matter
  · simpa [syncMatter, hm] using h
  · rcases hcid : matter.client_id with _ | cid
    · obtain ⟨hu, hcl, hmi, hb, ha⟩ := h
      have hup := upsertRow_tableInv (·.id) (·.clioId) db.matters db.nextId
        (toString matter.id)
        (matterUpd matter none (match matter.responsible_attorney_id with
          | some aid => (db.users.find? (fun u => u.clioId == toString aid)).map (fun x => x.id)
          | none => none))
        (matterMk matter none (match matter.responsible_attorney_id with
          | some aid => (db.users.find? (fun u => u.clioId == toString aid)).map (fun x => x.id)
          | none => none))
        (matterUpd_key matter none (match matter.responsible_attorney_id with
          | some aid => (db.users.find? (fun u => u.clioId == toString aid)).map (fun x => x.id)
          | none => none))
        (matterUpd_id matter none (match matter.responsible_attorney_id with
          | some aid => (db.users.find? (fun u => u.clioId == toString aid)).map (fun x => x.id)
          | none => none))
        (matterMk_key matter none (match matter.responsible_attorney_id with
          | some aid => (db.users.find? (fun u => u.clioId == toString aid)).map (fun x => x.id)
          | none => none))
        (matterMk_id matter none (match matter.responsible_attorney_id with
          | some aid => (db.users.find? (fun u => u.clioId == toString aid)).map (fun x => x.id)
          | none => none)) hmi
      simp only [syncMatter, hm, hcid]
      exact ⟨tableInv_mono _ _ _ _ _ hu hup.2, tableInv_mono _ _ _ _ _ hcl hup.2,
        hup.1, tableInv_mono _ _ _ _ _ hb hup.2, tableInv_mono _ _ _ _ _ ha hup.2⟩
    · have h1 := syncClient_inv env db cid h
      obtain ⟨hu, hcl, hmi, hb, ha⟩ := h1
      have hup := upsertRow_tableInv (·.id) (·.clioId) (syncClient env db cid).1.matters
        (syncClient env db cid).1.nextId (toString matter.id)
        (matterUpd matter (syncClient env db cid).2 (match matter.responsible_attorney_id with
          | some aid => ((syncClient env db cid).1.users.find? (fun u => u.clioId == toString aid)).map (fun x => x.id)
          | none => none))
        (matterMk matter (syncClient env db cid).2 (match matter.responsible_attorney_id with
          | some aid => ((syncClient env db cid).1.users.find? (fun u => u.clioId == toString aid)).map (fun x => x.id)
          | none => none))
        (matterUpd_key matter (syncClient env db cid).2 (match matter.responsible_attorney_id with
          | some aid => ((syncClient env db cid).1.users.find? (fun u => u.clioId == toString aid)).map (fun x => x.id)
          | none => none))
        (matterUpd_id matter (syncClient env db cid).2 (match matter.responsible_attorney_id with
          | some aid => ((syncClient env db cid).1.users.find? (fun u => u.clioId == toString aid)).map (fun x => x.id)
          | none => none))
        (matterMk_key matter (syncClient env db cid).2 (match matter.responsible_attorney_id with
          | some aid => ((syncClient env db cid).1.users.find? (fun u => u.clioId == toString aid)).map (fun x => x.id)
          | none => none))
        (matterMk_id matter (syncClient env db cid).2 (match matter.responsible_attorney_id with
          | some aid => ((syncClient env db cid).1.users.find? (fun u => u.clioId == toString aid)).map (fun x => x.id)
          | none => none)) hmi
      simp only [syncMatter, hm, hcid]
      exact ⟨tableInv_mono _ _ _ _ _ hu hup.2, tableInv_mono _ _ _ _ _ hcl hup.2,
        hup.1, tableInv_mono _ _ _ _ _ hb hup.2, tableInv_mono _ _ _ _ _ ha hup.2⟩

end Sync
namespace Sync

/-- Running `syncClient` a second time against unchanged remote data is
a complete no-op: same store and same returned local id. -/
theorem syncClient_twice (env : SyncEnv) (db : DB) (cid : Nat) (h : dbInv db) :
    syncClient env (syncClient env db cid).1 cid = syncClient env db cid := by
  rcases hc : env.getContact cid with e | contact
  · simp [syncClient, hc]
  · have h2 := upsertRow_twice (·.id) (·.clioId) (toString contact.id)
      (clientUpd contact) (clientMk contact) db.clients db.nextId
      (clientUpd_key contact) (clientUpd_id contact) (clientUpd_idem contact)
      (clientUpd_mk contact) (clientMk_key contact) (clientMk_id contact) h.2.1
    simp only [syncClient, hc]
    rw [h2]

end Sync
namespace Sync

/-- If the contact's row is already in sync, `syncClient` is a no-op
returning that row's local id. -/
theorem syncClient_noop (env : SyncEnv) (X : DB) (cid : Nat)
    (contact : ClioContactData) (r : ClientRec)
    (hc : env.getContact cid = .ok contact)
    (hfind : X.clients.find? (fun x => x.clioId == toString contact.id) = some r)
    (hfix : clientUpd contact r = r)
    (hids : (X.clients.map (·.id)).Nodup) :
    syncClient env X cid = (X, some r.id) := by
  simp only [syncClient, hc]
  rw [upsertRow_noop (·.id) (·.clioId) (toString contact.id) (clientUpd contact)
    (clientMk contact) X.clients X.nextId r hfind hfix hids]

/-- After `syncClient`, the contact's row is in sync and its local id is
the returned one. -/
theorem syncClient_state (env : SyncEnv) (db : DB) (cid : Nat)
    (contact : ClioContactData)
    (hc : env.getContact cid = .ok contact) :
    ∃ r, (syncClient env db cid).1.clients.find?
        (fun x => x.clioId == toString contact.id) = some r ∧
      clientUpd contact r = r ∧ (syncClient env db cid).2 = some r.id := by
  obtain ⟨r, hr, hfix, hid⟩ := upsertRow_state (·.id) (·.clioId) (toString contact.id)
    (clientUpd contact) (clientMk contact) db.clients db.nextId
    (clientUpd_key contact) (clientUpd_id contact) (clientUpd_idem contact)
    (clientUpd_mk contact) (clientMk_key contact) (clientMk_id contact)
  refine ⟨r, ?_, hfix, ?_⟩
  · simp only [syncClient, hc]
    exact hr
  · simp only [syncClient, hc, hid]

end Sync
namespace Sync

/-- If every row `syncMatter` would touch is already in sync,
`syncMatter` is a no-op returning the matter row's local id. -/
theorem syncMatter_ok_noop (env : SyncEnv) (X : DB) (mid cid : Nat)
    (matter : ClioMatterData) (contact : ClioContactData)
    (rc : ClientRec) (rm : MatterRec)
    (hm : env.getMatter mid = .ok matter)
    (hcid : matter.client_id = some cid)
    (hcc : env.getContact cid = .ok contact)
    (hfindc : X.clients.find? (fun x => x.clioId == toString contact.id) = some rc)
    (hfixc : clientUpd contact rc = rc)
    (hidsc : (X.clients.map (fun x => x.id)).Nodup)
    (hfindm : X.matters.find? (fun x => x.clioId == toString matter.id) = some rm)
    (hfixm : matterUpd matter (some rc.id)
      (match matter.responsible_attorney_id with
        | some aid => (X.users.find? (fun u => u.clioId == toString aid)).map (fun x => x.id)
        | none => none) rm = rm)
    (hidsm : (X.matters.map (fun x => x.id)).Nodup) :
    syncMatter env X mid = (X, some rm.id) := by
  simp only [syncMatter, hm, hcid]
  rw [syncClient_noop env X cid contact rc hcc hfindc hfixc hidsc]
  rw [upsertRow_noop (·.id) (·.clioId) (toString matter.id) _ _ X.matters X.nextId rm
    hfindm hfixm hidsm]

/-- After `syncMatter` (with a client present), the matter row is in
sync with the resolved foreign keys and its local id is the returned
one. -/
theorem syncMatter_state (env : SyncEnv) (db : DB) (mid cid : Nat)
    (matter : ClioMatterData)
    (hm : env.getMatter mid = .ok matter)
    (hcid : matter.client_id = some cid) :
    ∃ rm, (syncMatter env db mid).1.matters.find?
        (fun x => x.clioId == toString matter.id) = some rm ∧
      matterUpd matter (syncClient env db cid).2
        (match matter.responsible_attorney_id with
          | some aid => ((syncClient env db cid).1.users.find?
              (fun u => u.clioId == toString aid)).map (fun x => x.id)
          | none => none) rm = rm ∧
      (syncMatter env db mid).2 = some rm.id := by
  obtain ⟨rm, hrm, hfix, hid⟩ := upsertRow_state (·.id) (·.clioId) (toString matter.id)
    (matterUpd matter (syncClient env db cid).2
      (match matter.responsible_attorney_id with
        | some aid => ((syncClient env db cid).1.users.find?
            (fun u => u.clioId == toString aid)).map (fun x => x.id)
        | none => none))
    (matterMk matter (syncClient env db cid).2
      (match matter.responsible_attorney_id with
        | some aid => ((syncClient env db cid).1.users.find?
            (fun u => u.clioId == toString aid)).map (fun x => x.id)
        | none => none))
    (syncClient env db cid).1.matters (syncClient env db cid).1.nextId
    (matterUpd_key matter _ _) (matterUpd_id matter _ _) (matterUpd_idem matter _ _)
    (matterUpd_mk matter _ _) (matterMk_key matter _ _) (matterMk_id matter _ _)
  refine ⟨rm, ?_, hfix, ?_⟩
  · simp only [syncMatter, hm, hcid]
    exact hrm
  · simp only [syncMatter, hm, hcid]
    exact congrArg some hid.symm

/-- The hard branch of `syncMatter_twice`: remote matter and contact
both resolve. -/
theorem syncMatter_twice_okclient (env : SyncEnv) (db : DB) (mid cid : Nat)
    (matter : ClioMatterData) (contact : ClioContactData) (h : dbInv db)
    (hm : env.getMatter mid = .ok matter)
    (hcid : matter.client_id = some cid)
    (hcc : env.getContact cid = .ok contact) :
    syncMatter env (syncMatter env db mid).1 mid = syncMatter env db mid := by
  obtain ⟨rc, hrcfind, hrcfix, hrcid⟩ := syncClient_state env db cid contact hcc
  obtain ⟨rm, hrmfind, hrmfix, hrmid⟩ :=
    syncMatter_state env db mid cid matter hm hcid
  have hinv1 := syncClient_inv env db cid h
  have hinvX := syncMatter_inv env db mid h
  have hXc : (syncMatter env db mid).1.clients = (syncClient env db cid).1.clients := by
    simp only [syncMatter, hm, hcid]
  have hXu : (syncMatter env db mid).1.users = (syncClient env db cid).1.users := by
    simp only [syncMatter, hm, hcid]
  have hres := syncMatter_ok_noop env (syncMatter env db mid).1 mid cid matter contact rc rm
    hm hcid hcc
    (by rw [hXc]; exact hrcfind) hrcfix (by rw [hXc]; exact hinv1.2.1.2.1)
    hrmfind
    (by rw [hXu, ← hrcid]; exact hrmfix)
    hinvX.2.2.1.2.1
  rw [hres, ← hrmid]

/-- Running `syncMatter` a second time against unchanged remote data is
a complete no-op: same store and same returned local id. -/
theorem syncMatter_twice (env : SyncEnv) (db : DB) (mid : Nat) (h : dbInv db) :
    syncMatter env (syncMatter env db mid).1 mid = syncMatter env db mid := by
  rcases hm : env.getMatter mid with e | matter
  · simp [syncMatter, hm]
  · rcases hcid : matter.client_id with _ | cid
    · have h2 := upsertRow_twice (·.id) (·.clioId) (toString matter.id)
        (matterUpd matter none (match matter.responsible_attorney_id with
          | some aid => (db.users.find? (fun u => u.clioId == toString aid)).map (fun x => x.id)
          | none => none))
        (matterMk matter none (match matter.responsible_attorney_id with
          | some aid => (db.users.find? (fun u => u.clioId == toString aid)).map (fun x => x.id)
          | none => none))
        db.matters db.nextId
        (matterUpd_key matter none _) (matterUpd_id matter none _)
        (matterUpd_idem matter none _) (matterUpd_mk matter none _)
        (matterMk_key matter none _) (matterMk_id matter none _) h.2.2.1
      simp only [syncMatter, hm, hcid]
      rw [h2]
    · rcases hcc : env.getContact cid with ec | contact
      · -- the client sync fails both times and returns none
        have h2 := upsertRow_twice (·.id) (·.clioId) (toString matter.id)
          (matterUpd matter none (match matter.responsible_attorney_id with
            | some aid => (db.users.find? (fun u => u.clioId == toString aid)).map (fun x => x.id)
            | none => none))
          (matterMk matter none (match matter.responsible_attorney_id with
            | some aid => (db.users.find? (fun u => u.clioId == toString aid)).map (fun x => x.id)
            | none => none))
          db.matters db.nextId
          (matterUpd_key matter none _) (matterUpd_id matter none _)
          (matterUpd_idem matter none _) (matterUpd_mk matter none _)
          (matterMk_key matter none _) (matterMk_id matter none _) h.2.2.1
        simp only [syncMatter, hm, hcid, syncClient, hcc]
        rw [h2]
      · exact syncMatter_twice_okclient env db mid cid matter contact h hm hcid hcc

end Sync
namespace Sync

/-- The `users` table and counter after `syncUsers` (fetch ok). -/
theorem syncUsers_users_eq (env : SyncEnv) (now : Nat) (db : DB)
    (L : List ClioUserData) (hok : env.getAllUsers = .ok L) :
    (syncUsers env now db).1.users =
      (upsertLoop (·.id) (·.clioId) (fun u => toString u.id) userUpd userMk
        db.users (db.nextId + 1) L).1 ∧
    (syncUsers env now db).1.nextId =
      (upsertLoop (·.id) (·.clioId) (fun u => toString u.id) userUpd userMk
        db.users (db.nextId + 1) L).2.1 ∧
    (syncUsers env now db).2.recordsCreated =
      (upsertLoop (·.id) (·.clioId) (fun u => toString u.id) userUpd userMk
        db.users (db.nextId + 1) L).2.2.2.1 := by
  simp only [syncUsers, hok]
  rw [syncUsersLoop_eq]
  exact ⟨rfl, rfl, rfl⟩

/-- Running the user pass a second time against unchanged remote data
leaves the user table unchanged and creates zero records. -/
theorem syncUsers_twice (env : SyncEnv) (now now2 : Nat) (db : DB)
    (L : List ClioUserData) (h : dbInv db) (hok : env.getAllUsers = .ok L)
    (hnodup : (L.map (fun u => toString u.id)).Nodup) :
    (syncUsers env now2 (syncUsers env now db).1).1.users =
      (syncUsers env now db).1.users ∧
    (syncUsers env now2 (syncUsers env now db).1).2.recordsCreated = 0 := by
  have hinv0 : tableInv (·.id) (·.clioId) db.users (db.nextId + 1) :=
    tableInv_mono _ _ _ _ _ h.1 (by omega)
  have hdone := upsertLoop_done (·.id) (·.clioId) (fun u => toString u.id) userUpd userMk
    userUpd_key userUpd_id userUpd_idem userUpd_mk userMk_key userMk_id
    L db.users (db.nextId + 1) hinv0 hnodup
  have hinv1 := upsertLoop_tableInv (·.id) (·.clioId) (fun u => toString u.id) userUpd userMk
    userUpd_key userUpd_id userMk_key userMk_id L db.users (db.nextId + 1) hinv0
  have h1 := syncUsers_users_eq env now db L hok
  have h2 := syncUsers_users_eq env now2 (syncUsers env now db).1 L hok
  have hnoop := upsertLoop_noop (·.id) (·.clioId) (fun u => toString u.id) userUpd userMk
    L (upsertLoop (·.id) (·.clioId) (fun u => toString u.id) userUpd userMk
        db.users (db.nextId + 1) L).1
    ((syncUsers env now db).1.nextId + 1)
    hinv1.1.2.1 hdone
  constructor
  · rw [h2.1, h1.1, hnoop]
  · rw [h2.2.2, h1.1, hnoop]

end Sync
namespace Sync

section FindFound

variable {α : Type} (getId : α → Nat) (getKey : α → String) (key : String)
  (upd : α → α) (mk : Nat → α)

/-- When the key was already present, the upsert leaves its (updated)
row findable, with the same local id. -/
theorem upsertRow_find_found
    (store : List α) (nid : Nat) (r : α)
    (hfind : store.find? (fun x => getKey x == key) = some r)
    (hK : ∀ x, getKey (upd x) = getKey x) :
    (upsertRow getId getKey store nid key upd mk).1.find?
        (fun x => getKey x == key) = some (upd r) := by
  unfold upsertRow
  rw [hfind]
  simp only
  rw [List.find?_map]
  have hpf : (fun x => getKey x == key) ∘ (fun x => if getId x = getId r then upd x else x) =
      (fun x => getKey x == key) := by
    funext x
    by_cases hx : getId x = getId r <;> simp [hx, hK]
  rw [hpf, hfind]
  simp

end FindFound

/-- Another `syncClient` call (for any contact id) keeps an in-sync
contact row in sync, with its local id, provided the remote contact
payloads are id-consistent. -/
theorem syncClient_keeps_done (env : SyncEnv) (X : DB) (cid2 cidc : Nat)
    (contact : ClioContactData) (r : ClientRec)
    (henv : contactsConsistent env)
    (hcc : env.getContact cidc = .ok contact)
    (hfind : X.clients.find? (fun x => x.clioId == toString contact.id) = some r)
    (hfix : clientUpd contact r = r)
    (hids : (X.clients.map (fun x => x.id)).Nodup) :
    ∃ r', (syncClient env X cid2).1.clients.find?
        (fun x => x.clioId == toString contact.id) = some r' ∧
      clientUpd contact r' = r' ∧ r'.id = r.id := by
  rcases hc2 : env.getContact cid2 with e | c2
  · exact ⟨r, by simpa [syncClient, hc2] using hfind, hfix, rfl⟩
  · by_cases hkey : toString c2.id = toString contact.id
    · have hc2eq : c2 = contact := henv cid2 cidc c2 contact hc2 hcc hkey
      subst hc2eq
      refine ⟨clientUpd c2 r, ?_, ?_, ?_⟩
      · simp only [syncClient, hc2]
        exact upsertRow_find_found (·.id) (·.clioId) (toString c2.id) (clientUpd c2)
          (clientMk c2) X.clients X.nextId r hfind (clientUpd_key c2)
      · rw [hfix, hfix]
      · rw [hfix]
    · refine ⟨r, ?_, hfix, rfl⟩
      simp only [syncClient, hc2]
      exact upsertRow_find_other (·.id) (·.clioId) X.clients X.nextId
        (toString contact.id) (toString c2.id) (clientUpd c2) (clientMk c2) r
        hkey hfind (clientUpd_key c2) hids

end Sync
namespace Sync

/-- A remote-id lookup in a table with unique remote ids matches at most
one row. -/
theorem nodup_filter_le_one {α : Type} (getKey : α → String) (store : List α)
    (key : String) (h : (store.map getKey).Nodup) :
    (store.filter (fun x => getKey x == key)).length ≤ 1 := by
  induction store with
  | nil => simp
  | cons a rest ih =>
    simp only [List.map_cons, List.nodup_cons] at h
    by_cases ha : getKey a == key
    · have hrest : rest.filter (fun x => getKey x == key) = [] := by
        rw [List.filter_eq_nil_iff]
        intro b hb hbk
        apply h.1
        have : getKey b = getKey a := by
          simp only [beq_iff_eq] at ha hbk
          rw [hbk, ha]
        exact this ▸ List.mem_map_of_mem getKey hb
      simp [List.filter_cons, ha, hrest]
    · simpa [List.filter_cons, ha] using ih h.2

/-- `syncBillLineItems` preserves the store invariant. -/
theorem syncBillLineItems_inv (env : SyncEnv) (now : Nat) (db : DB)
    (cbid lbid : Nat) (h : dbInv db) :
    dbInv (syncBillLineItems env now db cbid lbid).1 := by
  rcases hl : env.getAllBillLineItems cbid with e | items
  · simpa [syncBillLineItems, hl] using h
  · obtain ⟨hu, hcl, hm, hb, ha⟩ := h
    have hup := upsertLoop_tableInv (·.id) (·.clioId) lineItemKey
      (lineItemUpd db.users lbid now) (lineItemMk db.users lbid now)
      (lineItemUpd_key db.users lbid now) (lineItemUpd_id db.users lbid now)
      (lineItemMk_key db.users lbid now) (lineItemMk_id db.users lbid now)
      items db.activities db.nextId ha
    simp only [syncBillLineItems, hl]
    rw [lineItemsLoop_eq]
    exact ⟨tableInv_mono _ _ _ _ _ hu hup.2, tableInv_mono _ _ _ _ _ hcl hup.2,
      tableInv_mono _ _ _ _ _ hm hup.2, tableInv_mono _ _ _ _ _ hb hup.2, hup.1⟩

/-- `syncBillUpsert` preserves the store invariant. -/
theorem syncBillUpsert_inv (env : SyncEnv) (now : Nat) (cb : ClioBillData)
    (mId cId : Option Nat) (cbid : Nat) (db2 : DB) (h : dbInv db2) :
    dbInv (syncBillUpsert env now cb mId cId cbid db2).1 := by
  obtain ⟨hu, hcl, hm, hb, ha⟩ := h
  have hup := upsertRow_tableInv (·.id) (·.clioId) db2.bills db2.nextId
    (toString cb.id) (billUpd cb mId cId now) (billMk cb mId cId now)
    (billUpd_key cb mId cId now) (billUpd_id cb mId cId now)
    (billMk_key cb mId cId now) (billMk_id cb mId cId now) ⟨hb.1, hb.2.1, hb.2.2⟩
  have h3 : dbInv { db2 with
      bills := (upsertRow (·.id) (·.clioId) db2.bills db2.nextId (toString cb.id)
        (billUpd cb mId cId now) (billMk cb mId cId now)).1
      nextId := (upsertRow (·.id) (·.clioId) db2.bills db2.nextId (toString cb.id)
        (billUpd cb mId cId now) (billMk cb mId cId now)).2.2.2 } :=
    ⟨tableInv_mono _ _ _ _ _ hu hup.2, tableInv_mono _ _ _ _ _ hcl hup.2,
     tableInv_mono _ _ _ _ _ hm hup.2, hup.1, tableInv_mono _ _ _ _ _ ha hup.2⟩
  exact syncBillLineItems_inv env now _ cbid _ h3

/-- `syncBill` preserves the store invariant. -/
theorem syncBill_inv (env : SyncEnv) (now : Nat) (db : DB) (cbid : Nat)
    (h : dbInv db) : dbInv (syncBill env now db cbid).1 := by
  rcases hbill : env.getBill cbid with e | cb
  · simpa [syncBill, hbill] using h
  · simp only [syncBill, hbill]
    rcases hm : cb.matter_id with _ | mid <;> rcases hc : cb.client_id with _ | cid <;>
      simp only
    · exact syncBillUpsert_inv env now cb none none cbid db h
    · exact syncBillUpsert_inv env now cb none _ cbid _ (syncClient_inv env db cid h)
    · exact syncBillUpsert_inv env now cb _ none cbid _ (syncMatter_inv env db mid h)
    · exact syncBillUpsert_inv env now cb _ _ cbid _
        (syncClient_inv env _ cid (syncMatter_inv env db mid h))

end Sync
namespace Sync

/-- After `syncMatter` with no related client, the matter row is in sync
(attorney resolved against the unchanged user table). -/
theorem syncMatter_state_none (env : SyncEnv) (db : DB) (mid : Nat)
    (matter : ClioMatterData)
    (hm : env.getMatter mid = .ok matter)
    (hcid : matter.client_id = none) :
    ∃ rm, (syncMatter env db mid).1.matters.find?
        (fun x => x.clioId == toString matter.id) = some rm ∧
      matterUpd matter none
        (match matter.responsible_attorney_id with
          | some aid => (db.users.find? (fun u => u.clioId == toString aid)).map (fun x => x.id)
          | none => none) rm = rm ∧
      (syncMatter env db mid).2 = some rm.id := by
  obtain ⟨rm, hrm, hfix, hid⟩ := upsertRow_state (·.id) (·.clioId) (toString matter.id)
    (matterUpd matter none
      (match matter.responsible_attorney_id with
        | some aid => (db.users.find? (fun u => u.clioId == toString aid)).map (fun x => x.id)
        | none => none))
    (matterMk matter none
      (match matter.responsible_attorney_id with
        | some aid => (db.users.find? (fun u => u.clioId == toString aid)).map (fun x => x.id)
        | none => none))
    db.matters db.nextId
    (matterUpd_key matter none _) (matterUpd_id matter none _) (matterUpd_idem matter none _)
    (matterUpd_mk matter none _) (matterMk_key matter none _) (matterMk_id matter none _)
  refine ⟨rm, ?_, hfix, ?_⟩
  · simp only [syncMatter, hm, hcid]
    exact hrm
  · simp only [syncMatter, hm, hcid]
    exact congrArg some hid.symm

/-- If the inner client sync leaves the store untouched and the matter
row is already in sync with the resolved foreign keys, `syncMatter` is a
no-op returning the matter row's local id. -/
theorem syncMatter_gen_noop (env : SyncEnv) (X : DB) (mid : Nat)
    (matter : ClioMatterData) (cres : Option Nat) (rm : MatterRec)
    (hm : env.getMatter mid = .ok matter)
    (hcl : (match matter.client_id with
            | some cid => syncClient env X cid
            | none => (X, none)) = (X, cres))
    (hfindm : X.matters.find? (fun x => x.clioId == toString matter.id) = some rm)
    (hfixm : matterUpd matter cres
      (match matter.responsible_attorney_id with
        | some aid => (X.users.find? (fun u => u.clioId == toString aid)).map (fun x => x.id)
        | none => none) rm = rm)
    (hidsm : (X.matters.map (fun x => x.id)).Nodup) :
    syncMatter env X mid = (X, some rm.id) := by
  simp only [syncMatter, hm, hcl]
  rw [upsertRow_noop (·.id) (·.clioId) (toString matter.id) _ _ X.matters X.nextId rm
    hfindm hfixm hidsm]

end Sync
namespace Sync

/-- Replaying `syncMatter` at a later store `X` that still holds the
rows the first run produced (matter row intact, client rows possibly
re-updated but in sync, user table unchanged) is a no-op returning the
first run's local matter id. -/
theorem syncMatter_replay (env : SyncEnv) (db X : DB) (mid : Nat)
    (hinvX : dbInv X)
    (husers : X.users = db.users)
    (hmatters : X.matters = (syncMatter env db mid).1.matters)
    (hkeep : ∀ cidc contact r,
        env.getContact cidc = .ok contact →
        (syncMatter env db mid).1.clients.find?
          (fun x => x.clioId == toString contact.id) = some r →
        clientUpd contact r = r →
        ∃ r', X.clients.find? (fun x => x.clioId == toString contact.id) = some r' ∧
          clientUpd contact r' = r' ∧ r'.id = r.id) :
    syncMatter env X mid = (X, (syncMatter env db mid).2) := by
  rcases hm : env.getMatter mid with e | matter
  · simp [syncMatter, hm]
  · rcases hcid : matter.client_id with _ | cidm
    · obtain ⟨rm, hrm, hfix, hid⟩ := syncMatter_state_none env db mid matter hm hcid
      rw [hid]
      exact syncMatter_gen_noop env X mid matter none rm hm (by rw [hcid])
        (by rw [hmatters]; exact hrm) (by rw [husers]; exact hfix) hinvX.2.2.1.2.1
    · obtain ⟨rm, hrm, hfix, hid⟩ := syncMatter_state env db mid cidm matter hm hcid
      rw [hid]
      rcases hc2 : env.getContact cidm with ec | contact
      · have hscdb : syncClient env db cidm = (db, none) := by simp [syncClient, hc2]
        have hscX : syncClient env X cidm = (X, none) := by simp [syncClient, hc2]
        rw [hscdb] at hfix
        exact syncMatter_gen_noop env X mid matter none rm hm (by rw [hcid]; exact hscX)
          (by rw [hmatters]; exact hrm)
          (by rw [husers]; exact hfix) hinvX.2.2.1.2.1
      · obtain ⟨rc, hrcfind, hrcfix, hrcid⟩ := syncClient_state env db cidm contact hc2
        have hrcfind' : (syncMatter env db mid).1.clients.find?
            (fun x => x.clioId == toString contact.id) = some rc := by
          simp only [syncMatter, hm, hcid]
          exact hrcfind
        obtain ⟨r', hfind', hfix', hid'⟩ := hkeep cidm contact rc hc2 hrcfind' hrcfix
        have hscX : syncClient env X cidm = (X, some r'.id) :=
          syncClient_noop env X cidm contact r' hc2 hfind' hfix' hinvX.2.1.2.1
        have husers2 : (syncClient env db cidm).1.users = db.users :=
          (syncClient_frame env db cidm).1
        rw [hrcid, husers2] at hfix
        exact syncMatter_gen_noop env X mid matter (some r'.id) rm hm
          (by rw [hcid]; exact hscX)
          (by rw [hmatters]; exact hrm)
          (by rw [husers, hid']; exact hfix) hinvX.2.2.1.2.1

end Sync
namespace Sync

/-- `syncBillLineItems` on a successful fetch, written out as the
generic loop. -/
theorem syncBillLineItems_eq2 (env : SyncEnv) (now : Nat) (db : DB)
    (cbid lbid : Nat) (items : List ClioLineItemData)
    (h : env.getAllBillLineItems cbid = .ok items) :
    syncBillLineItems env now db cbid lbid =
      ({ db with
          activities := (upsertLoop (fun x => x.id) (fun x => x.clioId) lineItemKey
            (lineItemUpd db.users lbid now) (lineItemMk db.users lbid now)
            db.activities db.nextId items).1
          nextId := (upsertLoop (fun x => x.id) (fun x => x.clioId) lineItemKey
            (lineItemUpd db.users lbid now) (lineItemMk db.users lbid now)
            db.activities db.nextId items).2.1 },
       ⟨true,
        (upsertLoop (fun x => x.id) (fun x => x.clioId) lineItemKey
            (lineItemUpd db.users lbid now) (lineItemMk db.users lbid now)
            db.activities db.nextId items).2.2.1,
        (upsertLoop (fun x => x.id) (fun x => x.clioId) lineItemKey
            (lineItemUpd db.users lbid now) (lineItemMk db.users lbid now)
            db.activities db.nextId items).2.2.2.1,
        (upsertLoop (fun x => x.id) (fun x => x.clioId) lineItemKey
            (lineItemUpd db.users lbid now) (lineItemMk db.users lbid now)
            db.activities db.nextId items).2.2.2.2,
        []⟩) := by
  simp only [syncBillLineItems, h]
  rw [lineItemsLoop_eq]

/-- Running the line-item pass a second time for the same bill is a
no-op that creates nothing. -/
theorem syncBillLineItems_twice (env : SyncEnv) (now : Nat) (db : DB)
    (cbid lbid : Nat) (hinv : dbInv db)
    (hli : ∀ items, env.getAllBillLineItems cbid = .ok items →
      (items.map lineItemKey).Nodup) :
    (syncBillLineItems env now (syncBillLineItems env now db cbid lbid).1 cbid lbid).1 =
      (syncBillLineItems env now db cbid lbid).1 ∧
    (syncBillLineItems env now
        (syncBillLineItems env now db cbid lbid).1 cbid lbid).2.recordsCreated = 0 := by
  rcases hlitems : env.getAllBillLineItems cbid with e | items
  · simp [syncBillLineItems, hlitems]
  · have hdone := upsertLoop_done (·.id) (·.clioId) lineItemKey
      (lineItemUpd db.users lbid now) (lineItemMk db.users lbid now)
      (lineItemUpd_key db.users lbid now) (lineItemUpd_id db.users lbid now)
      (lineItemUpd_idem db.users lbid now) (lineItemUpd_mk db.users lbid now)
      (lineItemMk_key db.users lbid now) (lineItemMk_id db.users lbid now)
      items db.activities db.nextId hinv.2.2.2.2 (hli items hlitems)
    have hinvL := upsertLoop_tableInv (·.id) (·.clioId) lineItemKey
      (lineItemUpd db.users lbid now) (lineItemMk db.users lbid now)
      (lineItemUpd_key db.users lbid now) (lineItemUpd_id db.users lbid now)
      (lineItemMk_key db.users lbid now) (lineItemMk_id db.users lbid now)
      items db.activities db.nextId hinv.2.2.2.2
    have hnoop := upsertLoop_noop (·.id) (·.clioId) lineItemKey
      (lineItemUpd db.users lbid now) (lineItemMk db.users lbid now)
      items
      (upsertLoop (fun x => x.id) (fun x => x.clioId) lineItemKey
        (lineItemUpd db.users lbid now) (lineItemMk db.users lbid now)
        db.activities db.nextId items).1
      (upsertLoop (fun x => x.id) (fun x => x.clioId) lineItemKey
        (lineItemUpd db.users lbid now) (lineItemMk db.users lbid now)
        db.activities db.nextId items).2.1
      hinvL.1.2.1 hdone
    have h1 := syncBillLineItems_eq2 env now db cbid lbid items hlitems
    have h2 := syncBillLineItems_eq2 env now
      (syncBillLineItems env now db cbid lbid).1 cbid lbid items hlitems
    simp only [h1] at h2
    rw [hnoop] at h2
    simp only [h1]
    rw [h2]
    exact ⟨rfl, rfl⟩

end Sync
namespace Sync

/-- `syncBillUpsert`, written out. -/
theorem syncBillUpsert_eq (env : SyncEnv) (now : Nat) (cb : ClioBillData)
    (mId cId : Option Nat) (cbid : Nat) (db2 : DB) :
    syncBillUpsert env now cb mId cId cbid db2 =
      ((syncBillLineItems env now
          { db2 with
              bills := (upsertRow (fun x => x.id) (fun x => x.clioId) db2.bills db2.nextId
                (toString cb.id) (billUpd cb mId cId now) (billMk cb mId cId now)).1
              nextId := (upsertRow (fun x => x.id) (fun x => x.clioId) db2.bills db2.nextId
                (toString cb.id) (billUpd cb mId cId now) (billMk cb mId cId now)).2.2.2 }
          cbid
          (upsertRow (fun x => x.id) (fun x => x.clioId) db2.bills db2.nextId
            (toString cb.id) (billUpd cb mId cId now) (billMk cb mId cId now)).2.1).1,
       ⟨true,
        1 + (syncBillLineItems env now
          { db2 with
              bills := (upsertRow (fun x => x.id) (fun x => x.clioId) db2.bills db2.nextId
                (toString cb.id) (billUpd cb mId cId now) (billMk cb mId cId now)).1
              nextId := (upsertRow (fun x => x.id) (fun x => x.clioId) db2.bills db2.nextId
                (toString cb.id) (billUpd cb mId cId now) (billMk cb mId cId now)).2.2.2 }
          cbid
          (upsertRow (fun x => x.id) (fun x => x.clioId) db2.bills db2.nextId
            (toString cb.id) (billUpd cb mId cId now) (billMk cb mId cId now)).2.1).2.recordsProcessed,
        (if (upsertRow (fun x => x.id) (fun x => x.clioId) db2.bills db2.nextId
            (toString cb.id) (billUpd cb mId cId now) (billMk cb mId cId now)).2.2.1
          then 1 else 0) +
          (syncBillLineItems env now
          { db2 with
              bills := (upsertRow (fun x => x.id) (fun x => x.clioId) db2.bills db2.nextId
                (toString cb.id) (billUpd cb mId cId now) (billMk cb mId cId now)).1
              nextId := (upsertRow (fun x => x.id) (fun x => x.clioId) db2.bills db2.nextId
                (toString cb.id) (billUpd cb mId cId now) (billMk cb mId cId now)).2.2.2 }
          cbid
          (upsertRow (fun x => x.id) (fun x => x.clioId) db2.bills db2.nextId
            (toString cb.id) (billUpd cb mId cId now) (billMk cb mId cId now)).2.1).2.recordsCreated,
        (if (upsertRow (fun x => x.id) (fun x => x.clioId) db2.bills db2.nextId
            (toString cb.id) (billUpd cb mId cId now) (billMk cb mId cId now)).2.2.1
          then 0 else 1) +
          (syncBillLineItems env now
          { db2 with
              bills := (upsertRow (fun x => x.id) (fun x => x.clioId) db2.bills db2.nextId
                (toString cb.id) (billUpd cb mId cId now) (billMk cb mId cId now)).1
              nextId := (upsertRow (fun x => x.id) (fun x => x.clioId) db2.bills db2.nextId
                (toString cb.id) (billUpd cb mId cId now) (billMk cb mId cId now)).2.2.2 }
          cbid
          (upsertRow (fun x => x.id) (fun x => x.clioId) db2.bills db2.nextId
            (toString cb.id) (billUpd cb mId cId now) (billMk cb mId cId now)).2.1).2.recordsUpdated,
        (syncBillLineItems env now
          { db2 with
              bills := (upsertRow (fun x => x.id) (fun x => x.clioId) db2.bills db2.nextId
                (toString cb.id) (billUpd cb mId cId now) (billMk cb mId cId now)).1
              nextId := (upsertRow (fun x => x.id) (fun x => x.clioId) db2.bills db2.nextId
                (toString cb.id) (billUpd cb mId cId now) (billMk cb mId cId now)).2.2.2 }
          cbid
          (upsertRow (fun x => x.id) (fun x => x.clioId) db2.bills db2.nextId
            (toString cb.id) (billUpd cb mId cId now) (billMk cb mId cId now)).2.1).2.errors,
        some (upsertRow (fun x => x.id) (fun x => x.clioId) db2.bills db2.nextId
            (toString cb.id) (billUpd cb mId cId now) (billMk cb mId cId now)).2.1,
        some (toString cb.id)⟩) := rfl

end Sync
namespace Sync

/-- Repeating the bill upsert + line-item pass with the same resolved
foreign keys is a no-op that creates nothing. -/
theorem syncBillUpsert_twice (env : SyncEnv) (now : Nat) (cb : ClioBillData)
    (mId cId : Option Nat) (cbid : Nat) (db2 : DB)
    (hinv : dbInv db2)
    (hli : ∀ items, env.getAllBillLineItems cbid = .ok items →
      (items.map lineItemKey).Nodup) :
    (syncBillUpsert env now cb mId cId cbid
        (syncBillUpsert env now cb mId cId cbid db2).1).1 =
      (syncBillUpsert env now cb mId cId cbid db2).1 ∧
    (syncBillUpsert env now cb mId cId cbid
        (syncBillUpsert env now cb mId cId cbid db2).1).2.recordsCreated = 0 := by
  obtain ⟨rbill, hrfind, hrfix, hrid⟩ := upsertRow_state (·.id) (·.clioId) (toString cb.id)
    (billUpd cb mId cId now) (billMk cb mId cId now) db2.bills db2.nextId
    (billUpd_key cb mId cId now) (billUpd_id cb mId cId now) (billUpd_idem cb mId cId now)
    (billUpd_mk cb mId cId now) (billMk_key cb mId cId now) (billMk_id cb mId cId now)
  have hup := upsertRow_tableInv (·.id) (·.clioId) db2.bills db2.nextId (toString cb.id)
    (billUpd cb mId cId now) (billMk cb mId cId now)
    (billUpd_key cb mId cId now) (billUpd_id cb mId cId now)
    (billMk_key cb mId cId now) (billMk_id cb mId cId now) hinv.2.2.2.1
  have hinv3 : dbInv { db2 with
      bills := (upsertRow (fun x => x.id) (fun x => x.clioId) db2.bills db2.nextId
        (toString cb.id) (billUpd cb mId cId now) (billMk cb mId cId now)).1
      nextId := (upsertRow (fun x => x.id) (fun x => x.clioId) db2.bills db2.nextId
        (toString cb.id) (billUpd cb mId cId now) (billMk cb mId cId now)).2.2.2 } :=
    ⟨tableInv_mono _ _ _ _ _ hinv.1 hup.2, tableInv_mono _ _ _ _ _ hinv.2.1 hup.2,
     tableInv_mono _ _ _ _ _ hinv.2.2.1 hup.2, hup.1,
     tableInv_mono _ _ _ _ _ hinv.2.2.2.2 hup.2⟩
  have hinvF := syncBillLineItems_inv env now
    { db2 with
      bills := (upsertRow (fun x => x.id) (fun x => x.clioId) db2.bills db2.nextId
        (toString cb.id) (billUpd cb mId cId now) (billMk cb mId cId now)).1
      nextId := (upsertRow (fun x => x.id) (fun x => x.clioId) db2.bills db2.nextId
        (toString cb.id) (billUpd cb mId cId now) (billMk cb mId cId now)).2.2.2 }
    cbid
    (upsertRow (fun x => x.id) (fun x => x.clioId) db2.bills db2.nextId
      (toString cb.id) (billUpd cb mId cId now) (billMk cb mId cId now)).2.1
    hinv3
  have hframe := syncBillLineItems_frame env now
    { db2 with
      bills := (upsertRow (fun x => x.id) (fun x => x.clioId) db2.bills db2.nextId
        (toString cb.id) (billUpd cb mId cId now) (billMk cb mId cId now)).1
      nextId := (upsertRow (fun x => x.id) (fun x => x.clioId) db2.bills db2.nextId
        (toString cb.id) (billUpd cb mId cId now) (billMk cb mId cId now)).2.2.2 }
    cbid
    (upsertRow (fun x => x.id) (fun x => x.clioId) db2.bills db2.nextId
      (toString cb.id) (billUpd cb mId cId now) (billMk cb mId cId now)).2.1
  have h2noop := upsertRow_noop (·.id) (·.clioId) (toString cb.id)
    (billUpd cb mId cId now) (billMk cb mId cId now)
    (syncBillLineItems env now
      { db2 with
        bills := (upsertRow (fun x => x.id) (fun x => x.clioId) db2.bills db2.nextId
          (toString cb.id) (billUpd cb mId cId now) (billMk cb mId cId now)).1
        nextId := (upsertRow (fun x => x.id) (fun x => x.clioId) db2.bills db2.nextId
          (toString cb.id) (billUpd cb mId cId now) (billMk cb mId cId now)).2.2.2 }
      cbid
      (upsertRow (fun x => x.id) (fun x => x.clioId) db2.bills db2.nextId
        (toString cb.id) (billUpd cb mId cId now) (billMk cb mId cId now)).2.1).1.bills
    (syncBillLineItems env now
      { db2 with
        bills := (upsertRow (fun x => x.id) (fun x => x.clioId) db2.bills db2.nextId
          (toString cb.id) (billUpd cb mId cId now) (billMk cb mId cId now)).1
        nextId := (upsertRow (fun x => x.id) (fun x => x.clioId) db2.bills db2.nextId
          (toString cb.id) (billUpd cb mId cId now) (billMk cb mId cId now)).2.2.2 }
      cbid
      (upsertRow (fun x => x.id) (fun x => x.clioId) db2.bills db2.nextId
        (toString cb.id) (billUpd cb mId cId now) (billMk cb mId cId now)).2.1).1.nextId
    rbill
    (by rw [hframe.2.2.2.1]; exact hrfind) hrfix hinvF.2.2.2.1.2.1
  have htw := syncBillLineItems_twice env now
    { db2 with
      bills := (upsertRow (fun x => x.id) (fun x => x.clioId) db2.bills db2.nextId
        (toString cb.id) (billUpd cb mId cId now) (billMk cb mId cId now)).1
      nextId := (upsertRow (fun x => x.id) (fun x => x.clioId) db2.bills db2.nextId
        (toString cb.id) (billUpd cb mId cId now) (billMk cb mId cId now)).2.2.2 }
    cbid
    (upsertRow (fun x => x.id) (fun x => x.clioId) db2.bills db2.nextId
      (toString cb.id) (billUpd cb mId cId now) (billMk cb mId cId now)).2.1
    hinv3 hli
  simp only [syncBillUpsert_eq]
  simp only [h2noop]
  rw [hrid]
  refine ⟨htw.1, ?_⟩
  rw [htw.2]
  decide

end Sync
namespace Sync

/-- At a later store `X` holding the first run's client and matter rows,
both the matter sync and the client sync of a bill replay as no-ops with
the first run's results. -/
theorem syncBill_replay_aux (env : SyncEnv) (db X : DB) (mid cidb : Nat)
    (hcons : contactsConsistent env)
    (hinvX : dbInv X)
    (hinv1 : dbInv (syncMatter env db mid).1)
    (husers : X.users = db.users)
    (hmatters : X.matters = (syncMatter env db mid).1.matters)
    (hclients : X.clients =
      (syncClient env (syncMatter env db mid).1 cidb).1.clients) :
    syncMatter env X mid = (X, (syncMatter env db mid).2) ∧
    syncClient env X cidb =
      (X, (syncClient env (syncMatter env db mid).1 cidb).2) := by
  constructor
  · refine syncMatter_replay env db X mid hinvX husers hmatters ?_
    intro cidc contact r hc hfind hfix
    obtain ⟨r', hfind', hfix', hid'⟩ := syncClient_keeps_done env
      (syncMatter env db mid).1 cidb cidc contact r hcons hc hfind hfix
      hinv1.2.1.2.1
    exact ⟨r', by rw [hclients]; exact hfind', hfix', hid'⟩
  · rcases hc2 : env.getContact cidb with ec | contactb
    · simp [syncClient, hc2]
    · obtain ⟨rb, hrbfind, hrbfix, hrbid⟩ :=
        syncClient_state env (syncMatter env db mid).1 cidb contactb hc2
      rw [hrbid]
      exact syncClient_noop env X cidb contactb rb hc2
        (by rw [hclients]; exact hrbfind) hrbfix hinvX.2.1.2.1

/-- Running `syncBill` a second time against unchanged remote data
leaves the whole store unchanged and creates zero records. -/
theorem syncBill_twice (env : SyncEnv) (now : Nat) (db : DB) (cbid : Nat)
    (hinv : dbInv db) (hcons : contactsConsistent env)
    (hli : ∀ items, env.getAllBillLineItems cbid = .ok items →
      (items.map lineItemKey).Nodup) :
    (syncBill env now (syncBill env now db cbid).1 cbid).1 =
      (syncBill env now db cbid).1 ∧
    (syncBill env now (syncBill env now db cbid).1 cbid).2.recordsCreated = 0 := by
  rcases hbill : env.getBill cbid with e | cb
  · simp [syncBill, hbill]
  · rcases mm : cb.matter_id with _ | mid <;> rcases mc : cb.client_id with _ | cidb
    · simp only [syncBill, hbill, mm, mc]
      exact syncBillUpsert_twice env now cb none none cbid db hinv hli
    · -- client only
      rcases hc2 : env.getContact cidb with ec | contactb
      · have hCX : ∀ Y : DB, syncClient env Y cidb = (Y, none) := fun Y => by
          simp [syncClient, hc2]
        simp only [syncBill, hbill, mm, mc, hCX]
        exact syncBillUpsert_twice env now cb none none cbid db hinv hli
      · obtain ⟨rb, hrbfind, hrbfix, hrbid⟩ := syncClient_state env db cidb contactb hc2
        have hinv1 := syncClient_inv env db cidb hinv
        have hinvF := syncBillUpsert_inv env now cb none (syncClient env db cidb).2 cbid
          (syncClient env db cidb).1 hinv1
        have hfr := syncBillUpsert_frame env now cb none (syncClient env db cidb).2 cbid
          (syncClient env db cidb).1
        have hB : syncClient env
            (syncBillUpsert env now cb none (syncClient env db cidb).2 cbid
              (syncClient env db cidb).1).1 cidb =
            ((syncBillUpsert env now cb none (syncClient env db cidb).2 cbid
              (syncClient env db cidb).1).1, (syncClient env db cidb).2) := by
          have h := syncClient_noop env
            (syncBillUpsert env now cb none (syncClient env db cidb).2 cbid
              (syncClient env db cidb).1).1 cidb contactb rb hc2
            (by rw [hfr.2.1]; exact hrbfind) hrbfix hinvF.2.1.2.1
          rw [h, hrbid]
        simp only [syncBill, hbill, mm, mc, hB]
        exact syncBillUpsert_twice env now cb none (syncClient env db cidb).2 cbid
          (syncClient env db cidb).1 hinv1 hli
    · -- matter only
      have hinv1 := syncMatter_inv env db mid hinv
      have hinvF := syncBillUpsert_inv env now cb (syncMatter env db mid).2 none cbid
        (syncMatter env db mid).1 hinv1
      have hfr := syncBillUpsert_frame env now cb (syncMatter env db mid).2 none cbid
        (syncMatter env db mid).1
      have hA : syncMatter env
          (syncBillUpsert env now cb (syncMatter env db mid).2 none cbid
            (syncMatter env db mid).1).1 mid =
          ((syncBillUpsert env now cb (syncMatter env db mid).2 none cbid
            (syncMatter env db mid).1).1, (syncMatter env db mid).2) := by
        refine syncMatter_replay env db _ mid hinvF
          (hfr.1.trans (syncMatter_frame env db mid).1) hfr.2.2.1 ?_
        intro cidc contact r hc hfind hfix
        exact ⟨r, by rw [hfr.2.1]; exact hfind, hfix, rfl⟩
      simp only [syncBill, hbill, mm, mc, hA]
      exact syncBillUpsert_twice env now cb (syncMatter env db mid).2 none cbid
        (syncMatter env db mid).1 hinv1 hli
    · -- matter and client
      have hinvM := syncMatter_inv env db mid hinv
      have hinv1 := syncClient_inv env (syncMatter env db mid).1 cidb hinvM
      have hinvF := syncBillUpsert_inv env now cb (syncMatter env db mid).2
        (syncClient env (syncMatter env db mid).1 cidb).2 cbid
        (syncClient env (syncMatter env db mid).1 cidb).1 hinv1
      have hfr := syncBillUpsert_frame env now cb (syncMatter env db mid).2
        (syncClient env (syncMatter env db mid).1 cidb).2 cbid
        (syncClient env (syncMatter env db mid).1 cidb).1
      have haux := syncBill_replay_aux env db
        (syncBillUpsert env now cb (syncMatter env db mid).2
          (syncClient env (syncMatter env db mid).1 cidb).2 cbid
          (syncClient env (syncMatter env db mid).1 cidb).1).1 mid cidb hcons hinvF hinvM
        (hfr.1.trans ((syncClient_frame env (syncMatter env db mid).1 cidb).1.trans
          (syncMatter_frame env db mid).1))
        (hfr.2.2.1.trans (syncClient_frame env (syncMatter env db mid).1 cidb).2.1)
        hfr.2.1
      simp only [syncBill, hbill, mm, mc, haux.1, haux.2]
      exact syncBillUpsert_twice env now cb (syncMatter env db mid).2
        (syncClient env (syncMatter env db mid).1 cidb).2 cbid
        (syncClient env (syncMatter env db mid).1 cidb).1 hinv1 hli

end Sync
namespace Sync

/-- The concrete single-bill fixture's remote contacts are
id-consistent. -/
theorem contactsConsistent_envC2 : contactsConsistent envC2 := by
  intro cid cid' c c' hc hc' hkey
  simp only [envC2] at hc hc'
  split_ifs at hc hc'
  all_goals simp_all

end Sync

/-! ### Claim theorems -/

open Sync in
/-- C1 (counterexample): in `syncAwaitingApprovalBills` a pass whose
error list is non-empty (bill 3 of 5 failed to fetch) is nonetheless
closed with status COMPLETED, not FAILED — refuting the claim that the
log status is FAILED whenever the pass's error list is non-empty. -/
theorem claim_C1_counterexample :
    (syncAwaitingApprovalBills envC6 7777 emptyDB).2.errors ≠ [] ∧
    (syncAwaitingApprovalBills envC6 7777 emptyDB).1.logEvents =
      [LogEvent.created 0 SyncType.BILLS SyncStatus.RUNNING,
       LogEvent.closed 0 SyncStatus.COMPLETED 4 none] ∧
    (syncAwaitingApprovalBills envC6 7777 emptyDB).1.syncLogs =
      [⟨0, SyncType.BILLS, SyncStatus.COMPLETED, 4, none, some 7777⟩] := by
  refine ⟨by decide, by decide, by decide⟩
open Sync in
/-- C1 (amended): every reconciliation pass (`syncUsers`,
`syncAwaitingApprovalBills`) creates exactly one SyncRun log row with
status RUNNING before any record is processed and closes it exactly once
when the pass ends (one created-event then one closed-event, the final
row carrying the closed status, the processed-record count and a
completion timestamp, and never being touched again).  The closing
status is COMPLETED when no exception aborted the pass — even if the
per-record error list is non-empty — and FAILED, with the thrown error's
text, when the pass was aborted (remote fetch threw, or no Clio client
was available); the processed-record count is stored in both cases. -/
theorem claim_C1_amended :
    (∀ (env : Sync.SyncEnv) (now : Nat) (db : Sync.DB), Sync.logIdsFresh db →
      ∃ st msg,
        (syncUsers env now db).1.logEvents =
          db.logEvents ++
            [LogEvent.created db.nextId SyncType.USERS SyncStatus.RUNNING,
             LogEvent.closed db.nextId st (syncUsers env now db).2.recordsProcessed msg] ∧
        (syncUsers env now db).1.syncLogs =
          db.syncLogs ++
            [⟨db.nextId, SyncType.USERS, st, (syncUsers env now db).2.recordsProcessed,
              msg, some now⟩] ∧
        ((∃ L, env.getAllUsers = .ok L) → st = SyncStatus.COMPLETED ∧ msg = none) ∧
        (∀ e, env.getAllUsers = .error e → st = SyncStatus.FAILED ∧ msg = some e)) ∧
    (∀ (env : Sync.SyncEnv) (now : Nat) (db : Sync.DB), Sync.logIdsFresh db →
      ∃ st msg,
        (syncAwaitingApprovalBills env now db).1.logEvents =
          db.logEvents ++
            [LogEvent.created db.nextId SyncType.BILLS SyncStatus.RUNNING,
             LogEvent.closed db.nextId st
               (syncAwaitingApprovalBills env now db).2.recordsProcessed msg] ∧
        (syncAwaitingApprovalBills env now db).1.syncLogs =
          db.syncLogs ++
            [⟨db.nextId, SyncType.BILLS, st,
              (syncAwaitingApprovalBills env now db).2.recordsProcessed, msg, some now⟩] ∧
        ((env.clientAvailable = true ∧ ∃ L, env.getAllBillsAwaitingApproval = .ok L) →
          st = SyncStatus.COMPLETED ∧ msg = none) ∧
        (env.clientAvailable = false →
          st = SyncStatus.FAILED ∧ msg = some "Error: No valid Clio client available") ∧
        (∀ e, env.getAllBillsAwaitingApproval = .error e → env.clientAvailable = true →
          st = SyncStatus.FAILED ∧ msg = some e)) :=
  ⟨Sync.C1_users_part, Sync.C1_bills_part⟩

open Sync in
/-- C1 (witness): the amended bracketing applied to the concrete 5-bill
fixture on the empty store. -/
theorem claim_C1_amended_witness :
    Sync.logIdsFresh Sync.emptyDB ∧
    (∃ st msg,
      (syncUsers envC6 7777 emptyDB).1.logEvents =
        emptyDB.logEvents ++
          [LogEvent.created emptyDB.nextId SyncType.USERS SyncStatus.RUNNING,
           LogEvent.closed emptyDB.nextId st
             (syncUsers envC6 7777 emptyDB).2.recordsProcessed msg]) := by
  refine ⟨by decide, ?_⟩
  obtain ⟨st, msg, h1, -⟩ := claim_C1_amended.1 envC6 7777 emptyDB (by decide)
  exact ⟨st, msg, h1⟩

open Sync in
/-- C6: over the 5-bill fixture where only bill 3 throws on fetch, the
pass still creates local rows for bills 1, 2, 4 and 5, and its error
list has exactly one entry, referencing bill 3's remote id. -/
theorem claim_C6_partial_failure :
    (syncAwaitingApprovalBills envC6 7777 emptyDB).1.bills.map (·.clioId) =
      ["1", "2", "4", "5"] ∧
    (syncAwaitingApprovalBills envC6 7777 emptyDB).2.errors =
      ["Error syncing bill 3: Error: fetch failed"] ∧
    (syncAwaitingApprovalBills envC6 7777 emptyDB).2.errors.length = 1 ∧
    (syncAwaitingApprovalBills envC6 7777 emptyDB).2.recordsProcessed = 4 := by
  refine ⟨by decide, by decide, by decide, by decide⟩

open Sync in
/-- C7: in `syncBillLineItems` a newly created local activity has
`approvedByTimekeeper = false` (and status ACTIVE); the update path for
an existing activity overwrites the scalar fields from the remote
payload but never writes the approved flag, so an activity approved
before a pass is still approved (same remote id) after any number of
passes, and an approved activity after a pass can only descend from one
approved before it. -/
theorem claim_C7_approved_flag :
    (∀ (users : List Sync.UserRec) (lbid now : Nat) (li : Sync.ClioLineItemData) (n : Nat),
      (Sync.lineItemMk users lbid now li n).approvedByTimekeeper = false ∧
      (Sync.lineItemMk users lbid now li n).status = Sync.ActivityStatus.ACTIVE) ∧
    (∀ (users : List Sync.UserRec) (lbid now : Nat) (li : Sync.ClioLineItemData)
        (r : Sync.ActivityRec),
      (Sync.lineItemUpd users lbid now li r).approvedByTimekeeper = r.approvedByTimekeeper ∧
      (Sync.lineItemUpd users lbid now li r).status = r.status ∧
      (Sync.lineItemUpd users lbid now li r).clioId = r.clioId ∧
      (Sync.lineItemUpd users lbid now li r).billId = some lbid ∧
      (Sync.lineItemUpd users lbid now li r).date = li.date.getD now ∧
      (Sync.lineItemUpd users lbid now li r).description = Clio.jsStrOrNull li.description ∧
      (Sync.lineItemUpd users lbid now li r).quantity = Sync.jsNumOrNull li.quantity ∧
      (Sync.lineItemUpd users lbid now li r).rate = Sync.jsNumOrNull li.price ∧
      (Sync.lineItemUpd users lbid now li r).total = Sync.jsNumOrNull li.total ∧
      (Sync.lineItemUpd users lbid now li r).isBillable = true ∧
      (Sync.lineItemUpd users lbid now li r).syncedAt = now) ∧
    (∀ (env : Sync.SyncEnv) (now cbid lbid n : Nat) (db : Sync.DB) (a : Sync.ActivityRec),
      a ∈ db.activities → a.approvedByTimekeeper = true →
      ∃ a' ∈ (Sync.syncPassIter env now cbid lbid n db).activities,
        a'.clioId = a.clioId ∧ a'.approvedByTimekeeper = true) ∧
    (∀ (env : Sync.SyncEnv) (now cbid lbid : Nat) (db : Sync.DB),
      ∀ a' ∈ (Sync.syncBillLineItems env now db cbid lbid).1.activities,
        a'.approvedByTimekeeper = true →
        ∃ a ∈ db.activities, a.clioId = a'.clioId ∧ a.approvedByTimekeeper = true) := by
  refine ⟨?_, ?_, ?_, ?_⟩
  · intro users lbid now li n
    exact ⟨rfl, rfl⟩
  · intro users lbid now li r
    exact ⟨rfl, rfl, rfl, rfl, rfl, rfl, rfl, rfl, rfl, rfl, rfl⟩
  · intro env now cbid lbid n db a ha hap
    exact Sync.syncPassIter_approved_preserve env now cbid lbid n db a ha hap
  · intro env now cbid lbid db a' ha' hap'
    exact Sync.syncBillLineItems_approved_origin env now db cbid lbid a' ha' hap'

open Sync in
/-- C7 (witness): three passes over the single-bill fixture leave the
already-approved activity (remote id 61) approved. -/
theorem claim_C7_approved_flag_witness :
    ∃ a' ∈ (Sync.syncPassIter envC2 1100 41 5 3 dbC7).activities,
      a'.clioId = "61" ∧ a'.approvedByTimekeeper = true := by
  have h := claim_C7_approved_flag.2.2.1 envC2 1100 41 5 3 dbC7
    ⟨0, "61", some 5, ActivityType.TIME_ENTRY, 1100, none, none, none, none,
      some "Old text", some 1, some 100, some 100, true, none, none, 900,
      ActivityStatus.ACTIVE, true⟩ (by decide) rfl
  exact h

open Sync in
/-- C8: every push operation (`pushActivityToClio`, `holdActivityInClio`,
`deleteActivityInClio`, `approveBillInClio`, `voidBillInClio`) updates
the local record only after the remote write succeeded: whenever the
result is a failure (missing client, missing local record, etag fetch or
remote call threw) the local store is unchanged and an error is
reported; any remote write actually issued forwards exactly the
concurrency token fetched immediately beforehand for that record; and a
success performs the local update after a successful remote call. -/
theorem claim_C8_push_after_remote :
    (∀ (env : Sync.PushEnv) (now : Nat) (db : Sync.DB) (aid : Nat)
        (upds : Sync.ActivityUpdates),
      ((Sync.pushActivityToClio env now db aid upds).2.1.success = false →
        (Sync.pushActivityToClio env now db aid upds).1 = db ∧
        (Sync.pushActivityToClio env now db aid upds).2.1.error ≠ none) ∧
      ((Sync.pushActivityToClio env now db aid upds).2.2 = [] ∨
        ∃ a etag, db.activities.find? (fun x => x.id == aid) = some a ∧
          env.getActivityEtag (Sync.parseClioId a.clioId) = .ok etag ∧
          (Sync.pushActivityToClio env now db aid upds).2.2 =
            [Sync.RemoteWrite.updateActivity (Sync.parseClioId a.clioId) etag]) ∧
      ((Sync.pushActivityToClio env now db aid upds).2.1.success = true →
        ∃ a etag, db.activities.find? (fun x => x.id == aid) = some a ∧
          env.getActivityEtag (Sync.parseClioId a.clioId) = .ok etag ∧
          env.updateActivity (Sync.parseClioId a.clioId) etag = .ok () ∧
          (Sync.pushActivityToClio env now db aid upds).1 =
            { db with activities := db.activities.map (fun x =>
                if x.id = aid then Sync.pushActivityLocalUpdate upds now x else x) })) ∧
    (∀ (env : Sync.PushEnv) (now : Nat) (db : Sync.DB) (aid : Nat),
      ((Sync.holdActivityInClio env now db aid).2.1.success = false →
        (Sync.holdActivityInClio env now db aid).1 = db ∧
        (Sync.holdActivityInClio env now db aid).2.1.error ≠ none) ∧
      ((Sync.holdActivityInClio env now db aid).2.2 = [] ∨
        ∃ a etag, db.activities.find? (fun x => x.id == aid) = some a ∧
          env.getActivityEtag (Sync.parseClioId a.clioId) = .ok etag ∧
          (Sync.holdActivityInClio env now db aid).2.2 =
            [Sync.RemoteWrite.holdActivity (Sync.parseClioId a.clioId) etag]) ∧
      ((Sync.holdActivityInClio env now db aid).2.1.success = true →
        ∃ a etag, db.activities.find? (fun x => x.id == aid) = some a ∧
          env.getActivityEtag (Sync.parseClioId a.clioId) = .ok etag ∧
          env.holdActivity (Sync.parseClioId a.clioId) etag = .ok () ∧
          (Sync.holdActivityInClio env now db aid).1 =
            { db with activities := db.activities.map (fun x =>
                if x.id = aid then
                  { x with status := Sync.ActivityStatus.HELD, billId := none, syncedAt := now }
                else x) })) ∧
    (∀ (env : Sync.PushEnv) (now : Nat) (db : Sync.DB) (aid : Nat),
      ((Sync.deleteActivityInClio env now db aid).2.1.success = false →
        (Sync.deleteActivityInClio env now db aid).1 = db ∧
        (Sync.deleteActivityInClio env now db aid).2.1.error ≠ none) ∧
      ((Sync.deleteActivityInClio env now db aid).2.2 = [] ∨
        ∃ a etag, db.activities.find? (fun x => x.id == aid) = some a ∧
          env.getActivityEtag (Sync.parseClioId a.clioId) = .ok etag ∧
          (Sync.deleteActivityInClio env now db aid).2.2 =
            [Sync.RemoteWrite.deleteActivity (Sync.parseClioId a.clioId) etag]) ∧
      ((Sync.deleteActivityInClio env now db aid).2.1.success = true →
        ∃ a etag, db.activities.find? (fun x => x.id == aid) = some a ∧
          env.getActivityEtag (Sync.parseClioId a.clioId) = .ok etag ∧
          env.deleteActivity (Sync.parseClioId a.clioId) etag = .ok () ∧
          (Sync.deleteActivityInClio env now db aid).1 =
            { db with activities := db.activities.map (fun x =>
                if x.id = aid then
                  { x with status := Sync.ActivityStatus.DELETED, syncedAt := now }
                else x) })) ∧
    (∀ (env : Sync.PushEnv) (now : Nat) (db : Sync.DB) (bid : Nat),
      ((Sync.approveBillInClio env now db bid).2.1.success = false →
        (Sync.approveBillInClio env now db bid).1 = db ∧
        (Sync.approveBillInClio env now db bid).2.1.error ≠ none) ∧
      ((Sync.approveBillInClio env now db bid).2.2 = [] ∨
        ∃ b etag, db.bills.find? (fun x => x.id == bid) = some b ∧
          env.getBillEtag (Sync.parseClioId b.clioId) = .ok etag ∧
          (Sync.approveBillInClio env now db bid).2.2 =
            [Sync.RemoteWrite.updateBillState (Sync.parseClioId b.clioId)
              "awaiting_payment" etag]) ∧
      ((Sync.approveBillInClio env now db bid).2.1.success = true →
        ∃ b etag, db.bills.find? (fun x => x.id == bid) = some b ∧
          env.getBillEtag (Sync.parseClioId b.clioId) = .ok etag ∧
          env.updateBillState (Sync.parseClioId b.clioId) "awaiting_payment" etag = .ok () ∧
          (Sync.approveBillInClio env now db bid).1 =
            { db with bills := db.bills.map (fun x =>
                if x.id = bid then
                  { x with
                      clioStatus := "awaiting_payment"
                      workflowStatus := Sync.WorkflowStatus.APPROVED
                      approvedAt := some now
                      syncedAt := now }
                else x) })) ∧
    (∀ (env : Sync.PushEnv) (now : Nat) (db : Sync.DB) (bid : Nat),
      ((Sync.voidBillInClio env now db bid).2.1.success = false →
        (Sync.voidBillInClio env now db bid).1 = db ∧
        (Sync.voidBillInClio env now db bid).2.1.error ≠ none) ∧
      ((Sync.voidBillInClio env now db bid).2.2 = [] ∨
        ∃ b etag, db.bills.find? (fun x => x.id == bid) = some b ∧
          env.getBillEtag (Sync.parseClioId b.clioId) = .ok etag ∧
          (Sync.voidBillInClio env now db bid).2.2 =
            [Sync.RemoteWrite.deleteBill (Sync.parseClioId b.clioId) etag]) ∧
      ((Sync.voidBillInClio env now db bid).2.1.success = true →
        ∃ b etag, db.bills.find? (fun x => x.id == bid) = some b ∧
          env.getBillEtag (Sync.parseClioId b.clioId) = .ok etag ∧
          env.deleteBill (Sync.parseClioId b.clioId) etag = .ok () ∧
          (Sync.voidBillInClio env now db bid).1 =
            { db with bills := db.bills.map (fun x =>
                if x.id = bid then
                  { x with
                      clioStatus := "deleted"
                      workflowStatus := Sync.WorkflowStatus.VOIDED
                      syncedAt := now }
                else x) })) :=
  ⟨Sync.pushActivityToClio_spec, Sync.holdActivityInClio_spec,
   Sync.deleteActivityInClio_spec, Sync.approveBillInClio_spec,
   Sync.voidBillInClio_spec⟩

open Sync in
/-- C8 (witness): with no Clio client available every push fails and
leaves the store untouched. -/
theorem claim_C8_push_after_remote_witness :
    (Sync.pushActivityToClio Sync.pushEnvNoClient 1 Sync.emptyDB 0
      ⟨none, none, none, none, none⟩).1 = Sync.emptyDB ∧
    (Sync.holdActivityInClio Sync.pushEnvNoClient 1 Sync.emptyDB 0).1 = Sync.emptyDB ∧
    (Sync.deleteActivityInClio Sync.pushEnvNoClient 1 Sync.emptyDB 0).1 = Sync.emptyDB ∧
    (Sync.approveBillInClio Sync.pushEnvNoClient 1 Sync.emptyDB 0).1 = Sync.emptyDB ∧
    (Sync.voidBillInClio Sync.pushEnvNoClient 1 Sync.emptyDB 0).1 = Sync.emptyDB :=
  ⟨((claim_C8_push_after_remote.1 Sync.pushEnvNoClient 1 Sync.emptyDB 0
      ⟨none, none, none, none, none⟩).1 rfl).1,
   ((claim_C8_push_after_remote.2.1 Sync.pushEnvNoClient 1 Sync.emptyDB 0).1 rfl).1,
   ((claim_C8_push_after_remote.2.2.1 Sync.pushEnvNoClient 1 Sync.emptyDB 0).1 rfl).1,
   ((claim_C8_push_after_remote.2.2.2.1 Sync.pushEnvNoClient 1 Sync.emptyDB 0).1 rfl).1,
   ((claim_C8_push_after_remote.2.2.2.2 Sync.pushEnvNoClient 1 Sync.emptyDB 0).1 rfl).1⟩

/-- C3: when the remote answers HTTP 500 with the same body to every
attempt, `ClioClient.request` issues exactly `MAX_RETRIES + 1` (= 4)
fetches and surfaces a terminal error carrying the last observed status
and body; and for any remote behavior the retry recursion (one shared
`retryCount` across the 429/401/5xx/network classes) terminates, issuing
at most `2 ^ (MAX_RETRIES + 1 - retryCount) - 1` fetches. -/
theorem claim_C3_retry_cap :
    (∀ (env : Clio.RequestEnv) (body : String),
      (∀ k, env.fetch k = .ok ⟨500, body, none⟩) →
      Clio.requestGo env 0 0 =
        (.error (.error ("Clio API error: 500 - " ++ body)), Clio.MAX_RETRIES + 1)) ∧
    (∀ (env : Clio.RequestEnv) (idx rc : Nat), rc ≤ Clio.MAX_RETRIES →
      (Clio.requestGo env idx rc).2 ≤ 2 ^ (Clio.MAX_RETRIES + 1 - rc) - 1) := by
  constructor
  · intro env body h
    exact Clio.requestGo_all500 env body h 0 0 (by norm_num [Clio.MAX_RETRIES])
  · intro env idx rc h
    exact Clio.requestGo_attempts_le env rc idx h

/-- C3 (witness): the all-500 remote stops after exactly 4 attempts. -/
theorem claim_C3_retry_cap_witness :
    Clio.requestGo Clio.env500 0 0 =
      (.error (.error ("Clio API error: 500 - " ++ "remote exploded")),
       Clio.MAX_RETRIES + 1) ∧
    (Clio.requestGo Clio.env500 0 0).2 ≤ 2 ^ (Clio.MAX_RETRIES + 1 - 0) - 1 :=
  ⟨claim_C3_retry_cap.1 Clio.env500 "remote exploded" (fun _ => rfl),
   claim_C3_retry_cap.2 Clio.env500 0 0 (by norm_num [Clio.MAX_RETRIES])⟩

/-- C4: `fetchAllPages` advances the server-supplied `page_token`
sequentially, accumulating every page's data array in received order
into one eagerly materialized list, and stops exactly when a response
omits the next cursor; on the 3-page fixture (10/10/4 items) it returns
the flat 24-item sequence in original order. -/
theorem claim_C4_pagination :
    (∀ (α : Type) (server : Option String → Clio.PageResponse α) (fuel : Nat)
        (tok : Option String),
      Clio.nextToken (server tok) = none →
      Clio.fetchAllPagesGo server (fuel + 1) tok = Clio.pageData (server tok)) ∧
    (∀ (α : Type) (server : Option String → Clio.PageResponse α) (fuel : Nat)
        (tok : Option String) (t : String),
      Clio.nextToken (server tok) = some t →
      Clio.fetchAllPagesGo server (fuel + 1) tok =
        Clio.pageData (server tok) ++ Clio.fetchAllPagesGo server fuel (some t)) ∧
    Clio.fetchAllPages Clio.fixtureServer 3 = List.range 24 := by
  refine ⟨?_, ?_, by decide⟩
  · intro α server fuel tok h
    simp only [Clio.fetchAllPagesGo, h]
  · intro α server fuel tok t h
    simp only [Clio.fetchAllPagesGo, h]

/-- C4 (witness): the stop and advance cases at concrete fixture pages. -/
theorem claim_C4_pagination_witness :
    Clio.fetchAllPagesGo Clio.fixtureServer 1 (some "p3") =
      Clio.pageData (Clio.fixtureServer (some "p3")) ∧
    Clio.fetchAllPagesGo Clio.fixtureServer 2 (some "p2") =
      Clio.pageData (Clio.fixtureServer (some "p2")) ++
        Clio.fetchAllPagesGo Clio.fixtureServer 1 (some "p3") :=
  ⟨claim_C4_pagination.1 Nat Clio.fixtureServer 0 (some "p3") rfl,
   claim_C4_pagination.2.1 Nat Clio.fixtureServer 1 (some "p2") "p3" rfl⟩

/-- C9: with a monotone clock and exact sleeps, sequential requests
through one client instance are never issued less than
`RATE_LIMIT_DELAY_MS` (= 250 ms) apart, and N requests take at least
(N-1) x 250 ms of wall time between the first and last issue instants. -/
theorem claim_C9_rate_limiter (last : Nat) (arrivals : List Nat)
    (h : Clio.admissibleArrivals last arrivals = true) :
    (∀ i, i + 1 < (Clio.issueTimes last arrivals).length →
      (Clio.issueTimes last arrivals).getD i 0 + Clio.RATE_LIMIT_DELAY_MS ≤
        (Clio.issueTimes last arrivals).getD (i + 1) 0) ∧
    (1 ≤ arrivals.length →
      (Clio.issueTimes last arrivals).getD 0 0 +
          (arrivals.length - 1) * Clio.RATE_LIMIT_DELAY_MS ≤
        (Clio.issueTimes last arrivals).getD (arrivals.length - 1) 0) := by
  have hchain := Clio.issueTimes_chain arrivals last h
  refine ⟨hchain, ?_⟩
  intro hne
  have hlen := Clio.issueTimes_length arrivals last
  have := Clio.getD_chain_accum (Clio.issueTimes last arrivals)
    Clio.RATE_LIMIT_DELAY_MS hchain (arrivals.length - 1) 0 (by omega)
  simpa using this

/-- C9 (witness): three requests arriving at 1000, 1100 and 1600 ms. -/
theorem claim_C9_rate_limiter_witness :
    (Clio.issueTimes 0 [1000, 1100, 1600]).getD 0 0 + Clio.RATE_LIMIT_DELAY_MS ≤
      (Clio.issueTimes 0 [1000, 1100, 1600]).getD 1 0 ∧
    (Clio.issueTimes 0 [1000, 1100, 1600]).getD 0 0 +
        ([1000, 1100, 1600].length - 1) * Clio.RATE_LIMIT_DELAY_MS ≤
      (Clio.issueTimes 0 [1000, 1100, 1600]).getD ([1000, 1100, 1600].length - 1) 0 :=
  ⟨(claim_C9_rate_limiter 0 [1000, 1100, 1600] (by decide)).1 0 (by decide),
   (claim_C9_rate_limiter 0 [1000, 1100, 1600] (by decide)).2 (by decide)⟩
/-- C5 (counterexample): a refresh triggered with the cached expiry
200 s out, when the server grants only `expires_in = 100` s, invokes the
callback exactly once but caches a NEW expiry (now + 100 s = 500100000)
strictly EARLIER than the previously cached one (500200000) — refuting
"the new expiry is strictly later than the previously cached one". -/
theorem claim_C5_counterexample :
    Clio.isTokenExpired Clio.staleClient 500000000 = true ∧
    (Clio.refreshAccessToken Clio.staleClient true 500000000
      (.ok Clio.shortTokens)).callbackCalls.length = 1 ∧
    Clio.staleClient.tokenExpiry = some 500200000 ∧
    (Clio.refreshAccessToken Clio.staleClient true 500000000
      (.ok Clio.shortTokens)).state.tokenExpiry = some 500100000 ∧
    ¬ (500200000 < 500100000) := by
  refine ⟨by decide, rfl, rfl, rfl, by omega⟩

/-- C5 (amended): if the cached expiry is less than 5 minutes in the
future, the client refreshes before sending the next request; every
successful refresh invokes the caller-supplied callback exactly once
with the new access token, new refresh token and new expiry
`now + expires_in * 1000`; and the new expiry is strictly later than the
previously cached one whenever the server grants at least the 5-minute
safety margin (`expires_in >= 300` s) — with a shorter grant it can be
earlier. -/
theorem claim_C5_amended :
    (∀ (c : Clio.ClientState) (a : String) (now : Nat) (hasCb : Bool)
        (srv : Except String Clio.TokenResponse) (env : Clio.RequestEnv),
      c.accessToken = some a → Clio.isTokenExpired c now = true →
      (Clio.request c hasCb now srv env).refreshedBeforeSend = true) ∧
    (∀ (c : Clio.ClientState) (rt : String) (now : Nat) (t : Clio.TokenResponse),
      c.refreshToken = some rt →
      (Clio.refreshAccessToken c true now (.ok t)).callbackCalls =
        [(t.access_token, t.refresh_token, now + t.expires_in * 1000)] ∧
      (Clio.refreshAccessToken c true now (.ok t)).state.tokenExpiry =
        some (now + t.expires_in * 1000)) ∧
    (∀ (c : Clio.ClientState) (rt : String) (now old : Nat) (t : Clio.TokenResponse),
      c.refreshToken = some rt → c.tokenExpiry = some old →
      Clio.isTokenExpired c now = true → 300 ≤ t.expires_in →
      old < now + t.expires_in * 1000) := by
  refine ⟨?_, ?_, ?_⟩
  · intro c a now hasCb srv env hat hex
    simp only [Clio.request, hat, hex, if_true]
    rcases hr : (Clio.refreshAccessToken c hasCb now srv).result with e | tk <;> rfl
  · intro c rt now t hrt
    simp only [Clio.refreshAccessToken, hrt]
    exact ⟨by simp, trivial⟩
  · intro c rt now old t hrt hold hex h300
    simp only [Clio.isTokenExpired, hold, decide_eq_true_eq] at hex
    omega

/-- C5 (witness): the stale client refreshed with a 30-day grant caches
a strictly later expiry, and the proactive-refresh and exactly-one-
callback parts at the same concrete inputs. -/
theorem claim_C5_amended_witness :
    (Clio.request Clio.staleClient true 500000000 (.ok Clio.longTokens)
      ⟨fun _ => .ok ⟨200, "{}", none⟩, fun _ => .ok ()⟩).refreshedBeforeSend = true ∧
    (Clio.refreshAccessToken Clio.staleClient true 500000000
      (.ok Clio.longTokens)).callbackCalls =
      [("tokA3", "tokR3", 500000000 + 2592000 * 1000)] ∧
    (500200000 : Nat) < 500000000 + 2592000 * 1000 :=
  ⟨claim_C5_amended.1 Clio.staleClient "tokA" 500000000 true (.ok Clio.longTokens)
      ⟨fun _ => .ok ⟨200, "{}", none⟩, fun _ => .ok ()⟩ rfl (by decide),
   (claim_C5_amended.2.1 Clio.staleClient "tokR" 500000000 Clio.longTokens rfl).1,
   claim_C5_amended.2.2 Clio.staleClient "tokR" 500000000 500200000 Clio.longTokens
     rfl rfl (by decide) (by norm_num [Clio.longTokens])⟩

/-- C10: a freshly constructed `ClioClient` (constructor or
`createClioClient`) has no cached `tokenExpiry`, `isTokenExpired`
returns false whenever `tokenExpiry` is null, so a fresh client never
performs the proactive pre-request refresh — that path requires a
non-null `tokenExpiry`, which only `refreshAccessToken` sets. -/
theorem claim_C10_fresh_client_no_refresh :
    (∀ (a r : Option String), (Clio.ClioClient.construct a r).tokenExpiry = none) ∧
    (∀ (a : String) (r : Option String), (Clio.createClioClient a r).tokenExpiry = none) ∧
    (∀ (c : Clio.ClientState) (now : Nat), c.tokenExpiry = none →
      Clio.isTokenExpired c now = false) ∧
    (∀ (a r : Option String) (now : Nat),
      Clio.isTokenExpired (Clio.ClioClient.construct a r) now = false) ∧
    (∀ (a r : Option String) (now : Nat) (hasCb : Bool)
        (srv : Except String Clio.TokenResponse) (env : Clio.RequestEnv),
      (Clio.request (Clio.ClioClient.construct a r) hasCb now srv env).refreshedBeforeSend
        = false) ∧
    (∀ (c : Clio.ClientState) (now : Nat),
      Clio.isTokenExpired c now = true → c.tokenExpiry ≠ none) := by
  refine ⟨fun a r => rfl, fun a r => rfl, ?_, ?_, ?_, ?_⟩
  · intro c now h
    simp [Clio.isTokenExpired, h]
  · intro a r now
    simp [Clio.isTokenExpired, Clio.ClioClient.construct]
  · intro a r now hasCb srv env
    rcases hat : (Clio.ClioClient.construct a r).accessToken with _ | tok
    · simp [Clio.request, hat]
    · simp only [Clio.request, hat]
      have hex : Clio.isTokenExpired (Clio.ClioClient.construct a r) now = false := by
        simp [Clio.isTokenExpired, Clio.ClioClient.construct]
      simp [hex]
  · intro c now h hnone
    simp [Clio.isTokenExpired, hnone] at h

/-- C10 (witness): the freshly created client at a concrete instant. -/
theorem claim_C10_fresh_client_no_refresh_witness :
    Clio.isTokenExpired (Clio.ClioClient.construct (some "x") none) 12345 = false ∧
    (Clio.request (Clio.ClioClient.construct (some "x") none) true 12345
      (.error "no server") ⟨fun _ => .ok ⟨200, "{}", none⟩, fun _ => .ok ()⟩).refreshedBeforeSend = false ∧
    Clio.staleClient.tokenExpiry ≠ none :=
  ⟨claim_C10_fresh_client_no_refresh.2.2.2.1 (some "x") none 12345,
   claim_C10_fresh_client_no_refresh.2.2.2.2.1 (some "x") none 12345 true
     (.error "no server") ⟨fun _ => .ok ⟨200, "{}", none⟩, fun _ => .ok ()⟩,
   claim_C10_fresh_client_no_refresh.2.2.2.2.2 Clio.staleClient 500000000 (by decide)⟩

open Sync in
/-- C2: reconciliation is an idempotent upsert keyed by remote id: for
each entity pass (users, client, matter, bill with its line items),
running the pass twice against unchanged remote data creates zero
records on the second run and leaves the store's rows identical; and
the store keeps at most one local row per remote id (clioId) in every
entity table. -/
theorem claim_C2 (env : Sync.SyncEnv) (now : Nat) (db : Sync.DB) (cbid : Nat)
    (L : List Sync.ClioUserData)
    (hinv : Sync.dbInv db)
    (hcons : Sync.contactsConsistent env)
    (husers : env.getAllUsers = .ok L)
    (hLnodup : (L.map (fun u => toString u.id)).Nodup)
    (hli : ∀ items, env.getAllBillLineItems cbid = .ok items →
      (items.map Sync.lineItemKey).Nodup) :
    ((Sync.syncUsers env now (Sync.syncUsers env now db).1).1.users =
        (Sync.syncUsers env now db).1.users ∧
      (Sync.syncUsers env now (Sync.syncUsers env now db).1).2.recordsCreated = 0) ∧
    (∀ cid, Sync.syncClient env (Sync.syncClient env db cid).1 cid =
      Sync.syncClient env db cid) ∧
    (∀ mid, Sync.syncMatter env (Sync.syncMatter env db mid).1 mid =
      Sync.syncMatter env db mid) ∧
    ((Sync.syncBill env now (Sync.syncBill env now db cbid).1 cbid).1 =
        (Sync.syncBill env now db cbid).1 ∧
      (Sync.syncBill env now (Sync.syncBill env now db cbid).1 cbid).2.recordsCreated = 0) ∧
    (Sync.dbInv (Sync.syncBill env now db cbid).1 ∧
      ∀ key,
        ((Sync.syncBill env now db cbid).1.users.filter
          (fun x => x.clioId == key)).length ≤ 1 ∧
        ((Sync.syncBill env now db cbid).1.clients.filter
          (fun x => x.clioId == key)).length ≤ 1 ∧
        ((Sync.syncBill env now db cbid).1.matters.filter
          (fun x => x.clioId == key)).length ≤ 1 ∧
        ((Sync.syncBill env now db cbid).1.bills.filter
          (fun x => x.clioId == key)).length ≤ 1 ∧
        ((Sync.syncBill env now db cbid).1.activities.filter
          (fun x => x.clioId == key)).length ≤ 1) := by
  refine ⟨Sync.syncUsers_twice env now now db L hinv husers hLnodup,
    fun cid => Sync.syncClient_twice env db cid hinv,
    fun mid => Sync.syncMatter_twice env db mid hinv,
    Sync.syncBill_twice env now db cbid hinv hcons hli, ?_⟩
  have hinvB := Sync.syncBill_inv env now db cbid hinv
  exact ⟨hinvB, fun key =>
    ⟨Sync.nodup_filter_le_one _ _ key hinvB.1.2.2,
     Sync.nodup_filter_le_one _ _ key hinvB.2.1.2.2,
     Sync.nodup_filter_le_one _ _ key hinvB.2.2.1.2.2,
     Sync.nodup_filter_le_one _ _ key hinvB.2.2.2.1.2.2,
     Sync.nodup_filter_le_one _ _ key hinvB.2.2.2.2.2.2⟩⟩

open Sync in
/-- C2 (witness): on the single-bill fixture from the empty store, the
second bill pass changes nothing and creates zero records, and the
resulting store satisfies the per-table uniqueness invariant. -/
theorem claim_C2_witness :
    (Sync.syncBill envC2 1000 (Sync.syncBill envC2 1000 Sync.emptyDB 41).1 41).1 =
      (Sync.syncBill envC2 1000 Sync.emptyDB 41).1 ∧
    (Sync.syncBill envC2 1000
      (Sync.syncBill envC2 1000 Sync.emptyDB 41).1 41).2.recordsCreated = 0 ∧
    Sync.dbInv (Sync.syncBill envC2 1000 Sync.emptyDB 41).1 ∧
    Sync.syncClient envC2 (Sync.syncClient envC2 Sync.emptyDB 21).1 21 =
      Sync.syncClient envC2 Sync.emptyDB 21 := by
  have h := claim_C2 envC2 1000 Sync.emptyDB 41
    [⟨11, "Alice", "alice@firm.test", true⟩]
    (by decide) Sync.contactsConsistent_envC2 rfl (by decide)
    (by
      intro items hitems
      have h0 : envC2.getAllBillLineItems 41 =
          .ok [⟨51, "TimeEntry", some 11, some 61, some 1200, some "Drafting",
                some 2, some 150, some 300⟩,
               ⟨52, "Expense", none, none, none, some "Filing fee",
                some 0, some 40, some 40⟩] := rfl
      rw [h0] at hitems
      cases hitems
      decide)
  exact ⟨h.2.2.2.1.1, h.2.2.2.1.2, h.2.2.2.2.1, h.2.1 21⟩
